import Mathlib

/-! # LISA coordinator (`Explore/LisaCoordinator.cpp`): a shallow embedding

Conventions of the embedding.

* C++ `int` values are `Int`; the work-partition arithmetic never leaves the
  range `[-1, num_obs]`, so no wrap-around is modelled there.  `uint64_t`
  values (seeds, `countLarger`) are `Nat` reduced modulo `2^64` where the
  source can wrap.
* C++ `double` values are exact rationals (`ℚ`): rounding is not modelled.
* Arrays are total functions on `Int` indices; a vector of arrays is a function
  of two indices (time slice, observation).
* The member pointers `data1`, `data2`, `lags`, `localMoran`, `sigLocalMoran`,
  `sigCat`, `cluster` alias one slice of the corresponding vector; each is
  represented by the index of the slice it points to.
* Loops that the source does not bound (`while (rand < numNeighbors)`) take a
  fuel argument and return `none` when it runs out.
-/

namespace Geoda

/-! ## Machine arithmetic -/

/-- Conversion `(int) x` of a double: truncation toward zero. -/
def toInt (x : ℚ) : Int := Int.tdiv x.num x.den

/-- Conversion of a signed integer to `uint64_t`. -/
def u64 (z : Int) : Nat := (z % 2 ^ 64).toNat

/-- The bound checked on `int` inputs where a theorem needs one (`INT_MAX`). -/
def INT_MAX : Int := 2 ^ 31 - 1

/-! ## Work partition of `CalcPseudoP_threaded` (lines 461-483) -/

/-- Value of `quotient = num_obs / nCPUs` (C++ integer division). -/
def quotient (num_obs nCPUs : Int) : Int := Int.tdiv num_obs nCPUs

/-- Value of `remainder = num_obs % nCPUs`. -/
def remainder (num_obs nCPUs : Int) : Int := Int.tmod num_obs nCPUs

/-- Value of `tot_threads = (quotient > 0) ? nCPUs : remainder`. -/
def tot_threads (num_obs nCPUs : Int) : Int :=
  if quotient num_obs nCPUs > 0 then nCPUs else remainder num_obs nCPUs

/-- First observation `a` of worker `i`. -/
def chunk_a (num_obs nCPUs i : Int) : Int :=
  if i < remainder num_obs nCPUs then
    i * (quotient num_obs nCPUs + 1)
  else
    remainder num_obs nCPUs * (quotient num_obs nCPUs + 1)
      + (i - remainder num_obs nCPUs) * quotient num_obs nCPUs

/-- Last observation `b` of worker `i` (inclusive). -/
def chunk_b (num_obs nCPUs i : Int) : Int :=
  if i < remainder num_obs nCPUs then
    chunk_a num_obs nCPUs i + quotient num_obs nCPUs
  else
    chunk_a num_obs nCPUs i + quotient num_obs nCPUs - 1

/-! ## Collaborators defined outside `LisaCoordinator.cpp` -/

/-- A weights row `GalElement`: the ordered neighbour list of one observation;
`Size()` is its length. -/
abbrev GalElement := List Int

/-- Modelled from the spec: `GalElement::SpatialLag` (the weights classes are not
among the sources).  Section 4.2: the sum over the neighbours of the variable's
value at each neighbour, divided by the neighbour count when row-standardization
is enabled, left as a raw sum otherwise. -/
def SpatialLag_spec (row_standardize : Bool) (nbrs : GalElement) (x : Int → ℚ) : ℚ :=
  if row_standardize then (nbrs.map x).sum / (nbrs.length : ℚ) else (nbrs.map x).sum

/-- Modelled from the spec: `GeoDaSet`, the working set of one permutation (its
header is not among the sources).  Section 4.3 step 1 only needs membership
(`Belongs`), insertion (`Push`) and removal of one element (`Pop`); the elements
are kept in insertion order, most recent first. -/
structure GeoDaSet where
  buffer : List Int
deriving DecidableEq, Repr

/-- State after `GeoDaSet workPermutation(num_obs)`: no element. -/
def GeoDaSet.empty : GeoDaSet := ⟨[]⟩

/-- Membership test `Belongs(elt)`. -/
def GeoDaSet.Belongs (s : GeoDaSet) (elt : Int) : Bool := decide (elt ∈ s.buffer)

/-- Insertion `Push(elt)`. -/
def GeoDaSet.Push (s : GeoDaSet) (elt : Int) : GeoDaSet := ⟨elt :: s.buffer⟩

/-- Removal `Pop()`: the element removed and the remaining set.  The source only
pops after pushing as many elements, so the empty case is never reached there. -/
def GeoDaSet.Pop (s : GeoDaSet) : Int × GeoDaSet :=
  match s.buffer with
  | [] => (-1, s)
  | x :: rest => (x, ⟨rest⟩)

/-- Fields of `GdaVarTools::VarInfo` read by the coordinator. -/
structure VarInfo where
  time : Int
  time_min : Int
  time_max : Int
  is_time_variant : Bool
  sync_with_global_time : Bool
  is_ref_variable : Bool
deriving DecidableEq, Repr, Inhabited

/-! ## Coordinator state -/

/-- Members of `LisaCoordinator` used by the computation passes. -/
structure LisaCoordinator where
  num_obs : Int
  permutations : Int
  calc_significances : Bool
  isBivariate : Bool
  row_standardize : Bool
  num_time_vals : Int
  var_info : List VarInfo
  W : Int → GalElement
  last_seed_used : Nat
  reuse_last_seed : Bool
  data1_vecs : Int → Int → ℚ
  data2_vecs : Int → Int → ℚ
  lags_vecs : Int → Int → ℚ
  local_moran_vecs : Int → Int → ℚ
  sig_local_moran_vecs : Int → Int → ℚ
  sig_cat_vecs : Int → Int → Int
  cluster_vecs : Int → Int → Int
  has_isolates : Int → Bool
  has_undefined : Int → Bool
  data1 : Int
  data2 : Int
  lags : Int
  localMoran : Int
  sigLocalMoran : Int
  sigCat : Int
  cluster : Int

/-- Assignment `v[t][i] = x` into a vector of arrays. -/
def set2 {α : Type} (v : Int → Int → α) (t i : Int) (x : α) : Int → Int → α :=
  fun t' i' => if t' = t ∧ i' = i then x else v t' i'

/-- Assignment `v[t] = x`. -/
def set1 {α : Type} (v : Int → α) (t : Int) (x : α) : Int → α :=
  fun t' => if t' = t then x else v t'

/-- Loop `for (i = lo; i < lo + n; i++) s = body(i, s)`. -/
def forLoop {σ : Type} (body : Int → σ → σ) : Nat → Int → σ → σ
  | 0, _, s => s
  | n + 1, i, s => forLoop body n (i + 1) (body i s)

/-- Loop `for (i = lo; i < lo + n; i++)` whose body may fail to return. -/
def forLoopM {σ : Type} (body : Int → σ → Option σ) : Nat → Int → σ → Option σ
  | 0, _, s => some s
  | n + 1, i, s =>
    match body i s with
    | none => none
    | some s' => forLoopM body n (i + 1) s'

/-- Expression `var_info[1].is_time_variant && var_info[1].sync_with_global_time`. -/
def LisaCoordinator.var1_synced (c : LisaCoordinator) : Bool :=
  (c.var_info.getD 1 default).is_time_variant
    && (c.var_info.getD 1 default).sync_with_global_time

/-! ## `CalcLisa` (lines 349-387) -/

/-- Body of the observation loop of `CalcLisa` for time slice `t`. -/
def CalcLisa_obs (SpatialLag : GalElement → (Int → ℚ) → ℚ) (t : Int) (i : Int)
    (c : LisaCoordinator) : LisaCoordinator :=
  let Wdata : ℚ :=
    if c.isBivariate then SpatialLag (c.W i) (c.data2_vecs c.data2)
    else SpatialLag (c.W i) (c.data1_vecs c.data1)
  let c1 := { c with lags_vecs := set2 c.lags_vecs c.lags i Wdata }
  let c2 := { c1 with
    local_moran_vecs := set2 c1.local_moran_vecs c1.localMoran i (c1.data1_vecs c1.data1 i * Wdata) }
  if ((c2.W i).length : Int) > 0 then
    if c2.data1_vecs c2.data1 i > 0 ∧ Wdata < 0 then
      { c2 with cluster_vecs := set2 c2.cluster_vecs c2.cluster i 4 }
    else if c2.data1_vecs c2.data1 i < 0 ∧ Wdata > 0 then
      { c2 with cluster_vecs := set2 c2.cluster_vecs c2.cluster i 3 }
    else if c2.data1_vecs c2.data1 i < 0 ∧ Wdata < 0 then
      { c2 with cluster_vecs := set2 c2.cluster_vecs c2.cluster i 2 }
    else
      { c2 with cluster_vecs := set2 c2.cluster_vecs c2.cluster i 1 }
  else
    { c2 with
      has_isolates := set1 c2.has_isolates t true
      cluster_vecs := set2 c2.cluster_vecs c2.cluster i 5 }

/-- Lines 352-363 of `CalcLisa`: the member pointers are set to slice `t` (`data2`
to slice 0 unless variable 1 is time-variant and synchronized) and the two flags
of the slice are cleared. -/
def CalcLisa_select (t : Int) (c : LisaCoordinator) : LisaCoordinator :=
  let c1 := { c with data1 := t }
  let c2 :=
    if c1.isBivariate then
      (if c1.var1_synced then { c1 with data2 := t } else { c1 with data2 := 0 })
    else c1
  let c3 := { c2 with lags := t, localMoran := t, cluster := t }
  { c3 with
    has_undefined := set1 c3.has_undefined t false
    has_isolates := set1 c3.has_isolates t false }

/-- Body of the time loop of `CalcLisa`. -/
def CalcLisa_slice (SpatialLag : GalElement → (Int → ℚ) → ℚ) (t : Int)
    (c : LisaCoordinator) : LisaCoordinator :=
  forLoop (CalcLisa_obs SpatialLag t) (CalcLisa_select t c).num_obs.toNat 0
    (CalcLisa_select t c)

/-- The observed-statistic pass `CalcLisa()`. -/
def CalcLisa (SpatialLag : GalElement → (Int → ℚ) → ℚ) (c : LisaCoordinator) :
    LisaCoordinator :=
  forLoop (CalcLisa_slice SpatialLag) c.num_time_vals.toNat 0 c

/-- The variable whose spatial lag slice `t` uses: `data2` in bivariate mode (slice
`t` if variable 1 is time-variant and synchronized, else slice 0), otherwise
`data1` of slice `t`. -/
def lagVariable (c : LisaCoordinator) (t : Int) : Int → ℚ :=
  if c.isBivariate then c.data2_vecs (if c.var1_synced then t else 0) else c.data1_vecs t

/-- The label assigned at lines 376-384 to an observation with value `x`, lag
`Wdata` and `size` neighbours. -/
def clusterOf (x Wdata : ℚ) (size : Nat) : Int :=
  if (size : Int) > 0 then
    if x > 0 ∧ Wdata < 0 then 4
    else if x < 0 ∧ Wdata > 0 then 3
    else if x < 0 ∧ Wdata < 0 then 2
    else 1
  else 5

/-- The coordinator `d` has the inputs of `CalcLisa` that `c` has: everything but
the slice pointers and the vectors `CalcLisa` writes is the same. -/
def LisaInputsSame (c d : LisaCoordinator) : Prop :=
  d.num_obs = c.num_obs ∧ d.permutations = c.permutations
    ∧ d.calc_significances = c.calc_significances ∧ d.isBivariate = c.isBivariate
    ∧ d.row_standardize = c.row_standardize ∧ d.num_time_vals = c.num_time_vals
    ∧ d.var_info = c.var_info ∧ d.W = c.W ∧ d.last_seed_used = c.last_seed_used
    ∧ d.reuse_last_seed = c.reuse_last_seed
    ∧ d.data1_vecs = c.data1_vecs ∧ d.data2_vecs = c.data2_vecs
    ∧ d.sig_local_moran_vecs = c.sig_local_moran_vecs ∧ d.sig_cat_vecs = c.sig_cat_vecs

/-- The triple `(lag, stat, label)` is what `CalcLisa` computes for observation
`i` of slice `t` from the inputs of `c`. -/
def LisaCell (SpatialLag : GalElement → (Int → ℚ) → ℚ) (c : LisaCoordinator) (t i : Int)
    (lag stat : ℚ) (label : Int) : Prop :=
  lag = SpatialLag (c.W i) (lagVariable c t)
    ∧ stat = c.data1_vecs t i * lag
    ∧ label = clusterOf (c.data1_vecs t i) lag (c.W i).length

/-! ## `CalcPseudoP_range` (lines 527-588)

`ThomasWangHashDouble` (namespace `Gda`) is defined outside `LisaCoordinator.cpp`;
it is a parameter of every definition that draws. -/

/-- The draw loop `while (rand < numNeighbors)` (lines 539-550).  One seed is
consumed per iteration; the result is the working set and the advanced seed. -/
def drawLoop (ThomasWangHashDouble : Nat → ℚ) (max_rand cnt : Int) (numNeighbors : Nat) :
    Nat → Nat → GeoDaSet → Nat → Option (GeoDaSet × Nat)
  | 0, rand, workPermutation, seed_start =>
    if rand < numNeighbors then none else some (workPermutation, seed_start)
  | fuel + 1, rand, workPermutation, seed_start =>
    if rand < numNeighbors then
      let newRandom : Int := toInt (ThomasWangHashDouble seed_start * (max_rand : ℚ))
      let seed_next : Nat := (seed_start + 1) % 2 ^ 64
      if newRandom ≠ cnt ∧ workPermutation.Belongs newRandom = false then
        drawLoop ThomasWangHashDouble max_rand cnt numNeighbors fuel (rand + 1)
          (workPermutation.Push newRandom) seed_next
      else
        drawLoop ThomasWangHashDouble max_rand cnt numNeighbors fuel rand
          workPermutation seed_next
    else some (workPermutation, seed_start)

/-- The loops `for (cp = 0; cp < numNeighbors; cp++) permutedLag += data[workPermutation.Pop()]`
(lines 554-562). -/
def popLoop (data : Int → ℚ) : Nat → GeoDaSet → ℚ → ℚ × GeoDaSet
  | 0, workPermutation, permutedLag => (permutedLag, workPermutation)
  | n + 1, workPermutation, permutedLag =>
    popLoop data n workPermutation.Pop.2 (permutedLag + data workPermutation.Pop.1)

/-- Lines 551-567: the permuted local statistic computed from a filled working
set, and the working set after the pops. -/
def permutedStat (c : LisaCoordinator) (cnt : Int) (workPermutation : GeoDaSet) :
    ℚ × GeoDaSet :=
  let numNeighbors : Nat := (c.W cnt).length
  let r :=
    if c.isBivariate then popLoop (c.data2_vecs c.data2) numNeighbors workPermutation 0
    else popLoop (c.data1_vecs c.data1) numNeighbors workPermutation 0
  let permutedLag : ℚ :=
    if numNeighbors ≠ 0 ∧ c.row_standardize = true then r.1 / (numNeighbors : ℚ) else r.1
  (permutedLag * c.data1_vecs c.data1 cnt, r.2)

/-- The permutation loop (lines 537-569) with `n` permutations left; the state
is the working set, the seed and `countLarger`. -/
def permLoop (ThomasWangHashDouble : Nat → ℚ) (fuel : Nat) (c : LisaCoordinator)
    (cnt : Int) : Nat → GeoDaSet → Nat → Nat → Option (GeoDaSet × Nat × Nat)
  | 0, workPermutation, seed_start, countLarger =>
    some (workPermutation, seed_start, countLarger)
  | n + 1, workPermutation, seed_start, countLarger =>
    match drawLoop ThomasWangHashDouble (c.num_obs - 1) cnt (c.W cnt).length fuel 0
        workPermutation seed_start with
    | none => none
    | some (wp, seed) =>
      let localMoranPermuted : ℚ := (permutedStat c cnt wp).1
      permLoop ThomasWangHashDouble fuel c cnt n (permutedStat c cnt wp).2 seed
        (if localMoranPermuted ≥ c.local_moran_vecs c.localMoran cnt then countLarger + 1
         else countLarger)

/-- The permuted local statistics of observation `cnt`, in the order the
permutation loop (lines 537-569) computes them: `n` permutations starting from the
given working set and seed. -/
def permStatsList (ThomasWangHashDouble : Nat → ℚ) (fuel : Nat) (c : LisaCoordinator)
    (cnt : Int) : Nat → GeoDaSet → Nat → Option (List ℚ)
  | 0, _, _ => some []
  | n + 1, workPermutation, seed_start =>
    match drawLoop ThomasWangHashDouble (c.num_obs - 1) cnt (c.W cnt).length fuel 0
        workPermutation seed_start with
    | none => none
    | some (wp, seed) =>
      (permStatsList ThomasWangHashDouble fuel c cnt n (permutedStat c cnt wp).2 seed).map
        (fun rest => (permutedStat c cnt wp).1 :: rest)

/-- The coordinator `c` with its two significance result vectors replaced. -/
def withSig (c : LisaCoordinator) (sig : Int → Int → ℚ) (cat : Int → Int → Int) :
    LisaCoordinator :=
  { c with sig_local_moran_vecs := sig, sig_cat_vecs := cat }

/-- Lines 570-573, "pick the smallest": the comparison and the subtraction are
done in `uint64_t`. -/
def pickSmallest (permutations : Int) (countLarger : Nat) : Nat :=
  if u64 (permutations - (countLarger : Int)) ≤ countLarger then
    u64 (permutations - (countLarger : Int))
  else countLarger

/-- Line 575: `(countLarger + 1.0) / (permutations + 1)`. -/
def pseudoP (permutations : Int) (countLarger : Nat) : ℚ :=
  ((countLarger : ℚ) + 1) / ((permutations + 1 : Int) : ℚ)

/-- Lines 577-586: the significance bucket, with the isolate override. -/
def sigCategory (sig : ℚ) (numNeighbors : Nat) : Int :=
  let cat : Int :=
    if sig ≤ 0.0001 then 4
    else if sig ≤ 0.001 then 3
    else if sig ≤ 0.01 then 2
    else if sig ≤ 0.05 then 1
    else 0
  if numNeighbors = 0 then 5 else cat

/-- The pair written for observation `i` by a significance pass over the
coordinator `c`: for some starting seed, `sig` is the pseudo p-value obtained from
the permuted statistics of `i` and `cat` is its bucket. -/
def ObsResult (ThomasWangHashDouble : Nat → ℚ) (fuel : Nat) (c : LisaCoordinator)
    (i : Int) (sig : ℚ) (cat : Int) : Prop :=
  ∃ (seed : Nat) (stats : List ℚ),
    permStatsList ThomasWangHashDouble fuel c i c.permutations.toNat GeoDaSet.empty seed
      = some stats
    ∧ stats.length = c.permutations.toNat
    ∧ sig = pseudoP c.permutations (pickSmallest c.permutations
        (stats.countP (fun x => decide (x ≥ c.local_moran_vecs c.localMoran i))))
    ∧ cat = sigCategory sig (c.W i).length

/-- The pair `(sig, cat)` is a possible result of a significance pass for
observation `i`: `sig` is the pseudo p-value of some count `k` of at most
`permutations` permuted statistics and `cat` is the bucket of `sig`. -/
def SigOk (c : LisaCoordinator) (i : Int) (sig : ℚ) (cat : Int) : Prop :=
  ∃ k : Nat, k ≤ c.permutations.toNat
    ∧ sig = pseudoP c.permutations (pickSmallest c.permutations k)
    ∧ cat = sigCategory sig (c.W i).length

/-- The coordinator `d` has the inputs of `c`: everything but the slice pointers,
the seed and the two significance vectors is the same. -/
def SameSetup (c d : LisaCoordinator) : Prop :=
  d.num_obs = c.num_obs ∧ d.permutations = c.permutations
    ∧ d.calc_significances = c.calc_significances ∧ d.isBivariate = c.isBivariate
    ∧ d.row_standardize = c.row_standardize ∧ d.num_time_vals = c.num_time_vals
    ∧ d.var_info = c.var_info ∧ d.W = c.W ∧ d.reuse_last_seed = c.reuse_last_seed
    ∧ d.data1_vecs = c.data1_vecs ∧ d.data2_vecs = c.data2_vecs
    ∧ d.lags_vecs = c.lags_vecs ∧ d.local_moran_vecs = c.local_moran_vecs
    ∧ d.cluster_vecs = c.cluster_vecs ∧ d.has_isolates = c.has_isolates
    ∧ d.has_undefined = c.has_undefined

/-- Body of the observation loop of `CalcPseudoP_range` (lines 534-586).  The
state is the coordinator, the working set and the running seed. -/
def CalcPseudoP_obs (ThomasWangHashDouble : Nat → ℚ) (fuel : Nat) (cnt : Int)
    (st : LisaCoordinator × GeoDaSet × Nat) : Option (LisaCoordinator × GeoDaSet × Nat) :=
  let c := st.1
  match permLoop ThomasWangHashDouble fuel c cnt c.permutations.toNat st.2.1 st.2.2 0 with
  | none => none
  | some (wp, seed, countLarger) =>
    let sig : ℚ := pseudoP c.permutations (pickSmallest c.permutations countLarger)
    some ({ c with
            sig_local_moran_vecs := set2 c.sig_local_moran_vecs c.sigLocalMoran cnt sig
            sig_cat_vecs := set2 c.sig_cat_vecs c.sigCat cnt
              (sigCategory sig (c.W cnt).length) },
          wp, seed)

/-- The pass `CalcPseudoP_range(obs_start, obs_end, seed_start)`; `none` when some
draw loop has not finished within `fuel` iterations. -/
def CalcPseudoP_range (ThomasWangHashDouble : Nat → ℚ) (fuel : Nat) (c : LisaCoordinator)
    (obs_start obs_end : Int) (seed_start : Nat) : Option LisaCoordinator :=
  (forLoopM (CalcPseudoP_obs ThomasWangHashDouble fuel) (obs_end + 1 - obs_start).toNat
    obs_start (c, GeoDaSet.empty, seed_start)).map (fun st => st.1)

/-! ## `CalcPseudoP_threaded` (lines 444-525) and `CalcPseudoP` (lines 389-442)

Thread creation and the clock are inputs: `create_ok i` tells whether
`thread->Create()` succeeds for the worker of index `i`, `now` is the value
returned by `time(0)`.  Workers write disjoint index ranges of the current slice
and read nothing that another worker writes, so running them one after the other
produces the arrays of any interleaving. -/

/-- Constructor arguments of a `LisaWorkerThread`. -/
structure LisaWorkerThread where
  obs_start : Int
  obs_end : Int
  seed_start : Nat
  thread_id : Int
deriving DecidableEq, Repr

/-- The worker built in iteration `i` of the creation loop (lines 472-493). -/
def mkWorker (c : LisaCoordinator) (nCPUs i : Int) : LisaWorkerThread :=
  { obs_start := chunk_a c.num_obs nCPUs i
    obs_end := chunk_b c.num_obs nCPUs i
    seed_start := (c.last_seed_used + u64 (chunk_a c.num_obs nCPUs i)) % 2 ^ 64
    thread_id := i + 1 }

/-- The creation loop `for (i = 0; i < tot_threads && !is_thread_error; i++)`
(lines 471-501): the final `worker_list` (built with `push_front`) and
`is_thread_error`. -/
def createLoop (c : LisaCoordinator) (nCPUs : Int) (create_ok : Int → Bool) :
    Nat → Int → List LisaWorkerThread → List LisaWorkerThread × Bool
  | 0, _, worker_list => (worker_list, false)
  | n + 1, i, worker_list =>
    if create_ok i then
      createLoop c nCPUs create_ok n (i + 1) (mkWorker c nCPUs i :: worker_list)
    else (worker_list, true)

/-- Lines 508-521: every worker of `worker_list` is run (`Entry` calls
`CalcPseudoP_range` on the worker's range and seed) and joined. -/
def runWorkers (ThomasWangHashDouble : Nat → ℚ) (fuel : Nat) :
    List LisaWorkerThread → LisaCoordinator → Option LisaCoordinator
  | [], c => some c
  | th :: rest, c =>
    match CalcPseudoP_range ThomasWangHashDouble fuel c th.obs_start th.obs_end
        th.seed_start with
    | none => none
    | some c' => runWorkers ThomasWangHashDouble fuel rest c'

/-- Line 470 (and 428): `if (!reuse_last_seed) last_seed_used = time(0)`. -/
def chooseSeed (now : Int) (c : LisaCoordinator) : LisaCoordinator :=
  if c.reuse_last_seed = false then { c with last_seed_used := u64 now } else c

/-- The pass `CalcPseudoP_threaded()`: the coordinator afterwards and the list of
workers that were run. -/
def CalcPseudoP_threaded (ThomasWangHashDouble : Nat → ℚ) (fuel : Nat) (nCPUs : Int)
    (now : Int) (create_ok : Int → Bool) (c : LisaCoordinator) :
    Option (LisaCoordinator × List LisaWorkerThread) :=
  let c1 := chooseSeed now c
  let created := createLoop c1 nCPUs create_ok (tot_threads c1.num_obs nCPUs).toNat 0 []
  if created.2 = true then
    (CalcPseudoP_range ThomasWangHashDouble fuel c1 0 (c1.num_obs - 1) c1.last_seed_used).map
      (fun c' => (c', []))
  else
    (runWorkers ThomasWangHashDouble fuel created.1 c1).map (fun c' => (c', created.1))

/-- Lines 414-425 of `CalcPseudoP`: the member pointers are set to slice `t`
(`data2` to slice 0 unless variable 1 is time-variant and synchronized). -/
def CalcPseudoP_select (t : Int) (c : LisaCoordinator) : LisaCoordinator :=
  let c1 := { c with data1 := t }
  let c2 :=
    if c1.isBivariate then
      (if c1.var1_synced then { c1 with data2 := t } else { c1 with data2 := 0 })
    else c1
  { c2 with lags := t, localMoran := t, sigLocalMoran := t, sigCat := t, cluster := t }

/-- Body of the time loop of `CalcPseudoP` (lines 410-433); `time0 t` is what
`time(0)` returns while slice `t` is processed, `create_ok t i` the outcome of
creating worker `i` for slice `t`. -/
def CalcPseudoP_slice (ThomasWangHashDouble : Nat → ℚ) (fuel : Nat) (nCPUs : Int)
    (time0 : Int → Int) (create_ok : Int → Int → Bool) (t : Int) (c : LisaCoordinator) :
    Option LisaCoordinator :=
  if nCPUs ≤ 1 then
    CalcPseudoP_range ThomasWangHashDouble fuel (chooseSeed (time0 t) (CalcPseudoP_select t c))
      0 ((CalcPseudoP_select t c).num_obs - 1)
      (chooseSeed (time0 t) (CalcPseudoP_select t c)).last_seed_used
  else
    (CalcPseudoP_threaded ThomasWangHashDouble fuel nCPUs (time0 t) (create_ok t)
      (CalcPseudoP_select t c)).map (fun r => r.1)

/-- The significance pass `CalcPseudoP()`. -/
def CalcPseudoP (ThomasWangHashDouble : Nat → ℚ) (fuel : Nat) (nCPUs : Int)
    (time0 : Int → Int) (create_ok : Int → Int → Bool) (c : LisaCoordinator) :
    Option LisaCoordinator :=
  if c.calc_significances = false then some c
  else
    forLoopM (CalcPseudoP_slice ThomasWangHashDouble fuel nCPUs time0 create_ok)
      c.num_time_vals.toNat 0 c

/-! ## Construction and initialisation (lines 101-136 and 146-346)

The members that only construction, initialisation and the significance filter
read or write are kept in an extension of the record of the computation passes, so
that the passes above leave them untouched by construction. -/

/-- The enumeration `LisaType`. -/
inductive LisaType where
  | univariate
  | bivariate
  | eb_rate_standardized
  | differential
deriving DecidableEq, Repr

/-- The whole `LisaCoordinator` object: the members used by the computation passes
and, in addition, the analysis mode, the raw data `data[v][t][i]`, the time
summary, the validity flag and message of each slice, the significance filter,
and the sizes of the vectors `data1_vecs` and `data2_vecs`. -/
structure LisaCoordinatorFull extends LisaCoordinator where
  lisa_type : LisaType
  data : Int → Int → Int → ℚ
  is_any_time_variant : Bool
  is_any_sync_with_global_time : Bool
  ref_var_index : Int
  map_valid : Int → Bool
  map_error_message : Int → String
  significance_filter : Int
  significance_cutoff : ℚ
  data1_vecs_size : Nat
  data2_vecs_size : Nat

/-- What one initialisation takes from outside `LisaCoordinator.cpp`: the functions
`ThomasWangHashDouble`, `GalElement::SpatialLag`, `GdaAlgs::RateStandardizeEB`
(from the observation count, `P` and `E` to the smoothed rates and the success
flag) and `GenUtils::StandardizeData` (from the observation count and an array to
the array it leaves), the fuel of the draw loops, the processing-unit count, the
clock and the outcome of thread creations. -/
structure Collaborators where
  ThomasWangHashDouble : Nat → ℚ
  SpatialLag : GalElement → (Int → ℚ) → ℚ
  RateStandardizeEB : Int → (Int → ℚ) → (Int → ℚ) → (Int → ℚ) × Bool
  StandardizeData : Int → (Int → ℚ) → (Int → ℚ)
  fuel : Nat
  nCPUs : Int
  time0 : Int → Int
  create_ok : Int → Int → Bool

/-- Loop `for (i = 0; i < n; i++) a[i] = f(i)` on one array. -/
def fillArray {α : Type} (n : Int) (f : Int → α) (a : Int → α) : Int → α :=
  forLoop (fun i b => set1 b i (f i)) n.toNat 0 a

/-- `SetSignificanceFilter(filter_id)` (lines 590-599). -/
def SetSignificanceFilter (filter_id : Int) (c : LisaCoordinatorFull) : LisaCoordinatorFull :=
  if filter_id < 1 ∨ filter_id > 4 then c
  else
    let c1 := { c with significance_filter := filter_id }
    let c2 := if filter_id = 1 then { c1 with significance_cutoff := 0.05 } else c1
    let c3 := if filter_id = 2 then { c2 with significance_cutoff := 0.01 } else c2
    let c4 := if filter_id = 3 then { c3 with significance_cutoff := 0.001 } else c3
    if filter_id = 4 then { c4 with significance_cutoff := 0.0001 } else c4

/-- `DeallocateVectors()` (lines 146-176): every vector of arrays is cleared. -/
def DeallocateVectors (c : LisaCoordinatorFull) : LisaCoordinatorFull :=
  { c with data1_vecs_size := 0, data2_vecs_size := 0 }

/-- `AllocateVectors()` (lines 179-211): the vectors get `num_time_vals` slices
(`data2_vecs` the time span of variable 1, in bivariate mode only) and every slice
is marked valid with an empty message.  The arrays come from `new[]`, which leaves
their contents indeterminate: the model keeps whatever the state held. -/
def AllocateVectors (c : LisaCoordinatorFull) : LisaCoordinatorFull :=
  let tms : Int := c.num_time_vals
  let c1 := { c with
    data1_vecs_size := tms.toNat
    map_valid := fillArray tms (fun _ => true) c.map_valid
    map_error_message := fillArray tms (fun _ => "") c.map_error_message }
  if c1.lisa_type = LisaType.bivariate then
    { c1 with
      data2_vecs_size :=
        ((c1.var_info.getD 1 default).time_max - (c1.var_info.getD 1 default).time_min
          + 1).toNat }
  else c1

/-- The loop of lines 226-233: the first variable that is time-variant and
synchronized fixes `num_time_vals` and `ref_var_index`; `i` is the index of the
head of the list. -/
def InitFromVarInfo_sync : List VarInfo → Int → LisaCoordinatorFull → LisaCoordinatorFull
  | [], _, c => c
  | v :: rest, i, c =>
    if v.is_time_variant && v.sync_with_global_time then
      { c with
        num_time_vals := v.time_max - v.time_min + 1
        is_any_sync_with_global_time := true
        ref_var_index := i }
    else InitFromVarInfo_sync rest (i + 1) c

/-- The loop of lines 234-239. -/
def InitFromVarInfo_variant : List VarInfo → LisaCoordinatorFull → LisaCoordinatorFull
  | [], c => c
  | v :: rest, c =>
    if v.is_time_variant then { c with is_any_time_variant := true }
    else InitFromVarInfo_variant rest c

/-- Lines 220-240 of `InitFromVarInfo`: the time summary. -/
def InitFromVarInfo_times (c : LisaCoordinatorFull) : LisaCoordinatorFull :=
  let c1 := { c with
    num_time_vals := 1
    is_any_time_variant := false
    is_any_sync_with_global_time := false
    ref_var_index := -1 }
  if c1.lisa_type ≠ LisaType.differential then
    InitFromVarInfo_variant c1.var_info (InitFromVarInfo_sync c1.var_info 0 c1)
  else c1

/-- Time index `var_info[v].time_min`, advanced by `t` when variable `v` is
time-variant and synchronized (lines 275-279 and 281-285). -/
def LisaCoordinatorFull.eb_time (c : LisaCoordinatorFull) (v : Nat) (t : Int) : Int :=
  if (c.var_info.getD v default).is_time_variant
      && (c.var_info.getD v default).sync_with_global_time then
    (c.var_info.getD v default).time_min + t
  else (c.var_info.getD v default).time_min

/-- Body of the time loop of the `eb_rate_standardized` branch (lines 275-298); the
state is `(map_valid, map_error_message, data1_vecs)`. -/
def InitFromVarInfo_eb_slice
    (RateStandardizeEB : Int → (Int → ℚ) → (Int → ℚ) → (Int → ℚ) × Bool)
    (c : LisaCoordinatorFull) (t : Int)
    (st : (Int → Bool) × (Int → String) × (Int → Int → ℚ)) :
    (Int → Bool) × (Int → String) × (Int → Int → ℚ) :=
  let E : Int → ℚ := fun i => c.data 0 (c.eb_time 0 t) i
  let P : Int → ℚ := fun i => c.data 1 (c.eb_time 1 t) i
  let r := RateStandardizeEB c.num_obs P E
  if r.2 = false then
    (set1 st.1 t false,
      set1 st.2.1 t ((st.2.1 t ++ "Emprical Bayes Rate ") ++ "Standardization failed."),
      st.2.2)
  else
    (st.1, st.2.1, set1 st.2.2 t (fillArray c.num_obs r.1 (st.2.2 t)))

/-- Lines 244-303 of `InitFromVarInfo`: the data arrays are filled according to
the analysis mode. -/
def InitFromVarInfo_fill
    (RateStandardizeEB : Int → (Int → ℚ) → (Int → ℚ) → (Int → ℚ) × Bool)
    (c : LisaCoordinatorFull) : LisaCoordinatorFull :=
  if c.lisa_type = LisaType.differential then
    let t0 : Int := (c.var_info.getD 0 default).time
    let t1 : Int := (c.var_info.getD 1 default).time
    { c with
      data1_vecs :=
        set1 c.data1_vecs 0
          (fillArray c.num_obs (fun i => c.data 0 t0 i - c.data 0 t1 i) (c.data1_vecs 0)) }
  else if c.lisa_type = LisaType.univariate ∨ c.lisa_type = LisaType.bivariate then
    let min0 : Int := (c.var_info.getD 0 default).time_min
    let max0 : Int := (c.var_info.getD 0 default).time_max
    let c1 := { c with
      data1_vecs :=
        forLoop (fun t v => set1 v (t - min0) (fillArray c.num_obs (c.data 0 t) (v (t - min0))))
          (max0 + 1 - min0).toNat min0 c.data1_vecs }
    if c1.lisa_type = LisaType.bivariate then
      let min1 : Int := (c1.var_info.getD 1 default).time_min
      let max1 : Int := (c1.var_info.getD 1 default).time_max
      { c1 with
        data2_vecs :=
          forLoop
            (fun t v => set1 v (t - min1) (fillArray c1.num_obs (c1.data 1 t) (v (t - min1))))
            (max1 + 1 - min1).toNat min1 c1.data2_vecs }
    else c1
  else
    let r := forLoop (InitFromVarInfo_eb_slice RateStandardizeEB c) c.num_time_vals.toNat 0
      (c.map_valid, c.map_error_message, c.data1_vecs)
    { c with map_valid := r.1, map_error_message := r.2.1, data1_vecs := r.2.2 }

/-- Lines 218-303 of `InitFromVarInfo`: the state on which `StandardizeData()` is
called. -/
def InitFromVarInfo_assemble
    (RateStandardizeEB : Int → (Int → ℚ) → (Int → ℚ) → (Int → ℚ) × Bool)
    (c : LisaCoordinatorFull) : LisaCoordinatorFull :=
  InitFromVarInfo_fill RateStandardizeEB
    (AllocateVectors (InitFromVarInfo_times (DeallocateVectors c)))

/-- The member `StandardizeData()` (lines 336-346); `standardize` stands for
`GenUtils::StandardizeData`. -/
def StandardizeData (standardize : Int → (Int → ℚ) → (Int → ℚ)) (c : LisaCoordinatorFull) :
    LisaCoordinatorFull :=
  let c1 := { c with
    data1_vecs :=
      forLoop (fun t v => set1 v t (standardize c.num_obs (v t))) c.data1_vecs_size 0
        c.data1_vecs }
  if c1.isBivariate then
    { c1 with
      data2_vecs :=
        forLoop (fun t v => set1 v t (standardize c1.num_obs (v t))) c1.data2_vecs_size 0
          c1.data2_vecs }
  else c1

/-- The object `c` after a computation pass has turned the members it works on
into `core`. -/
def LisaCoordinatorFull.withCore (c : LisaCoordinatorFull) (core : LisaCoordinator) :
    LisaCoordinatorFull :=
  { c with toLisaCoordinator := core }

/-- Lines 305-306 of `InitFromVarInfo` after the assembly: `StandardizeData()` and
`CalcLisa()`. -/
def InitFromVarInfo_observed (env : Collaborators) (c : LisaCoordinatorFull) :
    LisaCoordinatorFull :=
  (StandardizeData env.StandardizeData
    (InitFromVarInfo_assemble env.RateStandardizeEB c)).withCore
    (CalcLisa env.SpatialLag
      (StandardizeData env.StandardizeData
        (InitFromVarInfo_assemble env.RateStandardizeEB c)).toLisaCoordinator)

/-- `InitFromVarInfo()` (lines 216-308); `none` when the significance pass does not
return within the fuel. -/
def InitFromVarInfo (env : Collaborators) (c : LisaCoordinatorFull) :
    Option LisaCoordinatorFull :=
  if (InitFromVarInfo_observed env c).calc_significances then
    (CalcPseudoP env.ThomasWangHashDouble env.fuel env.nCPUs env.time0 env.create_ok
      (InitFromVarInfo_observed env c).toLisaCoordinator).map
      (fun core => (InitFromVarInfo_observed env c).withCore core)
  else some (InitFromVarInfo_observed env c)

/-- The object `d` has the configuration of `c`: the analysis mode, the variable
descriptors, the observation count, the raw data, the weights, the permutation
count, the flags, the seed members and the significance filter are the same. -/
def SameConfig (c d : LisaCoordinatorFull) : Prop :=
  d.lisa_type = c.lisa_type ∧ d.var_info = c.var_info ∧ d.num_obs = c.num_obs
    ∧ d.data = c.data ∧ d.W = c.W ∧ d.permutations = c.permutations
    ∧ d.calc_significances = c.calc_significances ∧ d.isBivariate = c.isBivariate
    ∧ d.row_standardize = c.row_standardize ∧ d.last_seed_used = c.last_seed_used
    ∧ d.reuse_last_seed = c.reuse_last_seed
    ∧ d.significance_filter = c.significance_filter
    ∧ d.significance_cutoff = c.significance_cutoff

/-- The constructor (lines 101-136).  `garbage` holds the indeterminate contents of
the members that the initializer list does not set; the weights `W`, the
observation count and the raw `data` are what the project supplies. -/
def LisaCoordinatorFull.new (env : Collaborators) (garbage : LisaCoordinatorFull)
    (num_obs : Int) (W : Int → GalElement) (data : Int → Int → Int → ℚ)
    (var_info_s : List VarInfo) (lisa_type_s : LisaType)
    (calc_significances_s row_standardize_s : Bool) : Option LisaCoordinatorFull :=
  InitFromVarInfo env
    (SetSignificanceFilter 1
      { garbage with
        num_obs := num_obs
        permutations := 999
        lisa_type := lisa_type_s
        calc_significances := calc_significances_s
        isBivariate := decide (lisa_type_s = LisaType.bivariate)
        var_info := var_info_s
        data := data
        last_seed_used := 0
        reuse_last_seed := false
        row_standardize := row_standardize_s
        W := W
        data1_vecs_size := 0
        data2_vecs_size := 0 })

/-! ## Comparing two significance passes -/

/-- Sum `f 0 + ... + f (n - 1)`, accumulated by a counting loop. -/
def sumRange (n : Int) (f : Int → ℚ) : ℚ :=
  forLoop (fun i s => s + f i) n.toNat 0 0

/-- Mean of the first `nObs` values of `data`. -/
def meanOf (nObs : Int) (data : Int → ℚ) : ℚ :=
  sumRange nObs data / (nObs : ℚ)

/-- Population variance of the first `nObs` values of `data` (divisor `nObs`). -/
def popVariance (nObs : Int) (data : Int → ℚ) : ℚ :=
  sumRange nObs (fun i => (data i - meanOf nObs data) * (data i - meanOf nObs data))
    / (nObs : ℚ)

/-- Modelled from the spec: `GenUtils::StandardizeData(nObs, data)`, whose body is
not among the sources (only its call in `LisaCoordinator::StandardizeData` is).
Section 4.1 step 4: the array is standardized to zero mean and unit population
standard deviation; if the standard deviation is zero the values become uniformly
zero and nothing is divided.  `sqrt` is the square root of the math library. -/
def GenUtils.StandardizeData (sqrt : ℚ → ℚ) (nObs : Int) (data : Int → ℚ) : Int → ℚ :=
  let mean := meanOf nObs data
  let sd := sqrt (popVariance nObs data)
  fillArray nObs (fun i => if sd = 0 then 0 else (data i - mean) / sd) data

/-- The draw loop (lines 539-550) with the record of its draws. -/
def drawLoopLog (ThomasWangHashDouble : Nat → ℚ) (max_rand cnt : Int) (numNeighbors : Nat) :
    Nat → Nat → GeoDaSet → Nat → List (Nat × Int) → Option (GeoDaSet × Nat × List (Nat × Int))
  | 0, rand, workPermutation, seed_start, log =>
    if rand < numNeighbors then none else some (workPermutation, seed_start, log)
  | fuel + 1, rand, workPermutation, seed_start, log =>
    if rand < numNeighbors then
      let newRandom : Int := toInt (ThomasWangHashDouble seed_start * (max_rand : ℚ))
      let seed_next : Nat := (seed_start + 1) % 2 ^ 64
      if newRandom ≠ cnt ∧ workPermutation.Belongs newRandom = false then
        drawLoopLog ThomasWangHashDouble max_rand cnt numNeighbors fuel (rand + 1)
          (workPermutation.Push newRandom) seed_next (log ++ [(seed_start, newRandom)])
      else
        drawLoopLog ThomasWangHashDouble max_rand cnt numNeighbors fuel rand
          workPermutation seed_next (log ++ [(seed_start, newRandom)])
    else some (workPermutation, seed_start, log)

/-- The permutation loop (lines 537-569) with the record of its draws. -/
def permLoopLog (ThomasWangHashDouble : Nat → ℚ) (fuel : Nat) (c : LisaCoordinator)
    (cnt : Int) :
    Nat → GeoDaSet → Nat → Nat → List (Nat × Int) →
      Option (GeoDaSet × Nat × Nat × List (Nat × Int))
  | 0, workPermutation, seed_start, countLarger, log =>
    some (workPermutation, seed_start, countLarger, log)
  | n + 1, workPermutation, seed_start, countLarger, log =>
    match drawLoopLog ThomasWangHashDouble (c.num_obs - 1) cnt (c.W cnt).length fuel 0
        workPermutation seed_start log with
    | none => none
    | some (wp, seed, log1) =>
      let localMoranPermuted : ℚ := (permutedStat c cnt wp).1
      permLoopLog ThomasWangHashDouble fuel c cnt n (permutedStat c cnt wp).2 seed
        (if localMoranPermuted ≥ c.local_moran_vecs c.localMoran cnt then countLarger + 1
         else countLarger) log1

/-- Body of the observation loop of `CalcPseudoP_range` (lines 534-586) with the
record of its draws. -/
def CalcPseudoP_obsLog (ThomasWangHashDouble : Nat → ℚ) (fuel : Nat) (cnt : Int)
    (st : LisaCoordinator × GeoDaSet × Nat × List (Nat × Int)) :
    Option (LisaCoordinator × GeoDaSet × Nat × List (Nat × Int)) :=
  let c := st.1
  match permLoopLog ThomasWangHashDouble fuel c cnt c.permutations.toNat st.2.1 st.2.2.1 0
      st.2.2.2 with
  | none => none
  | some (wp, seed, countLarger, log) =>
    let sig : ℚ := pseudoP c.permutations (pickSmallest c.permutations countLarger)
    some ({ c with
            sig_local_moran_vecs := set2 c.sig_local_moran_vecs c.sigLocalMoran cnt sig
            sig_cat_vecs := set2 c.sig_cat_vecs c.sigCat cnt
              (sigCategory sig (c.W cnt).length) },
          wp, seed, log)

/-- The pass `CalcPseudoP_range(obs_start, obs_end, seed_start)` with the record of
its draws, in the order they are made. -/
def CalcPseudoP_rangeLog (ThomasWangHashDouble : Nat → ℚ) (fuel : Nat) (c : LisaCoordinator)
    (obs_start obs_end : Int) (seed_start : Nat) :
    Option (LisaCoordinator × List (Nat × Int)) :=
  (forLoopM (CalcPseudoP_obsLog ThomasWangHashDouble fuel) (obs_end + 1 - obs_start).toNat
    obs_start (c, GeoDaSet.empty, seed_start, [])).map (fun st => (st.1, st.2.2.2))

/-- The record `log` holds the draws of the consecutive seeds from `s0` on, each
with the candidate `(int)(ThomasWangHashDouble(seed) * max_rand)`, and `seed` is
the seed that follows them (all in `uint64_t`). -/
def Consecutive (ThomasWangHashDouble : Nat → ℚ) (max_rand : Int) (s0 : Nat)
    (log : List (Nat × Int)) (seed : Nat) : Prop :=
  log = (List.range log.length).map
      (fun j => ((s0 + j) % 2 ^ 64,
        toInt (ThomasWangHashDouble ((s0 + j) % 2 ^ 64) * (max_rand : ℚ))))
    ∧ seed = (s0 + log.length) % 2 ^ 64

/-! ## The observer interface (lines 605-636) -/

/-- Conversion of an unsigned count to `int`. -/
def i32 (z : Int) : Int := (z + 2 ^ 31) % 2 ^ 32 - 2 ^ 31

/-- Members of `LisaCoordinator` behind the observer interface: the weights id
`w_id`, the list `observers` (a uuid and an observer pointer are numbers here), and
whether `delete this` has run. -/
structure ObserverSide where
  w_id : Nat
  observers : List Nat
  deleted : Bool
deriving DecidableEq, Repr

/-- `numMustCloseToRemove(id)` (lines 605-608). -/
def numMustCloseToRemove (id : Nat) (s : ObserverSide) : Int :=
  if id = s.w_id then i32 (s.observers.length : Int) else 0

/-- `closeObserver(id)` (lines 610-618).  `onClose o` is what the call
`o->closeObserver(this)` does to the coordinator (the observer classes are not in
`LisaCoordinator.cpp`); the result is the list of observers that received the
request, in the order of the calls, and the coordinator afterwards. -/
def closeObserver (onClose : Nat → ObserverSide → ObserverSide) (id : Nat)
    (s : ObserverSide) : List Nat × ObserverSide :=
  if numMustCloseToRemove id s = 0 then ([], s)
  else
    let obs_cpy := s.observers
    obs_cpy.foldl (fun acc o => (acc.1 ++ [o], onClose o acc.2)) ([], s)

/-- `registerObserver(o)` (lines 620-623): `observers.push_front(o)`. -/
def registerObserver (o : Nat) (s : ObserverSide) : ObserverSide :=
  { s with observers := o :: s.observers }

/-- `removeObserver(o)` (lines 625-635): `observers.remove(o)` erases every element
equal to `o`; then `delete this` when the list is empty. -/
def removeObserver (o : Nat) (s : ObserverSide) : ObserverSide :=
  let s1 := { s with observers := s.observers.filter (fun x => decide (x ≠ o)) }
  if s1.observers.length = 0 then { s1 with deleted := true } else s1

/-! ## `MergeTableDlg::CheckKeys` (`DataViewer/MergeTableDlg.cpp`, lines 247-282)

`wxString::Trim(fromRight)` is defined outside the sources; it is the parameter
`Trim` of the definitions below. -/

/-- A `std::map<wxString, int>`: its entries, in increasing order of the keys. -/
abbrev KeyMap := List (String × Int)

/-- The value found by `m.find(k)`, `none` for `m.end()`. -/
def KeyMap.find : KeyMap → String → Option Int
  | [], _ => none
  | (k', v) :: rest, k => if k' = k then some v else KeyMap.find rest k

/-- The assignment `m[k] = v`. -/
def KeyMap.assign : KeyMap → String → Int → KeyMap
  | [], k, v => [(k, v)]
  | (k', v') :: rest, k, v =>
    if k < k' then (k, v) :: (k', v') :: rest
    else if k = k' then (k, v) :: rest
    else (k', v') :: KeyMap.assign rest k v

/-- The keys of `key_vec` as `CheckKeys` compares them: `Trim(false)`, then
`Trim(true)`. -/
def trimmedKeys (Trim : Bool → String → String) (key_vec : List String) : List String :=
  key_vec.map (fun k => Trim true (Trim false k))

/-- Body of the loop of lines 253-263; the state is `(key_map, dupKeys)`. -/
def CheckKeys_body (Trim : Bool → String → String) (key_vec : List String) (i : Int)
    (st : KeyMap × KeyMap) : KeyMap × KeyMap :=
  let tmpK : String := Trim true (Trim false (key_vec.getD i.toNat ""))
  if KeyMap.find st.1 tmpK = none then (KeyMap.assign st.1 tmpK i, st.2)
  else (st.1, KeyMap.assign st.2 tmpK i)

/-- The loop of lines 271-276 over `dupKeys`, from the current `count` and `msg`:
each key is appended with a line break, and the loop is left when `count`
exceeds 5. -/
def CheckKeys_list : KeyMap → Int → String → String × Int
  | [], count, msg => (msg, count)
  | (k, _) :: rest, count, msg =>
    if count + 1 > 5 then ((msg ++ k) ++ "\n", count + 1)
    else CheckKeys_list rest (count + 1) ((msg ++ k) ++ "\n")

/-- The text of the message up to the list of keys (lines 266-269). -/
def CheckKeys_header (key_name : String) : String :=
  ((("" ++ "Chosen table merge key field ") ++ key_name)
    ++ " contains undefined or duplicate values. Key fields must contain valid unique values.\n\n")
    ++ "Duplicated values are: "

/-- `CheckKeys(key_name, key_vec, key_map)`: the map it leaves in `key_map`, or the
message of the `GdaException` it throws. -/
def CheckKeys (Trim : Bool → String → String) (key_name : String) (key_vec : List String)
    (key_map : KeyMap) : Except String KeyMap :=
  let st := forLoop (CheckKeys_body Trim key_vec) (i32 (key_vec.length : Int)).toNat 0
    (key_map, [])
  if key_vec.length ≠ st.1.length then
    let r := CheckKeys_list st.2 0 (CheckKeys_header key_name)
    Except.error (if r.2 > 5 then r.1 ++ "..." else r.1)
  else Except.ok st.1

/-- The message of the exception, when the call threw. -/
def thrownMessage (r : Except String KeyMap) : Option String :=
  match r with
  | Except.error msg => some msg
  | Except.ok _ => none

/-! ## Example inputs -/

/-- A stand-in for `ThomasWangHashDouble` with values in `[0, 1)`:
`(s mod 2000) / 2000`. -/
def hashEx (s : Nat) : ℚ := ((s % 2000 : Nat) : ℚ) / 2000

/-- A coordinator with one time slice, univariate, row-standardized, 999
permutations, seed 0 to be reused, and all result arrays zero. -/
def exampleCoordinator (num_obs : Int) (W : Int → GalElement) (values : Int → ℚ) :
    LisaCoordinator :=
  { num_obs := num_obs
    permutations := 999
    calc_significances := true
    isBivariate := false
    row_standardize := true
    num_time_vals := 1
    var_info := []
    W := W
    last_seed_used := 0
    reuse_last_seed := true
    data1_vecs := fun _ => values
    data2_vecs := fun _ _ => 0
    lags_vecs := fun _ _ => 0
    local_moran_vecs := fun _ _ => 0
    sig_local_moran_vecs := fun _ _ => 0
    sig_cat_vecs := fun _ _ => 0
    cluster_vecs := fun _ _ => 0
    has_isolates := fun _ => false
    has_undefined := fun _ => false
    data1 := 0
    data2 := 0
    lags := 0
    localMoran := 0
    sigLocalMoran := 0
    sigCat := 0
    cluster := 0 }

/-- The scenario of section 8: five observations, observation 0 has neighbours
1 and 2, the others none; standardized values `[2, -1, -1, 0, 0]`. -/
def scenario : LisaCoordinator :=
  exampleCoordinator 5 (fun i => if i = 0 then [1, 2] else [])
    (fun i => if i = 0 then 2 else if i = 1 ∨ i = 2 then -1 else 0)

/-- Three observations with values `[1, -1, 1]`; observation 2 has the single
neighbour 0, observations 0 and 1 have none. -/
def threeObs : LisaCoordinator :=
  exampleCoordinator 3 (fun i => if i = 2 then [0] else [])
    (fun i => if i = 1 then -1 else 1)

/-- The scenario of section 8 with the member `row_standardize` disabled. -/
def scenarioRaw : LisaCoordinator := { scenario with row_standardize := false }

/-- A stand-in for `sqrt`, exact on the squares of rationals: the integer square
roots of numerator and denominator. -/
def sqrtEx (v : ℚ) : ℚ := (Nat.sqrt v.num.toNat : ℚ) / (Nat.sqrt v.den : ℚ)

/-- A stand-in for `GdaAlgs::RateStandardizeEB`: the raw rates `E[i] / P[i]`,
failing when one of the first `nObs` populations is not positive. -/
def rateEx (nObs : Int) (P E : Int → ℚ) : (Int → ℚ) × Bool :=
  (fun i => E i / P i, forLoop (fun i ok => ok && decide (0 < P i)) nObs.toNat 0 true)

/-- Collaborators of the examples: one CPU, every thread creation succeeds, the
clock reads 0. -/
def exampleCollaborators : Collaborators :=
  { ThomasWangHashDouble := hashEx
    SpatialLag := SpatialLag_spec true
    RateStandardizeEB := rateEx
    StandardizeData := GenUtils.StandardizeData sqrtEx
    fuel := 1000
    nCPUs := 1
    time0 := fun _ => 0
    create_ok := fun _ _ => true }

/-- A coordinator object of `num_obs` observations without neighbours as the
constructor hands it to `InitFromVarInfo`, significance computation off. -/
def exampleFull (num_obs : Int) (lisa_type : LisaType) (var_info : List VarInfo)
    (data : Int → Int → Int → ℚ) : LisaCoordinatorFull :=
  { toLisaCoordinator :=
      { exampleCoordinator num_obs (fun _ => []) (fun _ => 0) with
        calc_significances := false
        reuse_last_seed := false
        isBivariate := decide (lisa_type = LisaType.bivariate)
        var_info := var_info }
    lisa_type := lisa_type
    data := data
    is_any_time_variant := false
    is_any_sync_with_global_time := false
    ref_var_index := 0
    map_valid := fun _ => false
    map_error_message := fun _ => "stale"
    significance_filter := 1
    significance_cutoff := 0.05
    data1_vecs_size := 0
    data2_vecs_size := 0 }

/-- A variable observed at the times `time_min .. time_max`, synchronized with
the global time when it has more than one time. -/
def varEx (time time_min time_max : Int) : VarInfo :=
  { time := time
    time_min := time_min
    time_max := time_max
    is_time_variant := decide (time_min < time_max)
    sync_with_global_time := decide (time_min < time_max)
    is_ref_variable := false }

/-- Differential mode on a variable with values `[5, 3, 1]` at time 0 and
`[2, 3, 4]` at time 1. -/
def differentialEx : LisaCoordinatorFull :=
  exampleFull 3 LisaType.differential [varEx 0 0 1, varEx 1 0 1]
    (fun _ t i =>
      if t = 0 then (if i = 0 then 5 else if i = 1 then 3 else 1)
      else (if i = 0 then 2 else if i = 1 then 3 else 4))

/-- Rate mode over three times: events `[1, 2, 3]` at every time, populations
`[2, 4, 6]` at times 0 and 2 and `[2, 0, 6]` at time 1, where the stand-in
smoother fails. -/
def ebEx : LisaCoordinatorFull :=
  exampleFull 3 LisaType.eb_rate_standardized [varEx 0 0 2, varEx 0 0 2]
    (fun v t i =>
      if v = 0 then (i + 1 : ℚ)
      else if t = 1 ∧ i = 1 then 0 else 2 * (i + 1 : ℚ))

/-- A coordinator on weights 7 with the observers 3, 1 and 3 (registered twice). -/
def observedEx : ObserverSide := { w_id := 7, observers := [3, 1, 3], deleted := false }

/-- Three observations with values `[0, 1, 1]`; observation 0 has the neighbours 1
and 2, the others none. -/
def zeroValueEx : LisaCoordinator :=
  exampleCoordinator 3 (fun i => if i = 0 then [1, 2] else [])
    (fun i => if i = 0 then 0 else 1)

/-- The example `threeObs` with three permutations, two time slices holding the
same values, and the seed taken from the clock. -/
def twoSlicesEx : LisaCoordinator :=
  { threeObs with permutations := 3, num_time_vals := 2, reuse_last_seed := false }

/-- A clock that shows 0 while slice 0 is processed and 999 afterwards. -/
def clockEx (t : Int) : Int := if t = 0 then 0 else 999

/-- A stand-in for `wxString::Trim`: blanks are dropped from the right end
(`fromRight`) or from the left end. -/
def trimEx (fromRight : Bool) (s : String) : String :=
  if fromRight then String.mk (s.data.reverse.dropWhile (fun ch => ch == ' ')).reverse
  else String.mk (s.data.dropWhile (fun ch => ch == ' '))

/-- Three observations with values `[1, -1, 1]` and two permutations; observation
0 has the single neighbour 1, the others none. -/
def rejectEx : LisaCoordinator :=
  { exampleCoordinator 3 (fun i => if i = 0 then [1] else []) (fun i => if i = 1 then -1 else 1)
      with permutations := 2 }

/-! ## Partition arithmetic -/

theorem quotient_remainder_spec (N w : Int) (hN : 0 ≤ N) (hw : 1 ≤ w) :
    N = w * quotient N w + remainder N w ∧ 0 ≤ remainder N w ∧ remainder N w < w
      ∧ 0 ≤ quotient N w := by
  have hq : quotient N w = N / w := by
    unfold quotient
    exact Int.tdiv_eq_ediv hN (by omega)
  have hr : remainder N w = N % w := by
    unfold remainder
    exact Int.tmod_eq_emod hN (by omega)
  rw [hq, hr]
  refine ⟨(Int.ediv_add_emod N w).symm, Int.emod_nonneg _ (by omega),
    Int.emod_lt_of_pos _ (by omega), Int.ediv_nonneg hN (by omega)⟩

theorem chunk_a_closed (N w i : Int) :
    chunk_a N w i = i * quotient N w + min i (remainder N w) := by
  unfold chunk_a
  split_ifs with h
  · rw [min_eq_left (le_of_lt h)]; ring
  · rw [min_eq_right (not_lt.mp h)]; ring

theorem chunk_b_succ (N w i : Int) :
    chunk_b N w i + 1 = chunk_a N w (i + 1) := by
  unfold chunk_b chunk_a
  by_cases h1 : i + 1 < remainder N w
  · have h0 : i < remainder N w := by omega
    rw [if_pos h0, if_pos h0, if_pos h1]; ring
  · by_cases h0 : i < remainder N w
    · have hr : remainder N w = i + 1 := by omega
      rw [if_pos h0, if_pos h0, if_neg h1, hr]; ring
    · rw [if_neg h0, if_neg h0, if_neg h1]; ring

theorem chunk_a_zero (N w : Int) (hN : 0 ≤ N) (hw : 1 ≤ w) : chunk_a N w 0 = 0 := by
  obtain ⟨_, hr0, _, _⟩ := quotient_remainder_spec N w hN hw
  rw [chunk_a_closed, min_eq_left hr0]; ring

theorem chunk_a_total (N w : Int) (hN : 0 ≤ N) (hw : 1 ≤ w) : chunk_a N w w = N := by
  obtain ⟨hNe, hr0, hrw, _⟩ := quotient_remainder_spec N w hN hw
  rw [chunk_a_closed, min_eq_right (le_of_lt hrw)]
  omega

theorem chunk_a_mono (N w i j : Int) (hN : 0 ≤ N) (hw : 1 ≤ w) (hij : i ≤ j) :
    chunk_a N w i ≤ chunk_a N w j := by
  obtain ⟨_, _, _, hq⟩ := quotient_remainder_spec N w hN hw
  rw [chunk_a_closed N w i, chunk_a_closed N w j]
  have h1 : i * quotient N w ≤ j * quotient N w := mul_le_mul_of_nonneg_right hij hq
  have h2 : min i (remainder N w) ≤ min j (remainder N w) := min_le_min_right _ hij
  omega

theorem chunk_cover_below (N w : Int) (hN : 0 ≤ N) (hw : 1 ≤ w) (x : Int) (hx : 0 ≤ x) :
    ∀ k : Nat, x < chunk_a N w k →
      ∃ i : Int, 0 ≤ i ∧ i < k ∧ chunk_a N w i ≤ x ∧ x ≤ chunk_b N w i := by
  intro k
  induction k with
  | zero =>
    intro h
    have := chunk_a_zero N w hN hw
    simp only [Nat.cast_zero] at h
    omega
  | succ k ih =>
    intro h
    by_cases hk : x < chunk_a N w k
    · obtain ⟨i, h0, h1, h2, h3⟩ := ih hk
      exact ⟨i, h0, by push_cast; omega, h2, h3⟩
    · refine ⟨k, by omega, by push_cast; omega, by omega, ?_⟩
      have := chunk_b_succ N w k
      push_cast at h
      omega

theorem tot_threads_of_le (N w : Int) (hw : 1 ≤ w) (hwN : w ≤ N) : tot_threads N w = w := by
  have hq : quotient N w = N / w := Int.tdiv_eq_ediv (by omega) (by omega)
  have : 1 ≤ N / w := Int.le_ediv_of_mul_le (by omega) (by omega)
  unfold tot_threads
  rw [if_pos (by omega)]

theorem filter_length_one {α : Type} (p : α → Bool) :
    ∀ (l : List α) (a : α), l.Nodup → a ∈ l → p a = true →
      (∀ b ∈ l, p b = true → b = a) → (l.filter p).length = 1
  | [], a, _, ha, _, _ => by simp at ha
  | x :: xs, a, hnd, ha, hpa, huniq => by
    rw [List.nodup_cons] at hnd
    by_cases hxa : x = a
    · subst hxa
      have hnone : xs.filter p = [] := by
        rw [List.filter_eq_nil_iff]
        intro b hb hpb
        have := huniq b (List.mem_cons_of_mem _ hb) hpb
        subst this
        exact hnd.1 hb
      simp [List.filter_cons, hpa, hnone]
    · have hpx : p x = false := by
        by_contra h
        exact hxa (huniq x (List.mem_cons_self _ _) (by simpa using h))
      have ha2 : a ∈ xs := by
        rcases List.mem_cons.mp ha with h | h
        · exact absurd h.symm hxa
        · exact h
      rw [List.filter_cons, hpx]
      simp only [Bool.false_eq_true, if_false]
      exact filter_length_one p xs a hnd.2 ha2 hpa
        (fun b hb hpb => huniq b (List.mem_cons_of_mem _ hb) hpb)

theorem createLoop_ok (c : LisaCoordinator) (nCPUs : Int) (create_ok : Int → Bool) :
    ∀ (n : Nat) (i : Int) (wl : List LisaWorkerThread),
      (∀ j : Nat, j < n → create_ok (i + j) = true) →
      createLoop c nCPUs create_ok n i wl
        = (((List.range n).map (fun j : Nat => mkWorker c nCPUs (i + j))).reverse ++ wl, false)
  | 0, i, wl, _ => by simp [createLoop]
  | n + 1, i, wl, h => by
    have h0 : create_ok i = true := by simpa using h 0 (Nat.succ_pos n)
    have hrest : ∀ j : Nat, j < n → create_ok (i + 1 + j) = true := by
      intro j hj
      have := h (j + 1) (Nat.succ_lt_succ hj)
      rw [show i + 1 + (j : Int) = i + ((j + 1 : Nat) : Int) by push_cast; ring]
      exact this
    have e1 : (List.range n).map (fun j : Nat => mkWorker c nCPUs (i + 1 + j))
        = ((List.range n).map Nat.succ).map (fun j : Nat => mkWorker c nCPUs (i + j)) := by
      rw [List.map_map]
      apply List.map_congr_left
      intro j _
      simp only [Function.comp, Nat.succ_eq_add_one, Nat.cast_add, Nat.cast_one]
      congr 1
      ring
    rw [createLoop, if_pos h0, createLoop_ok c nCPUs create_ok n (i + 1) _ hrest, e1,
      List.range_succ_eq_map, List.map_cons, List.reverse_cons]
    simp

theorem createLoop_fail (c : LisaCoordinator) (nCPUs : Int) (create_ok : Int → Bool) :
    ∀ (n : Nat) (i : Int) (wl : List LisaWorkerThread),
      (∃ j : Nat, j < n ∧ create_ok (i + j) = false) →
      (createLoop c nCPUs create_ok n i wl).2 = true
  | 0, i, wl, h => by obtain ⟨j, hj, _⟩ := h; omega
  | n + 1, i, wl, h => by
    rw [createLoop]
    by_cases h0 : create_ok i = true
    · rw [if_pos h0]
      apply createLoop_fail c nCPUs create_ok n (i + 1)
      obtain ⟨j, hj, hf⟩ := h
      cases j with
      | zero => simp [h0] at hf
      | succ j =>
        refine ⟨j, by omega, ?_⟩
        rw [show i + 1 + (j : Int) = i + ((j + 1 : Nat) : Int) by push_cast; ring]
        exact hf
    · rw [if_neg h0]

/-! ## Claims on the work partition -/

/-- C2: for `1 ≤ w ≤ N` the creation loop builds `w` workers whose inclusive ranges
start at 0, follow one another without gap (`a (i+1) = b i + 1`), end at `N - 1`,
and every observation of `[0, N)` lies in the range of exactly one worker. -/
theorem C2_ranges_cover_exactly_once (c : LisaCoordinator) (w : Int)
    (hN : 1 ≤ c.num_obs) (hw : 1 ≤ w) (hwN : w ≤ c.num_obs) :
    tot_threads c.num_obs w = w
      ∧ chunk_a c.num_obs w 0 = 0
      ∧ (∀ i : Int, 0 ≤ i → i + 1 < w →
          chunk_a c.num_obs w (i + 1) = chunk_b c.num_obs w i + 1)
      ∧ chunk_b c.num_obs w (w - 1) = c.num_obs - 1
      ∧ (∀ x : Int, 0 ≤ x → x < c.num_obs →
          ∃! i : Int, 0 ≤ i ∧ i < w ∧ chunk_a c.num_obs w i ≤ x ∧ x ≤ chunk_b c.num_obs w i)
      ∧ (∀ x : Int, 0 ≤ x → x < c.num_obs →
          ((createLoop c w (fun _ => true) (tot_threads c.num_obs w).toNat 0 []).1.filter
            (fun th => decide (th.obs_start ≤ x ∧ x ≤ th.obs_end))).length = 1) := by
  have hN0 : 0 ≤ c.num_obs := by omega
  have htot := tot_threads_of_le c.num_obs w hw hwN
  have huniq : ∀ x : Int, 0 ≤ x → x < c.num_obs →
      ∃! i : Int, 0 ≤ i ∧ i < w ∧ chunk_a c.num_obs w i ≤ x ∧ x ≤ chunk_b c.num_obs w i := by
    intro x hx0 hxN
    have hlt : x < chunk_a c.num_obs w (w.toNat : Int) := by
      rw [Int.toNat_of_nonneg (by omega), chunk_a_total c.num_obs w hN0 hw]; exact hxN
    obtain ⟨i, hi0, hi1, ha, hb⟩ := chunk_cover_below c.num_obs w hN0 hw x hx0 w.toNat hlt
    rw [Int.toNat_of_nonneg (by omega)] at hi1
    refine ⟨i, ⟨hi0, hi1, ha, hb⟩, ?_⟩
    rintro j ⟨hj0, hj1, hja, hjb⟩
    by_contra hne
    rcases lt_or_gt_of_ne hne with hlt | hgt
    · have h1 := chunk_b_succ c.num_obs w j
      have h2 := chunk_a_mono c.num_obs w (j + 1) i hN0 hw (by omega)
      omega
    · have h1 := chunk_b_succ c.num_obs w i
      have h2 := chunk_a_mono c.num_obs w (i + 1) j hN0 hw (by omega)
      omega
  refine ⟨htot, chunk_a_zero _ _ hN0 hw, ?_, ?_, huniq, ?_⟩
  · intro i _ _
    exact (chunk_b_succ c.num_obs w i).symm
  · have h1 := chunk_b_succ c.num_obs w (w - 1)
    rw [sub_add_cancel, chunk_a_total c.num_obs w hN0 hw] at h1
    omega
  · intro x hx0 hxN
    obtain ⟨i, ⟨hi0, hi1, ha, hb⟩, hu⟩ := huniq x hx0 hxN
    rw [htot, createLoop_ok c w (fun _ => true) w.toNat 0 [] (fun _ _ => rfl)]
    simp only [List.append_nil, List.filter_reverse, List.length_reverse, List.filter_map,
      List.length_map]
    apply filter_length_one _ (List.range w.toNat) i.toNat (List.nodup_range _)
    · rw [List.mem_range]; omega
    · simp only [Function.comp, mkWorker, zero_add, Int.toNat_of_nonneg hi0, decide_eq_true_eq]
      exact ⟨ha, hb⟩
    · intro j hj hp
      rw [List.mem_range] at hj
      simp only [Function.comp, mkWorker, zero_add, decide_eq_true_eq] at hp
      have := hu (j : Int) ⟨by omega, by omega, hp.1, hp.2⟩
      omega

/-- C2 on `threeObs` (three observations) with two workers: ranges `[0, 1]` and `[2, 2]`. -/
theorem C2_ranges_cover_exactly_once_witness :
    tot_threads threeObs.num_obs 2 = 2
      ∧ chunk_a threeObs.num_obs 2 0 = 0
      ∧ (∀ i : Int, 0 ≤ i → i + 1 < 2 →
          chunk_a threeObs.num_obs 2 (i + 1) = chunk_b threeObs.num_obs 2 i + 1)
      ∧ chunk_b threeObs.num_obs 2 (2 - 1) = threeObs.num_obs - 1
      ∧ (∀ x : Int, 0 ≤ x → x < threeObs.num_obs →
          ∃! i : Int, 0 ≤ i ∧ i < 2 ∧ chunk_a threeObs.num_obs 2 i ≤ x
            ∧ x ≤ chunk_b threeObs.num_obs 2 i)
      ∧ (∀ x : Int, 0 ≤ x → x < threeObs.num_obs →
          ((createLoop threeObs 2 (fun _ => true) (tot_threads threeObs.num_obs 2).toNat 0
              []).1.filter
            (fun th => decide (th.obs_start ≤ x ∧ x ≤ th.obs_end))).length = 1) :=
  C2_ranges_cover_exactly_once threeObs 2 (by decide) (by decide) (by decide)

/-- C3: with `quotient = N / workers` and `remainder = N % workers`, there are at
least `remainder` workers, each of the first `remainder` workers is assigned
`quotient + 1` observations and every other worker `quotient` observations, so
two chunk sizes differ by at most one. -/
theorem C3_chunk_sizes (N w : Int) (hN : 0 ≤ N) (hw : 1 ≤ w) :
    remainder N w ≤ tot_threads N w
      ∧ (∀ i : Int, 0 ≤ i → i < tot_threads N w →
          chunk_b N w i - chunk_a N w i + 1
            = if i < remainder N w then quotient N w + 1 else quotient N w)
      ∧ (∀ i j : Int, 0 ≤ i → i < tot_threads N w → 0 ≤ j → j < tot_threads N w →
          |(chunk_b N w i - chunk_a N w i + 1) - (chunk_b N w j - chunk_a N w j + 1)| ≤ 1) := by
  obtain ⟨hNe, hr0, hrw, hq⟩ := quotient_remainder_spec N w hN hw
  have hsize : ∀ i : Int, chunk_b N w i - chunk_a N w i + 1
      = if i < remainder N w then quotient N w + 1 else quotient N w := by
    intro i
    unfold chunk_b
    split_ifs <;> ring
  refine ⟨?_, fun i _ _ => hsize i, ?_⟩
  · unfold tot_threads
    split_ifs <;> omega
  · intro i j _ _ _ _
    rw [hsize i, hsize j, abs_le]
    split_ifs <;> constructor <;> omega

/-- C3 at `N = 10`, `w = 4`: sizes 3, 3, 2, 2. -/
theorem C3_chunk_sizes_witness :
    remainder 10 4 ≤ tot_threads 10 4
      ∧ (∀ i : Int, 0 ≤ i → i < tot_threads 10 4 →
          chunk_b 10 4 i - chunk_a 10 4 i + 1
            = if i < remainder 10 4 then quotient 10 4 + 1 else quotient 10 4)
      ∧ (∀ i j : Int, 0 ≤ i → i < tot_threads 10 4 → 0 ≤ j → j < tot_threads 10 4 →
          |(chunk_b 10 4 i - chunk_a 10 4 i + 1) - (chunk_b 10 4 j - chunk_a 10 4 j + 1)| ≤ 1) :=
  C3_chunk_sizes 10 4 (by decide) (by decide)


/-! ## The permutation loop -/

theorem drawLoop_pushes (twh : Nat → ℚ) (max_rand cnt : Int) (k : Nat) :
    ∀ (fuel rand : Nat) (wp : GeoDaSet) (seed : Nat) (wp' : GeoDaSet) (seed' : Nat),
      drawLoop twh max_rand cnt k fuel rand wp seed = some (wp', seed') →
      ∃ new : List Int, wp'.buffer = new ++ wp.buffer ∧ new.length = k - rand
  | 0, rand, wp, seed, wp', seed', h => by
    unfold drawLoop at h
    split_ifs at h with hlt
    simp only [Option.some.injEq, Prod.mk.injEq] at h
    exact ⟨[], by simp [h.1], by simp; omega⟩
  | fuel + 1, rand, wp, seed, wp', seed', h => by
    unfold drawLoop at h
    simp only at h
    split_ifs at h with hlt hacc
    · obtain ⟨new, h1, h2⟩ := drawLoop_pushes twh max_rand cnt k fuel _ _ _ _ _ h
      refine ⟨new ++ [toInt (twh seed * (max_rand : ℚ))], ?_, ?_⟩
      · simp [h1, GeoDaSet.Push]
      · simp [h2]; omega
    · exact drawLoop_pushes twh max_rand cnt k fuel _ _ _ _ _ h
    · simp only [Option.some.injEq, Prod.mk.injEq] at h
      exact ⟨[], by simp [h.1], by simp; omega⟩

theorem popLoop_pops (data : Int → ℚ) :
    ∀ (n : Nat) (new rest : List Int) (acc : ℚ), new.length = n →
      (popLoop data n ⟨new ++ rest⟩ acc).2 = ⟨rest⟩
  | 0, new, rest, acc, h => by
    have : new = [] := List.length_eq_zero.mp h
    subst this
    simp [popLoop]
  | n + 1, new, rest, acc, h => by
    cases new with
    | nil => simp at h
    | cons x xs =>
      simp only [List.length_cons, Nat.add_right_cancel_iff] at h
      simp only [popLoop, GeoDaSet.Pop, List.cons_append]
      exact popLoop_pops data n xs rest _ h

theorem permutedStat_restores (twh : Nat → ℚ) (fuel : Nat) (c : LisaCoordinator) (cnt : Int)
    (wp : GeoDaSet) (seed : Nat) (wp' : GeoDaSet) (seed' : Nat)
    (h : drawLoop twh (c.num_obs - 1) cnt (c.W cnt).length fuel 0 wp seed = some (wp', seed')) :
    (permutedStat c cnt wp').2 = wp := by
  obtain ⟨new, h1, h2⟩ := drawLoop_pushes _ _ _ _ _ _ _ _ _ _ h
  have hwp : wp' = ⟨new ++ wp.buffer⟩ := by cases wp'; simp_all
  subst hwp
  unfold permutedStat
  simp only
  split_ifs <;> exact popLoop_pops _ _ _ _ _ (by simpa using h2)

theorem permLoop_spec (twh : Nat → ℚ) (fuel : Nat) (c : LisaCoordinator) (cnt : Int) :
    ∀ (n : Nat) (wp : GeoDaSet) (seed cl : Nat) (wp' : GeoDaSet) (seed' cl' : Nat),
      permLoop twh fuel c cnt n wp seed cl = some (wp', seed', cl') →
      wp' = wp ∧ ∃ stats : List ℚ, permStatsList twh fuel c cnt n wp seed = some stats
        ∧ stats.length = n
        ∧ cl' = cl + stats.countP (fun x => decide (x ≥ c.local_moran_vecs c.localMoran cnt))
  | 0, wp, seed, cl, wp', seed', cl', h => by
    simp only [permLoop, Option.some.injEq, Prod.mk.injEq] at h
    exact ⟨h.1.symm, [], rfl, rfl, by simp [h.2.2]⟩
  | n + 1, wp, seed, cl, wp', seed', cl', h => by
    unfold permLoop at h
    unfold permStatsList
    cases hd : drawLoop twh (c.num_obs - 1) cnt (c.W cnt).length fuel 0 wp seed with
    | none => rw [hd] at h; simp at h
    | some r =>
      obtain ⟨wp1, seed1⟩ := r
      rw [hd] at h
      simp only at h
      have hrest := permutedStat_restores twh fuel c cnt wp seed wp1 seed1 hd
      obtain ⟨hwp, stats, hs, hlen, hcl⟩ := permLoop_spec twh fuel c cnt n _ _ _ _ _ _ h
      refine ⟨by rw [hwp, hrest], (permutedStat c cnt wp1).1 :: stats, ?_, by simp [hlen], ?_⟩
      · simp [hs]
      · rw [hcl, List.countP_cons]
        by_cases hge : (permutedStat c cnt wp1).1 ≥ c.local_moran_vecs c.localMoran cnt
        · simp only [hge, if_true, decide_True]; omega
        · simp only [hge, if_false, decide_False]; simp


/-! ## The observation loop of the significance pass -/

theorem permStatsList_withSig (twh : Nat → ℚ) (fuel : Nat) (c : LisaCoordinator)
    (f : Int → Int → ℚ) (g : Int → Int → Int) (cnt : Int) :
    ∀ (n : Nat) (wp : GeoDaSet) (seed : Nat),
      permStatsList twh fuel (withSig c f g) cnt n wp seed = permStatsList twh fuel c cnt n wp seed
  | 0, _, _ => rfl
  | n + 1, wp, seed => by
    unfold permStatsList
    have hW : (withSig c f g).W = c.W := rfl
    have hN : (withSig c f g).num_obs = c.num_obs := rfl
    have hP : ∀ w, permutedStat (withSig c f g) cnt w = permutedStat c cnt w := fun _ => rfl
    rw [hW, hN]
    cases drawLoop twh (c.num_obs - 1) cnt (c.W cnt).length fuel 0 wp seed with
    | none => rfl
    | some r =>
      simp only [hP]
      rw [permStatsList_withSig twh fuel c f g cnt n]

/-- What the body of the observation loop of `CalcPseudoP_range` does when it
returns: the working set is back to what it was, and the two results written at
`cnt` are computed from the permuted statistics of `cnt`. -/
theorem CalcPseudoP_obs_spec (twh : Nat → ℚ) (fuel : Nat) (cnt : Int) (c : LisaCoordinator)
    (wp : GeoDaSet) (seed : Nat) (c' : LisaCoordinator) (wp' : GeoDaSet) (seed' : Nat)
    (h : CalcPseudoP_obs twh fuel cnt (c, wp, seed) = some (c', wp', seed')) :
    wp' = wp ∧ ∃ stats : List ℚ,
      permStatsList twh fuel c cnt c.permutations.toNat wp seed = some stats
      ∧ stats.length = c.permutations.toNat
      ∧ c' = withSig c
          (set2 c.sig_local_moran_vecs c.sigLocalMoran cnt
            (pseudoP c.permutations (pickSmallest c.permutations
              (stats.countP (fun x => decide (x ≥ c.local_moran_vecs c.localMoran cnt))))))
          (set2 c.sig_cat_vecs c.sigCat cnt
            (sigCategory (pseudoP c.permutations (pickSmallest c.permutations
              (stats.countP (fun x => decide (x ≥ c.local_moran_vecs c.localMoran cnt)))))
              (c.W cnt).length)) := by
  unfold CalcPseudoP_obs at h
  simp only at h
  cases hp : permLoop twh fuel c cnt c.permutations.toNat wp seed 0 with
  | none => rw [hp] at h; simp at h
  | some r =>
    obtain ⟨wp1, seed1, cl⟩ := r
    rw [hp] at h
    simp only [Option.some.injEq, Prod.mk.injEq] at h
    obtain ⟨hwp, stats, hs, hlen, hcl⟩ := permLoop_spec twh fuel c cnt _ _ _ _ _ _ _ hp
    rw [Nat.zero_add] at hcl
    subst hcl
    refine ⟨by rw [← h.2.1, hwp], stats, hs, hlen, ?_⟩
    rw [← h.1]
    rfl

theorem forLoopM_invariant {σ : Type} (body : Int → σ → Option σ) (Inv : Int → σ → Prop)
    (hstep : ∀ i s s', Inv i s → body i s = some s' → Inv (i + 1) s') :
    ∀ (n : Nat) (lo : Int) (s s' : σ), Inv lo s → forLoopM body n lo s = some s' →
      Inv (lo + n) s'
  | 0, lo, s, s', hinv, h => by
    simp only [forLoopM, Option.some.injEq] at h
    subst h
    simpa using hinv
  | n + 1, lo, s, s', hinv, h => by
    unfold forLoopM at h
    cases hb : body lo s with
    | none => rw [hb] at h; simp at h
    | some s1 =>
      rw [hb] at h
      simp only at h
      have := forLoopM_invariant body Inv hstep n (lo + 1) s1 s' (hstep lo s s1 hinv hb) h
      rw [show lo + ((n + 1 : Nat) : Int) = lo + 1 + (n : Int) by push_cast; ring]
      exact this

theorem forLoop_invariant {σ : Type} (body : Int → σ → σ) (Inv : Int → σ → Prop)
    (hstep : ∀ i s, Inv i s → Inv (i + 1) (body i s)) :
    ∀ (n : Nat) (lo : Int) (s : σ), Inv lo s → Inv (lo + n) (forLoop body n lo s)
  | 0, lo, s, hinv => by simpa [forLoop] using hinv
  | n + 1, lo, s, hinv => by
    unfold forLoop
    have := forLoop_invariant body Inv hstep n (lo + 1) (body lo s) (hstep lo s hinv)
    rw [show lo + ((n + 1 : Nat) : Int) = lo + 1 + (n : Int) by push_cast; ring]
    exact this


theorem set2_same {α : Type} (v : Int → Int → α) (t i : Int) (x : α) : set2 v t i x t i = x := by
  simp [set2]

theorem set2_other {α : Type} (v : Int → Int → α) (t i : Int) (x : α) (t1 i1 : Int)
    (h : ¬(t1 = t ∧ i1 = i)) : set2 v t i x t1 i1 = v t1 i1 := by
  simp [set2, h]

/-- Result of `CalcPseudoP_range` when it returns: only the two significance
vectors change, only in the selected slice and inside `[obs_start, obs_end]`, and
there each entry is the result of the observation's permutations. -/
theorem CalcPseudoP_range_spec (twh : Nat → ℚ) (fuel : Nat) (c : LisaCoordinator)
    (obs_start obs_end : Int) (seed_start : Nat) (c' : LisaCoordinator)
    (h : CalcPseudoP_range twh fuel c obs_start obs_end seed_start = some c') :
    ∃ (f : Int → Int → ℚ) (g : Int → Int → Int), c' = withSig c f g
      ∧ (∀ t i, ¬(t = c.sigLocalMoran ∧ obs_start ≤ i ∧ i ≤ obs_end) →
          f t i = c.sig_local_moran_vecs t i)
      ∧ (∀ t i, ¬(t = c.sigCat ∧ obs_start ≤ i ∧ i ≤ obs_end) → g t i = c.sig_cat_vecs t i)
      ∧ (∀ i, obs_start ≤ i → i ≤ obs_end →
          ObsResult twh fuel c i (f c.sigLocalMoran i) (g c.sigCat i)) := by
  unfold CalcPseudoP_range at h
  cases hl : forLoopM (CalcPseudoP_obs twh fuel) (obs_end + 1 - obs_start).toNat obs_start
      (c, GeoDaSet.empty, seed_start) with
  | none => rw [hl] at h; simp at h
  | some st =>
    rw [hl] at h
    simp only [Option.map_some', Option.some.injEq] at h
    have key := forLoopM_invariant (CalcPseudoP_obs twh fuel)
      (fun j st => obs_start ≤ j ∧ st.2.1 = GeoDaSet.empty ∧
        ∃ (f : Int → Int → ℚ) (g : Int → Int → Int), st.1 = withSig c f g
          ∧ (∀ t i, ¬(t = c.sigLocalMoran ∧ obs_start ≤ i ∧ i < j) →
              f t i = c.sig_local_moran_vecs t i)
          ∧ (∀ t i, ¬(t = c.sigCat ∧ obs_start ≤ i ∧ i < j) → g t i = c.sig_cat_vecs t i)
          ∧ (∀ i, obs_start ≤ i → i < j →
              ObsResult twh fuel c i (f c.sigLocalMoran i) (g c.sigCat i)))
      (by
        rintro j ⟨c1, wp1, seed1⟩ ⟨c2, wp2, seed2⟩ ⟨hlo, hwp, f, g, hc1, hf, hg, hres⟩ hb
        simp only at hwp hc1
        subst hwp hc1
        obtain ⟨hwp2, stats, hs, hlen, hc2⟩ := CalcPseudoP_obs_spec twh fuel j _ _ _ _ _ _ hb
        rw [permStatsList_withSig] at hs
        refine ⟨by omega, hwp2, _, _, hc2, ?_, ?_, ?_⟩
        · intro t i hti
          rw [set2_other _ _ _ _ _ _ (by
            rintro ⟨h1, h2⟩
            exact hti ⟨h1, by omega, by omega⟩)]
          exact hf t i (by rintro ⟨h1, h2, h3⟩; exact hti ⟨h1, h2, by omega⟩)
        · intro t i hti
          rw [set2_other _ _ _ _ _ _ (by
            rintro ⟨h1, h2⟩
            exact hti ⟨h1, by omega, by omega⟩)]
          exact hg t i (by rintro ⟨h1, h2, h3⟩; exact hti ⟨h1, h2, by omega⟩)
        · intro i h1 h2
          by_cases hij : i = j
          · subst hij
            show ObsResult twh fuel c i
              (set2 f c.sigLocalMoran i _ c.sigLocalMoran i) (set2 g c.sigCat i _ c.sigCat i)
            rw [set2_same, set2_same]
            exact ⟨seed1, stats, hs, hlen, rfl, rfl⟩
          · show ObsResult twh fuel c i
              (set2 f c.sigLocalMoran j _ c.sigLocalMoran i) (set2 g c.sigCat j _ c.sigCat i)
            rw [set2_other _ _ _ _ _ _ (by rintro ⟨_, h⟩; exact hij h),
              set2_other _ _ _ _ _ _ (by rintro ⟨_, h⟩; exact hij h)]
            exact hres i h1 (by omega))
      _ obs_start _ st ⟨le_refl _, rfl, c.sig_local_moran_vecs, c.sig_cat_vecs, rfl,
        fun _ _ _ => rfl, fun _ _ _ => rfl, fun i h1 h2 => by omega⟩ hl
    obtain ⟨_, _, f, g, hst, hf, hg, hres⟩ := key
    refine ⟨f, g, by rw [← h, hst], ?_, ?_, ?_⟩
    · intro t i hti
      exact hf t i (by rintro ⟨h1, h2, h3⟩; exact hti ⟨h1, h2, by omega⟩)
    · intro t i hti
      exact hg t i (by rintro ⟨h1, h2, h3⟩; exact hti ⟨h1, h2, by omega⟩)
    · intro i h1 h2
      exact hres i h1 (by omega)


/-! ## Pseudo p-value arithmetic -/

theorem ObsResult_SigOk (twh : Nat → ℚ) (fuel : Nat) (c : LisaCoordinator) (i : Int)
    (sig : ℚ) (cat : Int) (h : ObsResult twh fuel c i sig cat) : SigOk c i sig cat := by
  obtain ⟨seed, stats, _, hlen, hsig, hcat⟩ := h
  exact ⟨_, by rw [← hlen]; exact List.countP_le_length _, hsig, hcat⟩


/-! ## Running the workers -/

/-- Result of running a list of workers one after the other: only the two
significance vectors change, only in the selected slice and inside the workers'
ranges, and every entry inside a worker's range is a pass result. -/
theorem runWorkers_spec (twh : Nat → ℚ) (fuel : Nat) :
    ∀ (wl : List LisaWorkerThread) (c c' : LisaCoordinator),
      runWorkers twh fuel wl c = some c' →
      ∃ (f : Int → Int → ℚ) (g : Int → Int → Int), c' = withSig c f g
        ∧ (∀ t i, ¬(t = c.sigLocalMoran ∧ ∃ th ∈ wl, th.obs_start ≤ i ∧ i ≤ th.obs_end) →
            f t i = c.sig_local_moran_vecs t i)
        ∧ (∀ t i, ¬(t = c.sigCat ∧ ∃ th ∈ wl, th.obs_start ≤ i ∧ i ≤ th.obs_end) →
            g t i = c.sig_cat_vecs t i)
        ∧ (∀ i, (SigOk c i (c.sig_local_moran_vecs c.sigLocalMoran i)
                    (c.sig_cat_vecs c.sigCat i)
                  ∨ ∃ th ∈ wl, th.obs_start ≤ i ∧ i ≤ th.obs_end) →
            SigOk c i (f c.sigLocalMoran i) (g c.sigCat i))
  | [], c, c', h => by
    simp only [runWorkers, Option.some.injEq] at h
    subst h
    refine ⟨c.sig_local_moran_vecs, c.sig_cat_vecs, rfl, fun _ _ _ => rfl, fun _ _ _ => rfl, ?_⟩
    rintro i (h | ⟨th, hth, _⟩)
    · exact h
    · simp at hth
  | th :: rest, c, c', h => by
    unfold runWorkers at h
    cases hr : CalcPseudoP_range twh fuel c th.obs_start th.obs_end th.seed_start with
    | none => rw [hr] at h; simp at h
    | some c1 =>
      rw [hr] at h
      simp only at h
      obtain ⟨f1, g1, hc1, hf1, hg1, hres1⟩ := CalcPseudoP_range_spec twh fuel c _ _ _ _ hr
      subst hc1
      obtain ⟨f, g, hc', hf, hg, hres⟩ := runWorkers_spec twh fuel rest _ _ h
      refine ⟨f, g, hc', ?_, ?_, ?_⟩
      · intro t i hti
        rw [hf t i (by
          rintro ⟨h1, th', hth', h2⟩
          exact hti ⟨h1, th', List.mem_cons_of_mem _ hth', h2⟩)]
        exact hf1 t i (by
          rintro ⟨h1, h2⟩
          exact hti ⟨h1, th, List.mem_cons_self _ _, h2⟩)
      · intro t i hti
        rw [hg t i (by
          rintro ⟨h1, th', hth', h2⟩
          exact hti ⟨h1, th', List.mem_cons_of_mem _ hth', h2⟩)]
        exact hg1 t i (by
          rintro ⟨h1, h2⟩
          exact hti ⟨h1, th, List.mem_cons_self _ _, h2⟩)
      · intro i hi
        apply hres i
        by_cases hin : th.obs_start ≤ i ∧ i ≤ th.obs_end
        · left
          exact ObsResult_SigOk twh fuel c i _ _ (hres1 i hin.1 hin.2)
        · rcases hi with hok | ⟨th', hth', h2⟩
          · left
            show SigOk c i (f1 c.sigLocalMoran i) (g1 c.sigCat i)
            rw [hf1 _ i (by rintro ⟨_, h⟩; exact hin h), hg1 _ i (by rintro ⟨_, h⟩; exact hin h)]
            exact hok
          · rcases List.mem_cons.mp hth' with heq | hmem
            · subst heq; exact absurd h2 hin
            · right; exact ⟨th', hmem, h2⟩


/-! ## The threaded pass -/

theorem chooseSeed_withSeed (now : Int) (c : LisaCoordinator) :
    ∃ seed : Nat, chooseSeed now c = { c with last_seed_used := seed } := by
  unfold chooseSeed
  split_ifs
  · exact ⟨_, rfl⟩
  · exact ⟨c.last_seed_used, rfl⟩

theorem SameSetup_refl (c : LisaCoordinator) : SameSetup c c := by
  unfold SameSetup
  simp

theorem SameSetup_trans (c d e : LisaCoordinator) (h1 : SameSetup c d) (h2 : SameSetup d e) :
    SameSetup c e := by
  unfold SameSetup at *
  obtain ⟨a1, a2, a3, a4, a5, a6, a7, a8, a9, a10, a11, a12, a13, a14, a15, a16⟩ := h1
  obtain ⟨b1, b2, b3, b4, b5, b6, b7, b8, b9, b10, b11, b12, b13, b14, b15, b16⟩ := h2
  exact ⟨b1.trans a1, b2.trans a2, b3.trans a3, b4.trans a4, b5.trans a5, b6.trans a6,
    b7.trans a7, b8.trans a8, b9.trans a9, b10.trans a10, b11.trans a11, b12.trans a12,
    b13.trans a13, b14.trans a14, b15.trans a15, b16.trans a16⟩

theorem CalcPseudoP_select_spec (t : Int) (c : LisaCoordinator) :
    SameSetup c (CalcPseudoP_select t c)
      ∧ (CalcPseudoP_select t c).sigLocalMoran = t ∧ (CalcPseudoP_select t c).sigCat = t
      ∧ (CalcPseudoP_select t c).sig_local_moran_vecs = c.sig_local_moran_vecs
      ∧ (CalcPseudoP_select t c).sig_cat_vecs = c.sig_cat_vecs := by
  unfold CalcPseudoP_select SameSetup
  simp only
  split_ifs <;> simp

theorem SameSetup_withSig_seed (c d : LisaCoordinator) (h : SameSetup c d) (seed : Nat)
    (f : Int → Int → ℚ) (g : Int → Int → Int) :
    SameSetup c (withSig { d with last_seed_used := seed } f g) := h

theorem LisaInputsSame_refl (c : LisaCoordinator) : LisaInputsSame c c := by
  unfold LisaInputsSame
  simp

theorem LisaInputsSame_trans (c d e : LisaCoordinator) (h1 : LisaInputsSame c d)
    (h2 : LisaInputsSame d e) : LisaInputsSame c e := by
  unfold LisaInputsSame at *
  obtain ⟨a1, a2, a3, a4, a5, a6, a7, a8, a9, a10, a11, a12, a13, a14⟩ := h1
  obtain ⟨b1, b2, b3, b4, b5, b6, b7, b8, b9, b10, b11, b12, b13, b14⟩ := h2
  exact ⟨b1.trans a1, b2.trans a2, b3.trans a3, b4.trans a4, b5.trans a5, b6.trans a6,
    b7.trans a7, b8.trans a8, b9.trans a9, b10.trans a10, b11.trans a11, b12.trans a12,
    b13.trans a13, b14.trans a14⟩

theorem CalcLisa_select_spec (t : Int) (c : LisaCoordinator) :
    LisaInputsSame c (CalcLisa_select t c)
      ∧ (CalcLisa_select t c).data1 = t
      ∧ (c.isBivariate = true →
          (CalcLisa_select t c).data2 = if c.var1_synced then t else 0)
      ∧ (CalcLisa_select t c).lags = t ∧ (CalcLisa_select t c).localMoran = t
      ∧ (CalcLisa_select t c).cluster = t
      ∧ (CalcLisa_select t c).lags_vecs = c.lags_vecs
      ∧ (CalcLisa_select t c).local_moran_vecs = c.local_moran_vecs
      ∧ (CalcLisa_select t c).cluster_vecs = c.cluster_vecs := by
  unfold CalcLisa_select LisaInputsSame LisaCoordinator.var1_synced
  simp only
  split_ifs <;> simp_all

/-- One iteration of the observation loop of `CalcLisa`: the inputs and the slice
pointers are kept, and the three result vectors are assigned at the pointed slice
and observation `i`. -/
theorem CalcLisa_obs_spec (SL : GalElement → (Int → ℚ) → ℚ) (t i : Int)
    (d : LisaCoordinator) :
    LisaInputsSame d (CalcLisa_obs SL t i d)
      ∧ (CalcLisa_obs SL t i d).data1 = d.data1 ∧ (CalcLisa_obs SL t i d).data2 = d.data2
      ∧ (CalcLisa_obs SL t i d).lags = d.lags
      ∧ (CalcLisa_obs SL t i d).localMoran = d.localMoran
      ∧ (CalcLisa_obs SL t i d).cluster = d.cluster
      ∧ (CalcLisa_obs SL t i d).lags_vecs = set2 d.lags_vecs d.lags i
          (SL (d.W i) (if d.isBivariate then d.data2_vecs d.data2 else d.data1_vecs d.data1))
      ∧ (CalcLisa_obs SL t i d).local_moran_vecs = set2 d.local_moran_vecs d.localMoran i
          (d.data1_vecs d.data1 i
            * SL (d.W i) (if d.isBivariate then d.data2_vecs d.data2 else d.data1_vecs d.data1))
      ∧ (CalcLisa_obs SL t i d).cluster_vecs = set2 d.cluster_vecs d.cluster i
          (clusterOf (d.data1_vecs d.data1 i)
            (SL (d.W i) (if d.isBivariate then d.data2_vecs d.data2 else d.data1_vecs d.data1))
            (d.W i).length) := by
  unfold CalcLisa_obs LisaInputsSame clusterOf
  simp only
  by_cases hb : d.isBivariate = true
  · simp only [hb, if_true]
    split_ifs <;> simp_all
  · simp only [hb]
    split_ifs <;> simp_all


/-- One iteration of the time loop of `CalcLisa`: inputs kept, the three result
vectors change only in slice `t` for observations of `[0, num_obs)`, and there
they hold the lag, the local statistic and the label. -/
theorem CalcLisa_slice_spec (SL : GalElement → (Int → ℚ) → ℚ) (t : Int)
    (c : LisaCoordinator) :
    LisaInputsSame c (CalcLisa_slice SL t c)
      ∧ (∀ s i, ¬(s = t ∧ 0 ≤ i ∧ i < c.num_obs) →
          (CalcLisa_slice SL t c).lags_vecs s i = c.lags_vecs s i
          ∧ (CalcLisa_slice SL t c).local_moran_vecs s i = c.local_moran_vecs s i
          ∧ (CalcLisa_slice SL t c).cluster_vecs s i = c.cluster_vecs s i)
      ∧ (∀ i, 0 ≤ i → i < c.num_obs →
          LisaCell SL c t i ((CalcLisa_slice SL t c).lags_vecs t i)
            ((CalcLisa_slice SL t c).local_moran_vecs t i)
            ((CalcLisa_slice SL t c).cluster_vecs t i)) := by
  obtain ⟨hsame, hd1, hd2, hl, hlm, hcl, hlv, hlmv, hclv⟩ := CalcLisa_select_spec t c
  have hnum : (CalcLisa_select t c).num_obs = c.num_obs := hsame.1
  unfold CalcLisa_slice
  have key := forLoop_invariant (CalcLisa_obs SL t)
    (fun j d => 0 ≤ j ∧ LisaInputsSame c d ∧ d.data1 = t
      ∧ (c.isBivariate = true → d.data2 = if c.var1_synced then t else 0)
      ∧ d.lags = t ∧ d.localMoran = t ∧ d.cluster = t
      ∧ (∀ s i, ¬(s = t ∧ 0 ≤ i ∧ i < j) →
          d.lags_vecs s i = c.lags_vecs s i
          ∧ d.local_moran_vecs s i = c.local_moran_vecs s i
          ∧ d.cluster_vecs s i = c.cluster_vecs s i)
      ∧ (∀ i, 0 ≤ i → i < j →
          LisaCell SL c t i (d.lags_vecs t i) (d.local_moran_vecs t i) (d.cluster_vecs t i)))
    (by
      rintro j d ⟨hj, hs, h1, h2, h3, h4, h5, hframe, hcell⟩
      obtain ⟨os, o1, o2, o3, o4, o5, olv, olm, ocl⟩ := CalcLisa_obs_spec SL t j d
      have hvar : (if d.isBivariate then d.data2_vecs d.data2 else d.data1_vecs d.data1)
          = lagVariable c t := by
        unfold lagVariable
        rw [hs.2.2.2.1, hs.2.2.2.2.2.2.2.2.2.2.1, hs.2.2.2.2.2.2.2.2.2.2.2.1, h1]
        by_cases hb : c.isBivariate = true
        · rw [if_pos hb, if_pos hb, h2 hb]
        · rw [if_neg hb, if_neg hb]
      rw [hvar, h3, hs.2.2.2.2.2.2.2.1] at olv
      rw [hvar, h4, hs.2.2.2.2.2.2.2.1, h1, hs.2.2.2.2.2.2.2.2.2.2.1] at olm
      rw [hvar, h5, hs.2.2.2.2.2.2.2.1, h1, hs.2.2.2.2.2.2.2.2.2.2.1] at ocl
      refine ⟨by omega, LisaInputsSame_trans c d _ hs os, o1.trans h1,
        fun hb => o2.trans (h2 hb), o3.trans h3, o4.trans h4, o5.trans h5, ?_, ?_⟩
      · intro s i hsi
        have hne : ¬(s = t ∧ i = j) := by
          rintro ⟨e1, e2⟩
          exact hsi ⟨e1, by omega, by omega⟩
        rw [olv, olm, ocl, set2_other _ _ _ _ _ _ hne, set2_other _ _ _ _ _ _ hne,
          set2_other _ _ _ _ _ _ hne]
        exact hframe s i (by rintro ⟨e1, e2, e3⟩; exact hsi ⟨e1, e2, by omega⟩)
      · intro i hi0 hi1
        rw [olv, olm, ocl]
        by_cases hij : i = j
        · subst hij
          rw [set2_same, set2_same, set2_same]
          exact ⟨rfl, rfl, rfl⟩
        · have hne : ¬(t = t ∧ i = j) := by rintro ⟨_, e2⟩; exact hij e2
          rw [set2_other _ _ _ _ _ _ hne, set2_other _ _ _ _ _ _ hne,
            set2_other _ _ _ _ _ _ hne]
          exact hcell i hi0 (by omega))
    (CalcLisa_select t c).num_obs.toNat 0 (CalcLisa_select t c)
    ⟨le_refl _, hsame, hd1, hd2, hl, hlm, hcl,
      fun s i _ => by rw [hlv, hlmv, hclv]; exact ⟨rfl, rfl, rfl⟩,
      fun i h0 h1 => by omega⟩
  obtain ⟨_, ks, _, _, _, _, _, kframe, kcell⟩ := key
  rw [hnum] at ks kframe kcell ⊢
  refine ⟨ks, ?_, ?_⟩
  · intro s i hsi
    exact kframe s i (by rintro ⟨e1, e2, e3⟩; exact hsi ⟨e1, e2, by omega⟩)
  · intro i h0 h1
    exact kcell i h0 (by omega)

theorem LisaCell_of_LisaInputsSame (SL : GalElement → (Int → ℚ) → ℚ) (c d : LisaCoordinator)
    (h : LisaInputsSame c d) (t i : Int) (lag stat : ℚ) (label : Int) :
    LisaCell SL d t i lag stat label ↔ LisaCell SL c t i lag stat label := by
  unfold LisaInputsSame at h
  unfold LisaCell lagVariable LisaCoordinator.var1_synced
  rw [h.2.2.2.1, h.2.2.2.2.2.2.1, h.2.2.2.2.2.2.2.1, h.2.2.2.2.2.2.2.2.2.2.1,
    h.2.2.2.2.2.2.2.2.2.2.2.1]

/-- Result of `CalcLisa`: the inputs are kept and, for every slice `t` of
`[0, num_time_vals)` and observation `i` of `[0, num_obs)`, the three result
vectors hold the lag, the local statistic and the label of `i`. -/
theorem CalcLisa_spec (SL : GalElement → (Int → ℚ) → ℚ) (c : LisaCoordinator) :
    LisaInputsSame c (CalcLisa SL c)
      ∧ (∀ t i, 0 ≤ t → t < c.num_time_vals → 0 ≤ i → i < c.num_obs →
          LisaCell SL c t i ((CalcLisa SL c).lags_vecs t i)
            ((CalcLisa SL c).local_moran_vecs t i) ((CalcLisa SL c).cluster_vecs t i)) := by
  unfold CalcLisa
  have key := forLoop_invariant (CalcLisa_slice SL)
    (fun j d => 0 ≤ j ∧ LisaInputsSame c d
      ∧ (∀ t i, 0 ≤ t → t < j → 0 ≤ i → i < c.num_obs →
          LisaCell SL c t i (d.lags_vecs t i) (d.local_moran_vecs t i) (d.cluster_vecs t i)))
    (by
      rintro j d ⟨hj, hs, hcell⟩
      obtain ⟨ss, sframe, scell⟩ := CalcLisa_slice_spec SL j d
      have hnum : d.num_obs = c.num_obs := hs.1
      refine ⟨by omega, LisaInputsSame_trans c d _ hs ss, ?_⟩
      intro t i ht0 ht1 hi0 hi1
      by_cases htj : t = j
      · subst htj
        exact (LisaCell_of_LisaInputsSame SL c d hs t i _ _ _).mp
          (scell i hi0 (by rw [hnum]; exact hi1))
      · obtain ⟨e1, e2, e3⟩ := sframe t i (by rintro ⟨e, _⟩; exact htj e)
        rw [e1, e2, e3]
        exact hcell t i ht0 (by omega) hi0 hi1)
    c.num_time_vals.toNat 0 c ⟨le_refl _, LisaInputsSame_refl c, fun t i h0 h1 => by omega⟩
  obtain ⟨_, ks, kcell⟩ := key
  refine ⟨ks, ?_⟩
  intro t i ht0 ht1 hi0 hi1
  exact kcell t i ht0 (by omega) hi0 hi1


set_option maxRecDepth 100000 in
theorem threeObs_single_pass :
    (CalcPseudoP_range hashEx 1 (CalcLisa (SpatialLag_spec true) threeObs) 0 2 0).map
      (fun c => (c.sig_local_moran_vecs 0 2, c.sig_cat_vecs 0 2)) = some (1 / 1000, 3) := by
  decide!

set_option maxRecDepth 100000 in
theorem threeObs_two_workers :
    (CalcPseudoP_threaded hashEx 1 2 0 (fun _ => true)
        (CalcLisa (SpatialLag_spec true) threeObs)).map
      (fun r => (r.1.sig_local_moran_vecs 0 2, r.1.sig_cat_vecs 0 2, r.2))
      = some (1 / 500, 2,
          [{ obs_start := 2, obs_end := 2, seed_start := 2, thread_id := 2 },
           { obs_start := 0, obs_end := 1, seed_start := 0, thread_id := 1 }]) := by
  decide!

theorem map_eq_some_exists {α β : Type} (f : α → β) (o : Option α) (b : β)
    (h : o.map f = some b) : ∃ a, o = some a ∧ f a = b := by
  cases o with
  | none => simp at h
  | some a => exact ⟨a, rfl, by simpa using h⟩


/-! ## Claims on the significance pass -/

/-- C1: evaluation at a failing input.  Three observations with values `[1, -1, 1]`,
observation 2 having the single neighbour 0, 999 permutations, base seed 0,
hash `(s mod 2000) / 2000`.  The single-threaded pass `CalcPseudoP_range(0, 2, 0)`
gives observation 2 the p-value 1/1000 and bucket 3; the pass partitioned over two
workers (ranges `[0, 1]` with seed 0 and `[2, 2]` with seed 2) gives it the p-value
1/500 and bucket 2. -/
theorem C1_partitioned_pass_differs :
    (CalcPseudoP_range hashEx 1 (CalcLisa (SpatialLag_spec true) threeObs) 0 2 0).map
        (fun c => (c.sig_local_moran_vecs 0 2, c.sig_cat_vecs 0 2)) = some (1 / 1000, 3)
      ∧ (CalcPseudoP_threaded hashEx 1 2 0 (fun _ => true)
          (CalcLisa (SpatialLag_spec true) threeObs)).map
        (fun r => (r.1.sig_local_moran_vecs 0 2, r.1.sig_cat_vecs 0 2, r.2))
        = some (1 / 500, 2,
            [{ obs_start := 2, obs_end := 2, seed_start := 2, thread_id := 2 },
             { obs_start := 0, obs_end := 1, seed_start := 0, thread_id := 1 }]) :=
  ⟨threeObs_single_pass, threeObs_two_workers⟩

/-- C4: if the creation of some worker fails, `CalcPseudoP_threaded` runs no
worker and its result is that of `CalcPseudoP_range(0, num_obs - 1, last_seed_used)`
on the calling thread, `last_seed_used` being the base seed chosen for this pass. -/
theorem C4_creation_failure_falls_back (twh : Nat → ℚ) (fuel : Nat) (nCPUs : Int) (now : Int)
    (create_ok : Int → Bool) (c : LisaCoordinator)
    (hfail : ∃ j : Int, 0 ≤ j ∧ j < tot_threads c.num_obs nCPUs ∧ create_ok j = false) :
    CalcPseudoP_threaded twh fuel nCPUs now create_ok c
      = (CalcPseudoP_range twh fuel (chooseSeed now c) 0 (c.num_obs - 1)
          (chooseSeed now c).last_seed_used).map (fun c' => (c', [])) := by
  obtain ⟨seed, hseed⟩ := chooseSeed_withSeed now c
  obtain ⟨j, hj0, hj1, hj2⟩ := hfail
  have herr : (createLoop (chooseSeed now c) nCPUs create_ok
      (tot_threads c.num_obs nCPUs).toNat 0 []).2 = true := by
    apply createLoop_fail
    refine ⟨j.toNat, by omega, ?_⟩
    rw [Int.toNat_of_nonneg hj0, zero_add]
    exact hj2
  have hnum : (chooseSeed now c).num_obs = c.num_obs := by rw [hseed]
  unfold CalcPseudoP_threaded
  simp only
  rw [hnum, if_pos herr]

/-- C4 with two workers requested for `threeObs` and the second creation failing. -/
theorem C4_creation_failure_falls_back_witness :
    CalcPseudoP_threaded hashEx 1 2 0 (fun i => decide (i = 0)) threeObs
      = (CalcPseudoP_range hashEx 1 (chooseSeed 0 threeObs) 0 (threeObs.num_obs - 1)
          (chooseSeed 0 threeObs).last_seed_used).map (fun c' => (c', [])) :=
  C4_creation_failure_falls_back hashEx 1 2 0 (fun i => decide (i = 0)) threeObs
    ⟨1, by decide, by decide, by decide⟩

/-- C7: for every observation `i` of the range with at least one neighbour,
`CalcPseudoP_range` sets `sig_cat[i]` to 4 if `sig[i] ≤ 0.0001`, else 3 if
`sig[i] ≤ 0.001`, else 2 if `sig[i] ≤ 0.01`, else 1 if `sig[i] ≤ 0.05`, else 0. -/
theorem C7_significance_buckets (twh : Nat → ℚ) (fuel : Nat) (c : LisaCoordinator)
    (obs_start obs_end : Int) (seed_start : Nat) (c' : LisaCoordinator)
    (h : CalcPseudoP_range twh fuel c obs_start obs_end seed_start = some c')
    (i : Int) (hi0 : obs_start ≤ i) (hi1 : i ≤ obs_end) (hnb : 0 < (c.W i).length) :
    c'.sig_cat_vecs c.sigCat i
      = if c'.sig_local_moran_vecs c.sigLocalMoran i ≤ 0.0001 then 4
        else if c'.sig_local_moran_vecs c.sigLocalMoran i ≤ 0.001 then 3
        else if c'.sig_local_moran_vecs c.sigLocalMoran i ≤ 0.01 then 2
        else if c'.sig_local_moran_vecs c.sigLocalMoran i ≤ 0.05 then 1
        else 0 := by
  obtain ⟨f, g, hc', _, _, hres⟩ := CalcPseudoP_range_spec twh fuel c _ _ _ _ h
  obtain ⟨_, _, _, _, _, hcat⟩ := hres i hi0 hi1
  rw [hc']
  show g c.sigCat i = if f c.sigLocalMoran i ≤ 0.0001 then 4 else _
  rw [hcat]
  unfold sigCategory
  simp only
  rw [if_neg (by omega)]
  rfl

/-- C7 on `threeObs` after `CalcLisa`, single-threaded pass from seed 0, observation 2. -/
theorem C7_significance_buckets_witness :
    ∃ c' : LisaCoordinator,
      CalcPseudoP_range hashEx 1 (CalcLisa (SpatialLag_spec true) threeObs) 0 2 0 = some c'
      ∧ c'.sig_cat_vecs (CalcLisa (SpatialLag_spec true) threeObs).sigCat 2
        = if c'.sig_local_moran_vecs
              (CalcLisa (SpatialLag_spec true) threeObs).sigLocalMoran 2 ≤ 0.0001 then 4
          else if c'.sig_local_moran_vecs
              (CalcLisa (SpatialLag_spec true) threeObs).sigLocalMoran 2 ≤ 0.001 then 3
          else if c'.sig_local_moran_vecs
              (CalcLisa (SpatialLag_spec true) threeObs).sigLocalMoran 2 ≤ 0.01 then 2
          else if c'.sig_local_moran_vecs
              (CalcLisa (SpatialLag_spec true) threeObs).sigLocalMoran 2 ≤ 0.05 then 1
          else 0 := by
  obtain ⟨c', hc', _⟩ := map_eq_some_exists _ _ _ threeObs_single_pass
  exact ⟨c', hc', C7_significance_buckets hashEx 1 _ 0 2 0 c' hc' 2 (by decide) (by decide)
    (by decide!)⟩


/-! ## Claims on the observed-statistic pass -/

/-- C9: for every observation `i` with at least one neighbour, `CalcLisa` labels
by the sign pair `(data1[i], lag[i])`: both positive gives 1 (High-High), both
negative 2 (Low-Low), `data1` negative and lag positive 3 (Low-High), `data1`
positive and lag negative 4 (High-Low). -/
theorem C9_cluster_by_sign_pair (SL : GalElement → (Int → ℚ) → ℚ) (c : LisaCoordinator)
    (t i : Int) (ht0 : 0 ≤ t) (ht1 : t < c.num_time_vals) (hi0 : 0 ≤ i) (hi1 : i < c.num_obs)
    (hnb : 0 < (c.W i).length) :
    (0 < c.data1_vecs t i ∧ 0 < (CalcLisa SL c).lags_vecs t i →
        (CalcLisa SL c).cluster_vecs t i = 1)
      ∧ (c.data1_vecs t i < 0 ∧ (CalcLisa SL c).lags_vecs t i < 0 →
        (CalcLisa SL c).cluster_vecs t i = 2)
      ∧ (c.data1_vecs t i < 0 ∧ 0 < (CalcLisa SL c).lags_vecs t i →
        (CalcLisa SL c).cluster_vecs t i = 3)
      ∧ (0 < c.data1_vecs t i ∧ (CalcLisa SL c).lags_vecs t i < 0 →
        (CalcLisa SL c).cluster_vecs t i = 4) := by
  obtain ⟨_, hcell⟩ := CalcLisa_spec SL c
  obtain ⟨_, _, hlabel⟩ := hcell t i ht0 ht1 hi0 hi1
  have hsize : ((c.W i).length : Int) > 0 := by omega
  rw [hlabel]
  unfold clusterOf
  rw [if_pos hsize]
  refine ⟨?_, ?_, ?_, ?_⟩
  · rintro ⟨hx, hl⟩
    rw [if_neg (by rintro ⟨_, h⟩; exact absurd h (not_lt.mpr hl.le)),
      if_neg (by rintro ⟨h, _⟩; exact absurd h (not_lt.mpr hx.le)),
      if_neg (by rintro ⟨h, _⟩; exact absurd h (not_lt.mpr hx.le))]
  · rintro ⟨hx, hl⟩
    rw [if_neg (by rintro ⟨h, _⟩; exact absurd h (not_lt.mpr hx.le)),
      if_neg (by rintro ⟨_, h⟩; exact absurd h (not_lt.mpr hl.le)),
      if_pos ⟨hx, hl⟩]
  · rintro ⟨hx, hl⟩
    rw [if_neg (by rintro ⟨h, _⟩; exact absurd h (not_lt.mpr hx.le)), if_pos ⟨hx, hl⟩]
  · rintro ⟨hx, hl⟩
    rw [if_pos ⟨hx, hl⟩]

/-- C9 on the scenario of section 8: the lag of observation 0 is -1, its local
statistic -2, its label 4 (High-Low); observations 1 to 4 get the isolate label. -/
theorem C9_cluster_by_sign_pair_witness :
    (CalcLisa (SpatialLag_spec true) scenario).lags_vecs 0 0 = -1
      ∧ (CalcLisa (SpatialLag_spec true) scenario).local_moran_vecs 0 0 = -2
      ∧ (CalcLisa (SpatialLag_spec true) scenario).cluster_vecs 0 0 = 4
      ∧ (CalcLisa (SpatialLag_spec true) scenario).cluster_vecs 0 1 = 5
      ∧ (CalcLisa (SpatialLag_spec true) scenario).cluster_vecs 0 2 = 5
      ∧ (CalcLisa (SpatialLag_spec true) scenario).cluster_vecs 0 3 = 5
      ∧ (CalcLisa (SpatialLag_spec true) scenario).cluster_vecs 0 4 = 5 :=
  ⟨by decide!, by decide!,
    (C9_cluster_by_sign_pair (SpatialLag_spec true) scenario 0 0 (by decide) (by decide)
      (by decide) (by decide) (by decide)).2.2.2 ⟨by decide!, by decide!⟩,
    by decide!, by decide!, by decide!, by decide!⟩

/-- C10: for every time slice `t` and observation `i`, after `CalcLisa`
`local_stat[t][i] = data1[t][i] * lag[t][i]`, where `lag[t][i]` is the stored
spatial lag at `i` of the lag variable (`data2` in bivariate mode, otherwise
`data1`), and `data1` is the array `CalcLisa` was given. -/
theorem C10_local_statistic (SL : GalElement → (Int → ℚ) → ℚ) (c : LisaCoordinator)
    (t i : Int) (ht0 : 0 ≤ t) (ht1 : t < c.num_time_vals) (hi0 : 0 ≤ i) (hi1 : i < c.num_obs) :
    (CalcLisa SL c).local_moran_vecs t i
        = (CalcLisa SL c).data1_vecs t i * (CalcLisa SL c).lags_vecs t i
      ∧ (CalcLisa SL c).lags_vecs t i = SL (c.W i) (lagVariable c t)
      ∧ (CalcLisa SL c).data1_vecs = c.data1_vecs := by
  obtain ⟨hsame, hcell⟩ := CalcLisa_spec SL c
  obtain ⟨hlag, hstat, _⟩ := hcell t i ht0 ht1 hi0 hi1
  have hd1 : (CalcLisa SL c).data1_vecs = c.data1_vecs := hsame.2.2.2.2.2.2.2.2.2.2.1
  exact ⟨by rw [hstat, hd1], hlag, hd1⟩

/-- C10 on the scenario of section 8, observation 0: `-2 = 2 * -1`. -/
theorem C10_local_statistic_witness :
    (CalcLisa (SpatialLag_spec true) scenario).local_moran_vecs 0 0
        = (CalcLisa (SpatialLag_spec true) scenario).data1_vecs 0 0
          * (CalcLisa (SpatialLag_spec true) scenario).lags_vecs 0 0
      ∧ (CalcLisa (SpatialLag_spec true) scenario).lags_vecs 0 0
        = SpatialLag_spec true (scenario.W 0) (lagVariable scenario 0)
      ∧ (CalcLisa (SpatialLag_spec true) scenario).data1_vecs = scenario.data1_vecs :=
  C10_local_statistic (SpatialLag_spec true) scenario 0 0 (by decide) (by decide) (by decide)
    (by decide)


/-! ## The candidate index of a draw -/

theorem toInt_eq_floor (q : ℚ) (hq : 0 ≤ q) : toInt q = ⌊q⌋ := by
  unfold toInt
  rw [Rat.floor_def]
  exact Int.tdiv_eq_ediv (Rat.num_nonneg.mpr hq) (by exact_mod_cast Nat.zero_le _)

/-- A hash value of `[0, 1)` and a non-negative `max_rand` give a candidate in
`[0, max_rand]`, and below `max_rand` when `max_rand` is positive. -/
theorem candidate_range (u : ℚ) (max_rand : Int) (hu0 : 0 ≤ u) (hu1 : u < 1)
    (hm : 0 ≤ max_rand) :
    0 ≤ toInt (u * (max_rand : ℚ)) ∧ toInt (u * (max_rand : ℚ)) ≤ max_rand
      ∧ (0 < max_rand → toInt (u * (max_rand : ℚ)) < max_rand) := by
  have hmq : (0 : ℚ) ≤ (max_rand : ℚ) := by exact_mod_cast hm
  have hprod : 0 ≤ u * (max_rand : ℚ) := mul_nonneg hu0 hmq
  rw [toInt_eq_floor _ hprod]
  have hle : u * (max_rand : ℚ) ≤ (max_rand : ℚ) := by
    calc u * (max_rand : ℚ) ≤ 1 * (max_rand : ℚ) := mul_le_mul_of_nonneg_right hu1.le hmq
      _ = (max_rand : ℚ) := one_mul _
  refine ⟨Int.floor_nonneg.mpr hprod, ?_, ?_⟩
  · have := Int.floor_mono hle
    rwa [Int.floor_intCast] at this
  · intro hpos
    rw [Int.floor_lt]
    have hposq : (0 : ℚ) < (max_rand : ℚ) := by exact_mod_cast hpos
    calc u * (max_rand : ℚ) < 1 * (max_rand : ℚ) := mul_lt_mul_of_pos_right hu1 hposq
      _ = (max_rand : ℚ) := one_mul _

/-! ## What the draw loop accepts -/

/-- Every index the draw loop adds to the working set is a candidate of some seed,
differs from `cnt` and from the indices already in the set. -/
theorem drawLoop_accepts (twh : Nat → ℚ) (max_rand cnt : Int) (k : Nat) :
    ∀ (fuel rand : Nat) (wp : GeoDaSet) (seed : Nat) (wp' : GeoDaSet) (seed' : Nat),
      drawLoop twh max_rand cnt k fuel rand wp seed = some (wp', seed') →
      ∃ new : List Int, wp'.buffer = new ++ wp.buffer ∧ new.length = k - rand
        ∧ (new ++ wp.buffer).Nodup = wp.buffer.Nodup
        ∧ (∀ x ∈ new, x ≠ cnt ∧ ∃ s : Nat, x = toInt (twh s * (max_rand : ℚ)))
  | 0, rand, wp, seed, wp', seed', h => by
    unfold drawLoop at h
    split_ifs at h with hlt
    simp only [Option.some.injEq, Prod.mk.injEq] at h
    exact ⟨[], by simp [h.1], by simp; omega, by simp, by simp⟩
  | fuel + 1, rand, wp, seed, wp', seed', h => by
    unfold drawLoop at h
    simp only at h
    split_ifs at h with hlt hacc
    · obtain ⟨new, h1, h2, h3, h4⟩ := drawLoop_accepts twh max_rand cnt k fuel _ _ _ _ _ h
      have hnotin : toInt (twh seed * (max_rand : ℚ)) ∉ wp.buffer := by
        have := hacc.2
        simpa [GeoDaSet.Belongs] using this
      refine ⟨new ++ [toInt (twh seed * (max_rand : ℚ))], ?_, ?_, ?_, ?_⟩
      · simp [h1, GeoDaSet.Push]
      · simp [h2]; omega
      · have e : (new ++ [toInt (twh seed * (max_rand : ℚ))]) ++ wp.buffer
            = new ++ (wp.Push (toInt (twh seed * (max_rand : ℚ)))).buffer := by
          simp [GeoDaSet.Push]
        rw [e, h3]
        simp [GeoDaSet.Push, hnotin]
      · intro x hx
        rcases List.mem_append.mp hx with hx | hx
        · exact h4 x hx
        · simp only [List.mem_singleton] at hx
          subst hx
          exact ⟨hacc.1, seed, rfl⟩
    · exact drawLoop_accepts twh max_rand cnt k fuel _ _ _ _ _ h
    · simp only [Option.some.injEq, Prod.mk.injEq] at h
      exact ⟨[], by simp [h.1], by simp; omega, by simp, by simp⟩

theorem popLoop_sum (data : Int → ℚ) :
    ∀ (n : Nat) (new rest : List Int) (acc : ℚ), new.length = n →
      (popLoop data n ⟨new ++ rest⟩ acc).1 = acc + (new.map data).sum
  | 0, new, rest, acc, h => by
    have : new = [] := List.length_eq_zero.mp h
    subst this
    simp [popLoop]
  | n + 1, new, rest, acc, h => by
    cases new with
    | nil => simp at h
    | cons x xs =>
      simp only [List.length_cons, Nat.add_right_cancel_iff] at h
      simp only [popLoop, GeoDaSet.Pop, List.cons_append, List.map_cons, List.sum_cons]
      rw [popLoop_sum data n xs rest _ h]
      ring


/-! ## Claims on the lags and the draws -/

/-- The lag stored by `CalcLisa` does not depend on the member `row_standardize`. -/
theorem CalcLisa_lags_row_standardize (SL : GalElement → (Int → ℚ) → ℚ)
    (c : LisaCoordinator) (b : Bool) (t i : Int)
    (ht0 : 0 ≤ t) (ht1 : t < c.num_time_vals) (hi0 : 0 ≤ i) (hi1 : i < c.num_obs) :
    (CalcLisa SL { c with row_standardize := b }).lags_vecs t i
      = (CalcLisa SL c).lags_vecs t i := by
  obtain ⟨_, h1⟩ := CalcLisa_spec SL { c with row_standardize := b }
  obtain ⟨_, h2⟩ := CalcLisa_spec SL c
  rw [(h1 t i ht0 ht1 hi0 hi1).1, (h2 t i ht0 ht1 hi0 hi1).1]
  rfl

/-- C11: evaluation at a failing input.  On the scenario of section 8, whatever
`SpatialLag` computes, `CalcLisa` stores for observation 0 the same lag with the
member `row_standardize` disabled as with it enabled, so the stored lag cannot be
the neighbour sum divided by the neighbour count (-1) with the flag enabled and
the raw neighbour sum (-2) with the flag disabled; with a `SpatialLag` that divides
by the neighbour count the stored lag is -1 for both values of the flag. -/
theorem C11_observed_lag_ignores_row_standardize :
    (∀ SL : GalElement → (Int → ℚ) → ℚ,
        (CalcLisa SL scenarioRaw).lags_vecs 0 0 = (CalcLisa SL scenario).lags_vecs 0 0)
      ∧ (¬ ∃ SL : GalElement → (Int → ℚ) → ℚ,
          (CalcLisa SL scenario).lags_vecs 0 0
              = ((scenario.W 0).map (scenario.data1_vecs 0)).sum / ((scenario.W 0).length : ℚ)
            ∧ (CalcLisa SL scenarioRaw).lags_vecs 0 0
              = ((scenario.W 0).map (scenario.data1_vecs 0)).sum)
      ∧ scenarioRaw.row_standardize = false
      ∧ (CalcLisa (SpatialLag_spec true) scenarioRaw).lags_vecs 0 0 = -1
      ∧ ((scenario.W 0).map (scenario.data1_vecs 0)).sum = -2 := by
  have hsame : ∀ SL : GalElement → (Int → ℚ) → ℚ,
      (CalcLisa SL scenarioRaw).lags_vecs 0 0 = (CalcLisa SL scenario).lags_vecs 0 0 := by
    intro SL
    obtain ⟨_, h1⟩ := CalcLisa_spec SL scenarioRaw
    obtain ⟨_, h2⟩ := CalcLisa_spec SL scenario
    rw [(h1 0 0 (by decide) (by decide) (by decide) (by decide)).1,
      (h2 0 0 (by decide) (by decide) (by decide) (by decide)).1]
    rfl
  have hsum : ((scenario.W 0).map (scenario.data1_vecs 0)).sum = -2 := by decide!
  have hlen : ((scenario.W 0).length : ℚ) = 2 := by decide!
  refine ⟨hsame, ?_, rfl, by decide!, hsum⟩
  rintro ⟨SL, h1, h2⟩
  rw [hsame SL, h1, hsum, hlen] at h2
  norm_num at h2

/-- C12: in a permutation of observation `cnt` whose draw loop returns, the working
set has received `k = numNeighbors` drawn indices, and the permuted local statistic
is the permuted lag times `data1[cnt]`, the permuted lag being the sum of the lag
variable (`data2` in bivariate mode, otherwise `data1`) over the drawn indices,
divided by `k` exactly when `row_standardize` is enabled and `k` is not zero. -/
theorem C12_permuted_lag_and_statistic (twh : Nat → ℚ) (fuel : Nat) (c : LisaCoordinator)
    (cnt : Int) (wp : GeoDaSet) (seed : Nat) (wp' : GeoDaSet) (seed' : Nat)
    (h : drawLoop twh (c.num_obs - 1) cnt (c.W cnt).length fuel 0 wp seed = some (wp', seed')) :
    ∃ drawn : List Int, wp'.buffer = drawn ++ wp.buffer ∧ drawn.length = (c.W cnt).length
      ∧ (permutedStat c cnt wp').1
        = (if (c.W cnt).length ≠ 0 ∧ c.row_standardize = true then
              (drawn.map (if c.isBivariate then c.data2_vecs c.data2
                else c.data1_vecs c.data1)).sum / ((c.W cnt).length : ℚ)
            else
              (drawn.map (if c.isBivariate then c.data2_vecs c.data2
                else c.data1_vecs c.data1)).sum)
          * c.data1_vecs c.data1 cnt := by
  obtain ⟨drawn, h1, h2⟩ := drawLoop_pushes _ _ _ _ _ _ _ _ _ _ h
  have hlen : drawn.length = (c.W cnt).length := by simpa using h2
  have hwp : wp' = ⟨drawn ++ wp.buffer⟩ := by cases wp'; simp_all
  refine ⟨drawn, h1, hlen, ?_⟩
  subst hwp
  unfold permutedStat
  simp only
  cases hb : c.isBivariate
  · simp only [Bool.false_eq_true, if_false]
    rw [popLoop_sum _ _ _ _ _ hlen, zero_add]
  · simp only [if_true]
    rw [popLoop_sum _ _ _ _ _ hlen, zero_add]

set_option maxRecDepth 10000 in
/-- C12 on `threeObs`, observation 2 (one neighbour), seed 0: index 0 is drawn. -/
theorem C12_permuted_lag_and_statistic_witness :
    ∃ drawn : List Int, (⟨[0]⟩ : GeoDaSet).buffer = drawn ++ GeoDaSet.empty.buffer
      ∧ drawn.length = (threeObs.W 2).length
      ∧ (permutedStat threeObs 2 ⟨[0]⟩).1
        = (if (threeObs.W 2).length ≠ 0 ∧ threeObs.row_standardize = true then
              (drawn.map (if threeObs.isBivariate then threeObs.data2_vecs threeObs.data2
                else threeObs.data1_vecs threeObs.data1)).sum / ((threeObs.W 2).length : ℚ)
            else
              (drawn.map (if threeObs.isBivariate then threeObs.data2_vecs threeObs.data2
                else threeObs.data1_vecs threeObs.data1)).sum)
          * threeObs.data1_vecs threeObs.data1 2 :=
  C12_permuted_lag_and_statistic hashEx 1 threeObs 2 GeoDaSet.empty 0 ⟨[0]⟩ 1 (by decide!)

theorem hashEx_range : ∀ s, 0 ≤ hashEx s ∧ hashEx s < 1 := by
  intro s
  unfold hashEx
  have h2 : ((s % 2000 : Nat) : ℚ) < 2000 := by
    exact_mod_cast Nat.mod_lt s (by norm_num)
  have h0 : (0 : ℚ) ≤ ((s % 2000 : Nat) : ℚ) := by positivity
  constructor
  · exact div_nonneg h0 (by norm_num)
  · rw [div_lt_one (by norm_num)]; exact h2

/-- C13: with hash values in `[0, 1)`, for an observation `cnt` of `[0, num_obs)`
and a draw loop that returns from the empty working set, the working set holds
exactly `k = numNeighbors` indices, pairwise distinct, none equal to `cnt`, each in
`[0, num_obs - 1]`; the pops of the same permutation leave the working set empty,
and the permutation loop hands the empty working set on to the next observation. -/
theorem C13_drawn_indices_distinct (twh : Nat → ℚ) (hhash : ∀ s, 0 ≤ twh s ∧ twh s < 1)
    (fuel : Nat) (c : LisaCoordinator) (cnt : Int) (hcnt0 : 0 ≤ cnt) (hcnt1 : cnt < c.num_obs)
    (seed : Nat) (wp' : GeoDaSet) (seed' : Nat)
    (h : drawLoop twh (c.num_obs - 1) cnt (c.W cnt).length fuel 0 GeoDaSet.empty seed
      = some (wp', seed')) :
    wp'.buffer.length = (c.W cnt).length ∧ wp'.buffer.Nodup ∧ cnt ∉ wp'.buffer
      ∧ (∀ x ∈ wp'.buffer, 0 ≤ x ∧ x ≤ c.num_obs - 1)
      ∧ (permutedStat c cnt wp').2 = GeoDaSet.empty
      ∧ (∀ (n seed0 cl : Nat) (r : GeoDaSet × Nat × Nat),
          permLoop twh fuel c cnt n GeoDaSet.empty seed0 cl = some r → r.1 = GeoDaSet.empty) := by
  obtain ⟨new, h1, h2, h3, h4⟩ := drawLoop_accepts _ _ _ _ _ _ _ _ _ _ h
  have hb : wp'.buffer = new := by simpa [GeoDaSet.empty] using h1
  rw [hb]
  refine ⟨by simpa using h2, ?_, ?_, ?_, permutedStat_restores twh fuel c cnt _ _ _ _ h, ?_⟩
  · have : (new ++ GeoDaSet.empty.buffer).Nodup := by rw [h3]; simp [GeoDaSet.empty]
    simpa [GeoDaSet.empty] using this
  · intro hmem
    exact (h4 cnt hmem).1 rfl
  · intro x hx
    obtain ⟨_, s, hs⟩ := h4 x hx
    obtain ⟨r0, r1, _⟩ := candidate_range (twh s) (c.num_obs - 1) (hhash s).1 (hhash s).2
      (by omega)
    rw [hs]
    exact ⟨r0, r1⟩
  · rintro n seed0 cl ⟨wp1, seed1, cl1⟩ hp
    exact (permLoop_spec twh fuel c cnt n _ _ _ _ _ _ hp).1

set_option maxRecDepth 10000 in
/-- C13 on `threeObs`, observation 2, seed 0. -/
theorem C13_drawn_indices_distinct_witness :
    (⟨[0]⟩ : GeoDaSet).buffer.length = (threeObs.W 2).length
      ∧ (⟨[0]⟩ : GeoDaSet).buffer.Nodup ∧ (2 : Int) ∉ (⟨[0]⟩ : GeoDaSet).buffer
      ∧ (∀ x ∈ (⟨[0]⟩ : GeoDaSet).buffer, 0 ≤ x ∧ x ≤ threeObs.num_obs - 1)
      ∧ (permutedStat threeObs 2 ⟨[0]⟩).2 = GeoDaSet.empty
      ∧ (∀ (n seed0 cl : Nat) (r : GeoDaSet × Nat × Nat),
          permLoop hashEx 1 threeObs 2 n GeoDaSet.empty seed0 cl = some r →
            r.1 = GeoDaSet.empty) :=
  C13_drawn_indices_distinct hashEx hashEx_range 1 threeObs 2 (by decide) (by decide) 0 ⟨[0]⟩ 1 (by decide!)

/-- C14: evaluation at a failing input.  With the three observations of
`threeObs`, `max_rand` is 2 and no hash value of `[0, 1)` has the candidate 2; so
for observation 0 a draw that returns never holds index 2, although 2 is an index
of `[0, num_obs)` different from 0. -/
theorem C14_last_index_never_drawn :
    (¬ ∃ u : ℚ, 0 ≤ u ∧ u < 1 ∧ toInt (u * ((threeObs.num_obs - 1 : Int) : ℚ)) = 2)
      ∧ (¬ ∃ (twh : Nat → ℚ) (fuel k seed : Nat) (wp' : GeoDaSet) (seed' : Nat),
          (∀ s, 0 ≤ twh s ∧ twh s < 1)
            ∧ drawLoop twh (threeObs.num_obs - 1) 0 k fuel 0 GeoDaSet.empty seed
              = some (wp', seed')
            ∧ (2 : Int) ∈ wp'.buffer) := by
  have hN : threeObs.num_obs - 1 = 2 := by decide
  rw [hN]
  constructor
  · rintro ⟨u, h0, h1, h2⟩
    have := (candidate_range u 2 h0 h1 (by norm_num)).2.2 (by norm_num)
    omega
  · rintro ⟨twh, fuel, k, seed, wp', seed', hhash, hd, hmem⟩
    obtain ⟨new, h1, _, _, h4⟩ := drawLoop_accepts _ _ _ _ _ _ _ _ _ _ hd
    have hb : wp'.buffer = new := by simpa [GeoDaSet.empty] using h1
    rw [hb] at hmem
    obtain ⟨_, s, hs⟩ := h4 2 hmem
    have := (candidate_range (twh s) 2 (hhash s).1 (hhash s).2 (by norm_num)).2.2
      (by norm_num)
    omega


/-! ## The shape of the result of a significance pass -/

theorem runWorkers_shape (twh : Nat → ℚ) (fuel : Nat) :
    ∀ (wl : List LisaWorkerThread) (c c' : LisaCoordinator),
      runWorkers twh fuel wl c = some c' →
      ∃ (f : Int → Int → ℚ) (g : Int → Int → Int), c' = withSig c f g := by
  intro wl c c' h
  obtain ⟨f, g, hc', _⟩ := runWorkers_spec twh fuel wl c c' h
  exact ⟨f, g, hc'⟩

/-- Whatever path `CalcPseudoP_threaded` takes, it changes the chosen seed and the
two significance vectors only. -/
theorem CalcPseudoP_threaded_shape (twh : Nat → ℚ) (fuel : Nat) (nCPUs : Int) (now : Int)
    (create_ok : Int → Bool) (c c' : LisaCoordinator) (ran : List LisaWorkerThread)
    (h : CalcPseudoP_threaded twh fuel nCPUs now create_ok c = some (c', ran)) :
    ∃ (f : Int → Int → ℚ) (g : Int → Int → Int), c' = withSig (chooseSeed now c) f g := by
  unfold CalcPseudoP_threaded at h
  simp only at h
  split_ifs at h with herr
  · obtain ⟨c1, hc1, he⟩ := map_eq_some_exists _ _ _ h
    simp only [Prod.mk.injEq] at he
    obtain ⟨f, g, hw, _⟩ := CalcPseudoP_range_spec twh fuel _ _ _ _ _ hc1
    exact ⟨f, g, by rw [← he.1, hw]⟩
  · obtain ⟨c1, hc1, he⟩ := map_eq_some_exists _ _ _ h
    simp only [Prod.mk.injEq] at he
    obtain ⟨f, g, hw⟩ := runWorkers_shape twh fuel _ _ _ hc1
    exact ⟨f, g, by rw [← he.1, hw]⟩

/-- One iteration of the time loop of `CalcPseudoP` changes the slice pointers,
the chosen seed and the two significance vectors only. -/
theorem CalcPseudoP_slice_shape (twh : Nat → ℚ) (fuel : Nat) (nCPUs : Int)
    (time0 : Int → Int) (create_ok : Int → Int → Bool) (t : Int) (c c' : LisaCoordinator)
    (h : CalcPseudoP_slice twh fuel nCPUs time0 create_ok t c = some c') :
    ∃ (f : Int → Int → ℚ) (g : Int → Int → Int),
      c' = withSig (chooseSeed (time0 t) (CalcPseudoP_select t c)) f g := by
  unfold CalcPseudoP_slice at h
  split_ifs at h with hcpu
  · obtain ⟨f, g, hw, _⟩ := CalcPseudoP_range_spec twh fuel _ _ _ _ _ h
    exact ⟨f, g, hw⟩
  · obtain ⟨r, hr, he⟩ := map_eq_some_exists _ _ _ h
    obtain ⟨c1, ran⟩ := r
    simp only at he
    subst he
    exact CalcPseudoP_threaded_shape twh fuel nCPUs _ _ _ _ _ hr

theorem chooseSeed_SameSetup (now : Int) (c : LisaCoordinator) :
    SameSetup c (chooseSeed now c) := by
  obtain ⟨seed, hseed⟩ := chooseSeed_withSeed now c
  rw [hseed]
  exact SameSetup_refl c

/-- A run of `CalcPseudoP` that returns leaves the inputs of the passes as they
were, whatever the observation count. -/
theorem CalcPseudoP_SameSetup (twh : Nat → ℚ) (fuel : Nat) (nCPUs : Int)
    (time0 : Int → Int) (create_ok : Int → Int → Bool) (c c' : LisaCoordinator)
    (h : CalcPseudoP twh fuel nCPUs time0 create_ok c = some c') : SameSetup c c' := by
  unfold CalcPseudoP at h
  split_ifs at h with hcs
  · simp only [Option.some.injEq] at h
    subst h
    exact SameSetup_refl c
  · exact forLoopM_invariant (CalcPseudoP_slice twh fuel nCPUs time0 create_ok)
      (fun _ d => SameSetup c d)
      (by
        intro j d d' hsame hb
        obtain ⟨f, g, hd'⟩ := CalcPseudoP_slice_shape twh fuel nCPUs time0 create_ok j d d' hb
        obtain ⟨seed, hseed⟩ := chooseSeed_withSeed (time0 j) (CalcPseudoP_select j d)
        rw [hseed] at hd'
        rw [hd']
        exact SameSetup_withSig_seed c _
          (SameSetup_trans c d _ hsame (CalcPseudoP_select_spec j d).1) seed f g)
      _ 0 c c' (SameSetup_refl c) h


/-! ## Initialisation: loops on one array -/

theorem set1_same {α : Type} (v : Int → α) (t : Int) (x : α) : set1 v t x t = x := by
  simp [set1]

theorem set1_other {α : Type} (v : Int → α) (t : Int) (x : α) (s : Int) (h : s ≠ t) :
    set1 v t x s = v s := by
  simp [set1, h]

theorem fillArray_apply {α : Type} (n : Int) (f : Int → α) (a : Int → α) (i : Int) :
    fillArray n f a i = if 0 ≤ i ∧ i < n then f i else a i := by
  unfold fillArray
  have key := forLoop_invariant (fun i (b : Int → α) => set1 b i (f i))
    (fun j b => 0 ≤ j ∧ ∀ i, b i = if 0 ≤ i ∧ i < j then f i else a i)
    (by
      rintro j b ⟨hj, hb⟩
      refine ⟨by omega, fun i => ?_⟩
      show set1 b j (f j) i = _
      by_cases hij : i = j
      · subst hij
        rw [set1_same, if_pos ⟨hj, by omega⟩]
      · rw [set1_other _ _ _ _ hij, hb i]
        by_cases h : 0 ≤ i ∧ i < j
        · rw [if_pos h, if_pos ⟨h.1, by omega⟩]
        · rw [if_neg h, if_neg (by rintro ⟨h1, h2⟩; exact h ⟨h1, by omega⟩)])
    n.toNat 0 a ⟨le_refl _, fun i => by rw [if_neg (by omega)]⟩
  rw [key.2 i]
  by_cases h : 0 ≤ i ∧ i < n
  · rw [if_pos h, if_pos ⟨h.1, by omega⟩]
  · rw [if_neg h, if_neg (by rintro ⟨h1, h2⟩; exact h ⟨h1, by omega⟩)]

/-! ## Initialisation: the time summary -/

/-- The loop of lines 226-233 touches nothing when no variable of the list is both
time-variant and synchronized. -/
theorem InitFromVarInfo_sync_none (c : LisaCoordinatorFull) :
    ∀ (l : List VarInfo) (i : Int),
      (∀ v ∈ l, (v.is_time_variant && v.sync_with_global_time) = false) →
      InitFromVarInfo_sync l i c = c
  | [], _, _ => rfl
  | v :: rest, i, h => by
    unfold InitFromVarInfo_sync
    rw [if_neg (by rw [h v (List.mem_cons_self _ _)]; exact Bool.false_ne_true)]
    exact InitFromVarInfo_sync_none c rest (i + 1)
      (fun u hu => h u (List.mem_cons_of_mem _ hu))

/-- The loop of lines 226-233 stops at the first variable that is both
time-variant and synchronized, at position `k` of the list. -/
theorem InitFromVarInfo_sync_first (c : LisaCoordinatorFull) :
    ∀ (l : List VarInfo) (i : Int) (k : Nat) (v : VarInfo),
      l.get? k = some v → (v.is_time_variant && v.sync_with_global_time) = true →
      (∀ j < k, ∀ u, l.get? j = some u →
        (u.is_time_variant && u.sync_with_global_time) = false) →
      InitFromVarInfo_sync l i c
        = { c with
            num_time_vals := v.time_max - v.time_min + 1
            is_any_sync_with_global_time := true
            ref_var_index := i + k }
  | [], _, k, v, hk, _, _ => by simp at hk
  | u :: rest, i, 0, v, hk, hv, _ => by
    simp only [List.get?_cons_zero, Option.some.injEq] at hk
    subst hk
    unfold InitFromVarInfo_sync
    rw [if_pos hv]
    simp
  | u :: rest, i, k + 1, v, hk, hv, hbefore => by
    have hu : (u.is_time_variant && u.sync_with_global_time) = false :=
      hbefore 0 (Nat.succ_pos k) u rfl
    unfold InitFromVarInfo_sync
    rw [if_neg (by rw [hu]; exact Bool.false_ne_true)]
    rw [InitFromVarInfo_sync_first c rest (i + 1) k v (by simpa using hk) hv
      (fun j hj w hw => hbefore (j + 1) (Nat.succ_lt_succ hj) w (by simpa using hw))]
    have : i + 1 + (k : Int) = i + ((k + 1 : Nat) : Int) := by push_cast; ring
    rw [this]

/-- The loop of lines 234-239 only writes `is_any_time_variant`. -/
theorem InitFromVarInfo_variant_spec (l : List VarInfo) (c : LisaCoordinatorFull) :
    ∃ b : Bool, InitFromVarInfo_variant l c = { c with is_any_time_variant := b } := by
  induction l with
  | nil => exact ⟨c.is_any_time_variant, rfl⟩
  | cons v rest ih =>
    unfold InitFromVarInfo_variant
    split_ifs
    · exact ⟨true, rfl⟩
    · exact ih

/-- The loop of lines 226-233 only writes `num_time_vals`,
`is_any_sync_with_global_time` and `ref_var_index`. -/
theorem InitFromVarInfo_sync_spec (c : LisaCoordinatorFull) :
    ∀ (l : List VarInfo) (i : Int), ∃ (n : Int) (b : Bool) (r : Int),
      InitFromVarInfo_sync l i c
        = { c with num_time_vals := n, is_any_sync_with_global_time := b, ref_var_index := r }
  | [], _ => ⟨c.num_time_vals, c.is_any_sync_with_global_time, c.ref_var_index, rfl⟩
  | v :: rest, i => by
    unfold InitFromVarInfo_sync
    split_ifs
    · exact ⟨_, _, _, rfl⟩
    · exact InitFromVarInfo_sync_spec c rest (i + 1)

/-- The time summary only writes `num_time_vals`, `is_any_time_variant`,
`is_any_sync_with_global_time` and `ref_var_index`. -/
theorem InitFromVarInfo_times_shape (c : LisaCoordinatorFull) :
    ∃ (n : Int) (b1 b2 : Bool) (r : Int),
      InitFromVarInfo_times c
        = { c with num_time_vals := n, is_any_time_variant := b1,
                   is_any_sync_with_global_time := b2, ref_var_index := r } := by
  unfold InitFromVarInfo_times
  simp only
  split_ifs with h
  · obtain ⟨n, b, r, hs⟩ := InitFromVarInfo_sync_spec
      { c with num_time_vals := 1, is_any_time_variant := false,
               is_any_sync_with_global_time := false, ref_var_index := -1 } c.var_info 0
    rw [hs]
    obtain ⟨b2, hv⟩ := InitFromVarInfo_variant_spec c.var_info
      { c with num_time_vals := n, is_any_time_variant := false,
               is_any_sync_with_global_time := b, ref_var_index := r }
    rw [hv]
    exact ⟨n, b2, b, r, rfl⟩
  · exact ⟨1, false, false, -1, rfl⟩

/-- The time summary of lines 220-240 in terms of the variable descriptors. -/
theorem InitFromVarInfo_times_spec (c : LisaCoordinatorFull) :
    ((c.lisa_type = LisaType.differential
        ∨ ∀ v ∈ c.var_info, (v.is_time_variant && v.sync_with_global_time) = false) →
      (InitFromVarInfo_times c).num_time_vals = 1
        ∧ (InitFromVarInfo_times c).ref_var_index = -1)
    ∧ (c.lisa_type ≠ LisaType.differential →
        ∀ (k : Nat) (v : VarInfo), c.var_info.get? k = some v →
          (v.is_time_variant && v.sync_with_global_time) = true →
          (∀ j < k, ∀ u, c.var_info.get? j = some u →
            (u.is_time_variant && u.sync_with_global_time) = false) →
          (InitFromVarInfo_times c).num_time_vals = v.time_max - v.time_min + 1
            ∧ (InitFromVarInfo_times c).ref_var_index = k) := by
  constructor
  · intro h
    unfold InitFromVarInfo_times
    simp only
    by_cases hd : c.lisa_type = LisaType.differential
    · rw [if_neg (by simpa using hd)]
      exact ⟨rfl, rfl⟩
    · rw [if_pos (by simpa using hd)]
      have hnone := h.resolve_left hd
      rw [InitFromVarInfo_sync_none _ c.var_info 0 hnone]
      obtain ⟨b2, hv⟩ := InitFromVarInfo_variant_spec c.var_info
        { c with num_time_vals := 1, is_any_time_variant := false,
                 is_any_sync_with_global_time := false, ref_var_index := -1 }
      rw [hv]
      exact ⟨rfl, rfl⟩
  · intro hd k v hk hv hbefore
    unfold InitFromVarInfo_times
    simp only
    rw [if_pos (by simpa using hd)]
    rw [InitFromVarInfo_sync_first _ c.var_info 0 k v hk hv hbefore]
    obtain ⟨b2, hvar⟩ := InitFromVarInfo_variant_spec c.var_info
      { c with num_time_vals := v.time_max - v.time_min + 1, is_any_time_variant := false,
               is_any_sync_with_global_time := true, ref_var_index := 0 + k }
    rw [hvar]
    exact ⟨rfl, by simp⟩

/-- What `InitFromVarInfo` returns: the standardized assembly with the members of
the computation passes replaced, the slice count being kept. -/
theorem InitFromVarInfo_some (env : Collaborators) (c c' : LisaCoordinatorFull)
    (h : InitFromVarInfo env c = some c') :
    ∃ core : LisaCoordinator,
      c' = (StandardizeData env.StandardizeData
              (InitFromVarInfo_assemble env.RateStandardizeEB c)).withCore core
      ∧ core.num_time_vals = (StandardizeData env.StandardizeData
              (InitFromVarInfo_assemble env.RateStandardizeEB c)).num_time_vals
      ∧ core.num_obs = (StandardizeData env.StandardizeData
              (InitFromVarInfo_assemble env.RateStandardizeEB c)).num_obs := by
  obtain ⟨hl, _⟩ := CalcLisa_spec env.SpatialLag
    (StandardizeData env.StandardizeData
      (InitFromVarInfo_assemble env.RateStandardizeEB c)).toLisaCoordinator
  unfold InitFromVarInfo at h
  split_ifs at h with hcs
  · obtain ⟨core, hcore, hc'⟩ := map_eq_some_exists _ _ _ h
    have hs := CalcPseudoP_SameSetup _ _ _ _ _ _ _ hcore
    have e1 : core.num_time_vals = (InitFromVarInfo_observed env c).num_time_vals := hs.2.2.2.2.2.1
    have e2 : core.num_obs = (InitFromVarInfo_observed env c).num_obs := hs.1
    refine ⟨core, hc'.symm, ?_, ?_⟩
    · rw [e1]; exact hl.2.2.2.2.2.1
    · rw [e2]; exact hl.1
  · simp only [Option.some.injEq] at h
    exact ⟨_, h.symm, hl.2.2.2.2.2.1, hl.1⟩

theorem SameConfig_refl (c : LisaCoordinatorFull) : SameConfig c c := by
  unfold SameConfig
  simp

theorem SameConfig_trans (c d e : LisaCoordinatorFull) (h1 : SameConfig c d)
    (h2 : SameConfig d e) : SameConfig c e := by
  unfold SameConfig at *
  obtain ⟨a1, a2, a3, a4, a5, a6, a7, a8, a9, a10, a11, a12, a13⟩ := h1
  obtain ⟨b1, b2, b3, b4, b5, b6, b7, b8, b9, b10, b11, b12, b13⟩ := h2
  exact ⟨b1.trans a1, b2.trans a2, b3.trans a3, b4.trans a4, b5.trans a5, b6.trans a6,
    b7.trans a7, b8.trans a8, b9.trans a9, b10.trans a10, b11.trans a11, b12.trans a12,
    b13.trans a13⟩

theorem InitFromVarInfo_times_SameConfig (c : LisaCoordinatorFull) :
    SameConfig c (InitFromVarInfo_times c) := by
  obtain ⟨n, b1, b2, r, hs⟩ := InitFromVarInfo_times_shape c
  rw [hs]
  exact SameConfig_refl c

theorem AllocateVectors_frame (c : LisaCoordinatorFull) :
    SameConfig c (AllocateVectors c)
      ∧ (AllocateVectors c).num_time_vals = c.num_time_vals
      ∧ (AllocateVectors c).ref_var_index = c.ref_var_index
      ∧ (AllocateVectors c).data1_vecs = c.data1_vecs
      ∧ (AllocateVectors c).data2_vecs = c.data2_vecs := by
  unfold AllocateVectors SameConfig
  simp only
  split_ifs <;> simp

theorem InitFromVarInfo_fill_frame
    (rs : Int → (Int → ℚ) → (Int → ℚ) → (Int → ℚ) × Bool) (c : LisaCoordinatorFull) :
    SameConfig c (InitFromVarInfo_fill rs c)
      ∧ (InitFromVarInfo_fill rs c).num_time_vals = c.num_time_vals
      ∧ (InitFromVarInfo_fill rs c).ref_var_index = c.ref_var_index
      ∧ (InitFromVarInfo_fill rs c).data1_vecs_size = c.data1_vecs_size
      ∧ (InitFromVarInfo_fill rs c).data2_vecs_size = c.data2_vecs_size := by
  unfold InitFromVarInfo_fill SameConfig
  simp only
  split_ifs <;> simp

theorem StandardizeData_frame (sd : Int → (Int → ℚ) → (Int → ℚ)) (c : LisaCoordinatorFull) :
    SameConfig c (StandardizeData sd c)
      ∧ (StandardizeData sd c).num_time_vals = c.num_time_vals
      ∧ (StandardizeData sd c).ref_var_index = c.ref_var_index
      ∧ (StandardizeData sd c).map_valid = c.map_valid
      ∧ (StandardizeData sd c).map_error_message = c.map_error_message := by
  unfold StandardizeData SameConfig
  simp only
  split_ifs <;> simp

/-- The members that allocation, filling and standardization leave as the time
summary set them, and the configuration, which the whole preparation keeps. -/
theorem StandardizeData_assemble_frame (env : Collaborators) (c : LisaCoordinatorFull) :
    (StandardizeData env.StandardizeData
        (InitFromVarInfo_assemble env.RateStandardizeEB c)).num_time_vals
        = (InitFromVarInfo_times (DeallocateVectors c)).num_time_vals
      ∧ (StandardizeData env.StandardizeData
          (InitFromVarInfo_assemble env.RateStandardizeEB c)).ref_var_index
        = (InitFromVarInfo_times (DeallocateVectors c)).ref_var_index
      ∧ SameConfig c (StandardizeData env.StandardizeData
          (InitFromVarInfo_assemble env.RateStandardizeEB c)) := by
  unfold InitFromVarInfo_assemble
  obtain ⟨s1, s2, s3, _⟩ := StandardizeData_frame env.StandardizeData
    (InitFromVarInfo_fill env.RateStandardizeEB
      (AllocateVectors (InitFromVarInfo_times (DeallocateVectors c))))
  obtain ⟨f1, f2, f3, _⟩ := InitFromVarInfo_fill_frame env.RateStandardizeEB
    (AllocateVectors (InitFromVarInfo_times (DeallocateVectors c)))
  obtain ⟨a1, a2, a3, _⟩ := AllocateVectors_frame (InitFromVarInfo_times (DeallocateVectors c))
  have t1 := InitFromVarInfo_times_SameConfig (DeallocateVectors c)
  have d1 : SameConfig c (DeallocateVectors c) := SameConfig_refl c
  exact ⟨s2.trans (f2.trans a2), s3.trans (f3.trans a3),
    SameConfig_trans _ _ _ d1 (SameConfig_trans _ _ _ t1
      (SameConfig_trans _ _ _ a1 (SameConfig_trans _ _ _ f1 s1)))⟩

/-! ## Claims on initialisation -/

/-- C15: when `InitFromVarInfo` returns, `num_time_vals` is 1 (and `ref_var_index`
is -1) if the mode is differential or no variable is both time-variant and
synchronized with global time; otherwise `num_time_vals` is
`time_max - time_min + 1` of the lowest-indexed variable that is both, and
`ref_var_index` is its index.  In particular `num_time_vals` is 1 when no variable
is time-variant. -/
theorem C15_num_time_vals (env : Collaborators) (c c' : LisaCoordinatorFull)
    (h : InitFromVarInfo env c = some c') :
    ((c.lisa_type = LisaType.differential
        ∨ ∀ v ∈ c.var_info, (v.is_time_variant && v.sync_with_global_time) = false) →
      c'.num_time_vals = 1 ∧ c'.ref_var_index = -1)
    ∧ (c.lisa_type ≠ LisaType.differential →
        ∀ (k : Nat) (v : VarInfo), c.var_info.get? k = some v →
          (v.is_time_variant && v.sync_with_global_time) = true →
          (∀ j < k, ∀ u, c.var_info.get? j = some u →
            (u.is_time_variant && u.sync_with_global_time) = false) →
          c'.num_time_vals = v.time_max - v.time_min + 1 ∧ c'.ref_var_index = k)
    ∧ ((∀ v ∈ c.var_info, v.is_time_variant = false) → c'.num_time_vals = 1) := by
  obtain ⟨core, hc', hnum, _⟩ := InitFromVarInfo_some env c c' h
  obtain ⟨f1, f2, _⟩ := StandardizeData_assemble_frame env c
  have e1 : c'.num_time_vals = (InitFromVarInfo_times (DeallocateVectors c)).num_time_vals := by
    rw [hc', ← f1, ← hnum]; rfl
  have e2 : c'.ref_var_index = (InitFromVarInfo_times (DeallocateVectors c)).ref_var_index := by
    rw [hc', ← f2]; rfl
  obtain ⟨s1, s2⟩ := InitFromVarInfo_times_spec (DeallocateVectors c)
  rw [e1, e2]
  refine ⟨s1, s2, ?_⟩
  intro hnone
  exact (s1 (Or.inr (fun v hv => by
    have := hnone v hv
    simp [this]))).1

/-- The state on which the data arrays are filled: configuration and `data1_vecs`
as given, every slice of `[0, num_time_vals)` valid with an empty message. -/
theorem AllocateVectors_times_spec (c : LisaCoordinatorFull) :
    SameConfig c (AllocateVectors (InitFromVarInfo_times (DeallocateVectors c)))
      ∧ (AllocateVectors (InitFromVarInfo_times (DeallocateVectors c))).data1_vecs
          = c.data1_vecs
      ∧ (AllocateVectors (InitFromVarInfo_times (DeallocateVectors c))).num_time_vals
          = (InitFromVarInfo_times (DeallocateVectors c)).num_time_vals
      ∧ (∀ t, 0 ≤ t →
          t < (InitFromVarInfo_times (DeallocateVectors c)).num_time_vals →
          (AllocateVectors (InitFromVarInfo_times (DeallocateVectors c))).map_valid t = true
          ∧ (AllocateVectors
              (InitFromVarInfo_times (DeallocateVectors c))).map_error_message t = "") := by
  obtain ⟨n, b1, b2, r, hs⟩ := InitFromVarInfo_times_shape (DeallocateVectors c)
  have hmv : ∀ d : LisaCoordinatorFull, ∀ t, 0 ≤ t → t < d.num_time_vals →
      (AllocateVectors d).map_valid t = true ∧ (AllocateVectors d).map_error_message t = "" := by
    intro d t ht0 ht1
    unfold AllocateVectors
    simp only
    split_ifs
    · exact ⟨by show fillArray _ _ _ t = true; rw [fillArray_apply, if_pos ⟨ht0, ht1⟩],
        by show fillArray _ _ _ t = ""; rw [fillArray_apply, if_pos ⟨ht0, ht1⟩]⟩
    · exact ⟨by show fillArray _ _ _ t = true; rw [fillArray_apply, if_pos ⟨ht0, ht1⟩],
        by show fillArray _ _ _ t = ""; rw [fillArray_apply, if_pos ⟨ht0, ht1⟩]⟩
  obtain ⟨a1, a2, _, a4, _⟩ := AllocateVectors_frame (InitFromVarInfo_times (DeallocateVectors c))
  refine ⟨SameConfig_trans _ _ _ (SameConfig_trans _ _ _ (SameConfig_refl c)
      (InitFromVarInfo_times_SameConfig (DeallocateVectors c))) a1, ?_, a2,
    hmv (InitFromVarInfo_times (DeallocateVectors c))⟩
  rw [a4, hs]
  rfl

/-- C16: in differential mode, on the state handed to `StandardizeData` (before
standardization), `data1[0][i] = data[0][t0][i] - data[0][t1][i]` for every
observation `i`, where `t0 = var_info[0].time`, `t1 = var_info[1].time`, and both
values are read from the data of variable 0. -/
theorem C16_differential_data (RateStandardizeEB : Int → (Int → ℚ) → (Int → ℚ) → (Int → ℚ) × Bool)
    (c : LisaCoordinatorFull) (hd : c.lisa_type = LisaType.differential)
    (i : Int) (hi0 : 0 ≤ i) (hi1 : i < c.num_obs) :
    (InitFromVarInfo_assemble RateStandardizeEB c).data1_vecs 0 i
      = c.data 0 (c.var_info.getD 0 default).time i
        - c.data 0 (c.var_info.getD 1 default).time i := by
  obtain ⟨⟨a1, a2, a3, a4, _⟩, _, _, _⟩ := AllocateVectors_times_spec c
  unfold InitFromVarInfo_assemble InitFromVarInfo_fill
  rw [if_pos (by rw [a1]; exact hd)]
  simp only
  rw [set1_same, fillArray_apply, if_pos ⟨hi0, by rw [a3]; exact hi1⟩, a2, a4]


/-! ## The `eb_rate_standardized` branch -/

theorem InitFromVarInfo_eb_slice_congr
    (rs : Int → (Int → ℚ) → (Int → ℚ) → (Int → ℚ) × Bool) (c d : LisaCoordinatorFull)
    (h : SameConfig c d) : InitFromVarInfo_eb_slice rs d = InitFromVarInfo_eb_slice rs c := by
  obtain ⟨_, h2, h3, h4, _⟩ := h
  funext t st
  unfold InitFromVarInfo_eb_slice LisaCoordinatorFull.eb_time
  rw [h2, h3, h4]

theorem InitFromVarInfo_eb_slice_fail
    (rs : Int → (Int → ℚ) → (Int → ℚ) → (Int → ℚ) × Bool) (c : LisaCoordinatorFull) (t : Int)
    (st : (Int → Bool) × (Int → String) × (Int → Int → ℚ))
    (h : (rs c.num_obs (fun i => c.data 1 (c.eb_time 1 t) i)
        (fun i => c.data 0 (c.eb_time 0 t) i)).2 = false) :
    InitFromVarInfo_eb_slice rs c t st
      = (set1 st.1 t false,
          set1 st.2.1 t ((st.2.1 t ++ "Emprical Bayes Rate ") ++ "Standardization failed."),
          st.2.2) := by
  unfold InitFromVarInfo_eb_slice
  simp only
  rw [if_pos h]

theorem InitFromVarInfo_eb_slice_ok
    (rs : Int → (Int → ℚ) → (Int → ℚ) → (Int → ℚ) × Bool) (c : LisaCoordinatorFull) (t : Int)
    (st : (Int → Bool) × (Int → String) × (Int → Int → ℚ))
    (h : (rs c.num_obs (fun i => c.data 1 (c.eb_time 1 t) i)
        (fun i => c.data 0 (c.eb_time 0 t) i)).2 = true) :
    InitFromVarInfo_eb_slice rs c t st
      = (st.1, st.2.1,
          set1 st.2.2 t
            (fillArray c.num_obs
              (rs c.num_obs (fun i => c.data 1 (c.eb_time 1 t) i)
                (fun i => c.data 0 (c.eb_time 0 t) i)).1 (st.2.2 t))) := by
  unfold InitFromVarInfo_eb_slice
  simp only
  rw [if_neg (by rw [h]; decide)]

/-- The time loop of the `eb_rate_standardized` branch, slice by slice: a slice of
`[0, n)` whose smoothing fails gets the flag `false` and the message appended, its
data row being kept; a slice whose smoothing succeeds keeps flag and message and
gets the smoothed rates; the other slices are kept. -/
theorem InitFromVarInfo_eb_loop
    (rs : Int → (Int → ℚ) → (Int → ℚ) → (Int → ℚ) × Bool) (c : LisaCoordinatorFull)
    (n : Nat) (st0 : (Int → Bool) × (Int → String) × (Int → Int → ℚ)) (t : Int) :
    (0 ≤ t ∧ t < n →
        ((rs c.num_obs (fun i => c.data 1 (c.eb_time 1 t) i)
            (fun i => c.data 0 (c.eb_time 0 t) i)).2 = false →
          (forLoop (InitFromVarInfo_eb_slice rs c) n 0 st0).1 t = false
          ∧ (forLoop (InitFromVarInfo_eb_slice rs c) n 0 st0).2.1 t
              = (st0.2.1 t ++ "Emprical Bayes Rate ") ++ "Standardization failed."
          ∧ (forLoop (InitFromVarInfo_eb_slice rs c) n 0 st0).2.2 t = st0.2.2 t)
        ∧ ((rs c.num_obs (fun i => c.data 1 (c.eb_time 1 t) i)
            (fun i => c.data 0 (c.eb_time 0 t) i)).2 = true →
          (forLoop (InitFromVarInfo_eb_slice rs c) n 0 st0).1 t = st0.1 t
          ∧ (forLoop (InitFromVarInfo_eb_slice rs c) n 0 st0).2.1 t = st0.2.1 t
          ∧ (forLoop (InitFromVarInfo_eb_slice rs c) n 0 st0).2.2 t
              = fillArray c.num_obs
                  (rs c.num_obs (fun i => c.data 1 (c.eb_time 1 t) i)
                    (fun i => c.data 0 (c.eb_time 0 t) i)).1 (st0.2.2 t)))
      ∧ (¬(0 ≤ t ∧ t < n) →
          (forLoop (InitFromVarInfo_eb_slice rs c) n 0 st0).1 t = st0.1 t
          ∧ (forLoop (InitFromVarInfo_eb_slice rs c) n 0 st0).2.1 t = st0.2.1 t
          ∧ (forLoop (InitFromVarInfo_eb_slice rs c) n 0 st0).2.2 t = st0.2.2 t) := by
  have key := forLoop_invariant (InitFromVarInfo_eb_slice rs c)
    (fun j st => 0 ≤ j ∧
      (0 ≤ t ∧ t < j →
        ((rs c.num_obs (fun i => c.data 1 (c.eb_time 1 t) i)
            (fun i => c.data 0 (c.eb_time 0 t) i)).2 = false →
          st.1 t = false
          ∧ st.2.1 t = (st0.2.1 t ++ "Emprical Bayes Rate ") ++ "Standardization failed."
          ∧ st.2.2 t = st0.2.2 t)
        ∧ ((rs c.num_obs (fun i => c.data 1 (c.eb_time 1 t) i)
            (fun i => c.data 0 (c.eb_time 0 t) i)).2 = true →
          st.1 t = st0.1 t ∧ st.2.1 t = st0.2.1 t
          ∧ st.2.2 t = fillArray c.num_obs
                  (rs c.num_obs (fun i => c.data 1 (c.eb_time 1 t) i)
                    (fun i => c.data 0 (c.eb_time 0 t) i)).1 (st0.2.2 t)))
      ∧ (¬(0 ≤ t ∧ t < j) → st.1 t = st0.1 t ∧ st.2.1 t = st0.2.1 t ∧ st.2.2 t = st0.2.2 t))
    (by
      rintro j st ⟨hj, hin, hout⟩
      refine ⟨by omega, ?_, ?_⟩
      · intro htj
        by_cases heq : t = j
        · subst heq
          obtain ⟨o1, o2, o3⟩ := hout (by omega)
          constructor
          · intro hfail
            rw [InitFromVarInfo_eb_slice_fail rs c t st hfail]
            dsimp only
            exact ⟨set1_same _ _ _, by rw [set1_same, o2], o3⟩
          · intro hok
            rw [InitFromVarInfo_eb_slice_ok rs c t st hok]
            dsimp only
            exact ⟨o1, o2, by rw [set1_same, o3]⟩
        · obtain ⟨i1, i2⟩ := hin ⟨htj.1, by omega⟩
          cases hf : (rs c.num_obs (fun i => c.data 1 (c.eb_time 1 j) i)
              (fun i => c.data 0 (c.eb_time 0 j) i)).2
          · rw [InitFromVarInfo_eb_slice_fail rs c j st hf]
            dsimp only
            rw [set1_other _ _ _ _ heq, set1_other _ _ _ _ heq]
            exact ⟨i1, i2⟩
          · rw [InitFromVarInfo_eb_slice_ok rs c j st hf]
            dsimp only
            rw [set1_other _ _ _ _ heq]
            exact ⟨i1, i2⟩
      · intro hnot
        have hne : t ≠ j := by rintro rfl; exact hnot ⟨hj, by omega⟩
        obtain ⟨o1, o2, o3⟩ := hout (by rintro ⟨h1, h2⟩; exact hnot ⟨h1, by omega⟩)
        cases hf : (rs c.num_obs (fun i => c.data 1 (c.eb_time 1 j) i)
            (fun i => c.data 0 (c.eb_time 0 j) i)).2
        · rw [InitFromVarInfo_eb_slice_fail rs c j st hf]
          dsimp only
          rw [set1_other _ _ _ _ hne, set1_other _ _ _ _ hne]
          exact ⟨o1, o2, o3⟩
        · rw [InitFromVarInfo_eb_slice_ok rs c j st hf]
          dsimp only
          rw [set1_other _ _ _ _ hne]
          exact ⟨o1, o2, o3⟩)
    n 0 st0 ⟨le_refl _, fun h => by omega, fun _ => ⟨rfl, rfl, rfl⟩⟩
  obtain ⟨_, kin, kout⟩ := key
  refine ⟨fun h => kin ⟨h.1, by omega⟩, fun h => kout (by rintro ⟨h1, h2⟩; exact h ⟨h1, by omega⟩)⟩

/-- The mode `eb_rate_standardized` reaches the last branch of the filling step. -/
theorem InitFromVarInfo_assemble_eb
    (rs : Int → (Int → ℚ) → (Int → ℚ) → (Int → ℚ) × Bool) (c : LisaCoordinatorFull)
    (hl : c.lisa_type = LisaType.eb_rate_standardized) :
    (InitFromVarInfo_assemble rs c).num_time_vals
        = (InitFromVarInfo_times (DeallocateVectors c)).num_time_vals
      ∧ (InitFromVarInfo_assemble rs c).map_valid
        = (forLoop (InitFromVarInfo_eb_slice rs c)
            (InitFromVarInfo_times (DeallocateVectors c)).num_time_vals.toNat 0
            ((AllocateVectors (InitFromVarInfo_times (DeallocateVectors c))).map_valid,
              (AllocateVectors (InitFromVarInfo_times (DeallocateVectors c))).map_error_message,
              c.data1_vecs)).1
      ∧ (InitFromVarInfo_assemble rs c).map_error_message
        = (forLoop (InitFromVarInfo_eb_slice rs c)
            (InitFromVarInfo_times (DeallocateVectors c)).num_time_vals.toNat 0
            ((AllocateVectors (InitFromVarInfo_times (DeallocateVectors c))).map_valid,
              (AllocateVectors (InitFromVarInfo_times (DeallocateVectors c))).map_error_message,
              c.data1_vecs)).2.1
      ∧ (InitFromVarInfo_assemble rs c).data1_vecs
        = (forLoop (InitFromVarInfo_eb_slice rs c)
            (InitFromVarInfo_times (DeallocateVectors c)).num_time_vals.toNat 0
            ((AllocateVectors (InitFromVarInfo_times (DeallocateVectors c))).map_valid,
              (AllocateVectors (InitFromVarInfo_times (DeallocateVectors c))).map_error_message,
              c.data1_vecs)).2.2 := by
  obtain ⟨hsame, hd1, hnum, _⟩ := AllocateVectors_times_spec c
  have hlt : (AllocateVectors (InitFromVarInfo_times (DeallocateVectors c))).lisa_type
      = LisaType.eb_rate_standardized := by rw [hsame.1, hl]
  unfold InitFromVarInfo_assemble InitFromVarInfo_fill
  rw [if_neg (by rw [hlt]; decide), if_neg (by rw [hlt]; decide)]
  simp only
  rw [InitFromVarInfo_eb_slice_congr rs c _ hsame, hd1, hnum]
  exact ⟨rfl, rfl, rfl, rfl⟩

/-- C17: in `eb_rate_standardized` mode, on the state handed to `StandardizeData`
and for every time slice `t`: if the rate smoother fails on the data of slice `t`,
`map_valid[t]` is false, the message of the slice is the failure message (non-empty)
and the row `data1[t]` is as it was before the initialisation; if it succeeds,
`map_valid[t]` is true, the message is empty and `data1[t]` holds the smoothed
rates.  Whatever a smoother does on the other slices, a smoother that gives the
same result on slice `t` leaves the same flag, message and row for slice `t`. -/
theorem C17_eb_slice_validity (rs : Int → (Int → ℚ) → (Int → ℚ) → (Int → ℚ) × Bool)
    (c : LisaCoordinatorFull) (hl : c.lisa_type = LisaType.eb_rate_standardized)
    (t : Int) (ht0 : 0 ≤ t) (ht1 : t < (InitFromVarInfo_assemble rs c).num_time_vals) :
    ((rs c.num_obs (fun i => c.data 1 (c.eb_time 1 t) i)
          (fun i => c.data 0 (c.eb_time 0 t) i)).2 = false →
        (InitFromVarInfo_assemble rs c).map_valid t = false
        ∧ (InitFromVarInfo_assemble rs c).map_error_message t
            = "Emprical Bayes Rate Standardization failed."
        ∧ (InitFromVarInfo_assemble rs c).map_error_message t ≠ ""
        ∧ (InitFromVarInfo_assemble rs c).data1_vecs t = c.data1_vecs t)
      ∧ ((rs c.num_obs (fun i => c.data 1 (c.eb_time 1 t) i)
          (fun i => c.data 0 (c.eb_time 0 t) i)).2 = true →
        (InitFromVarInfo_assemble rs c).map_valid t = true
        ∧ (InitFromVarInfo_assemble rs c).map_error_message t = ""
        ∧ (∀ i, 0 ≤ i → i < c.num_obs →
            (InitFromVarInfo_assemble rs c).data1_vecs t i
              = (rs c.num_obs (fun i => c.data 1 (c.eb_time 1 t) i)
                  (fun i => c.data 0 (c.eb_time 0 t) i)).1 i))
      ∧ (∀ rs2 : Int → (Int → ℚ) → (Int → ℚ) → (Int → ℚ) × Bool,
          rs2 c.num_obs (fun i => c.data 1 (c.eb_time 1 t) i)
              (fun i => c.data 0 (c.eb_time 0 t) i)
            = rs c.num_obs (fun i => c.data 1 (c.eb_time 1 t) i)
              (fun i => c.data 0 (c.eb_time 0 t) i) →
          (InitFromVarInfo_assemble rs2 c).map_valid t
              = (InitFromVarInfo_assemble rs c).map_valid t
            ∧ (InitFromVarInfo_assemble rs2 c).map_error_message t
              = (InitFromVarInfo_assemble rs c).map_error_message t
            ∧ (InitFromVarInfo_assemble rs2 c).data1_vecs t
              = (InitFromVarInfo_assemble rs c).data1_vecs t) := by
  obtain ⟨enum, emv, emsg, ed1⟩ := InitFromVarInfo_assemble_eb rs c hl
  obtain ⟨_, _, _, hinit⟩ := AllocateVectors_times_spec c
  rw [enum] at ht1
  obtain ⟨iv, im⟩ := hinit t ht0 ht1
  have hin : 0 ≤ t ∧ t < ((InitFromVarInfo_times (DeallocateVectors c)).num_time_vals.toNat : Int) :=
    ⟨ht0, by omega⟩
  have loop := fun r => (InitFromVarInfo_eb_loop r c
    (InitFromVarInfo_times (DeallocateVectors c)).num_time_vals.toNat
    ((AllocateVectors (InitFromVarInfo_times (DeallocateVectors c))).map_valid,
      (AllocateVectors (InitFromVarInfo_times (DeallocateVectors c))).map_error_message,
      c.data1_vecs) t).1 hin
  obtain ⟨lf, lo⟩ := loop rs
  refine ⟨?_, ?_, ?_⟩
  · intro hfail
    obtain ⟨e1, e2, e3⟩ := lf hfail
    rw [emv, emsg, ed1, e1, e2, e3]
    dsimp only
    rw [im]
    exact ⟨rfl, by decide, by decide, rfl⟩
  · intro hok
    obtain ⟨e1, e2, e3⟩ := lo hok
    rw [emv, emsg, ed1, e1, e2, e3]
    dsimp only
    refine ⟨iv, im, ?_⟩
    intro i hi0 hi1
    rw [fillArray_apply, if_pos ⟨hi0, hi1⟩]
  · intro rs2 hsame
    obtain ⟨_, emv2, emsg2, ed12⟩ := InitFromVarInfo_assemble_eb rs2 c hl
    obtain ⟨lf2, lo2⟩ := loop rs2
    rw [emv, emsg, ed1, emv2, emsg2, ed12]
    cases hs : (rs c.num_obs (fun i => c.data 1 (c.eb_time 1 t) i)
        (fun i => c.data 0 (c.eb_time 0 t) i)).2
    · obtain ⟨e1, e2, e3⟩ := lf hs
      obtain ⟨g1, g2, g3⟩ := lf2 (by rw [hsame]; exact hs)
      rw [e1, e2, e3, g1, g2, g3]
      exact ⟨rfl, rfl, rfl⟩
    · obtain ⟨e1, e2, e3⟩ := lo hs
      obtain ⟨g1, g2, g3⟩ := lo2 (by rw [hsame]; exact hs)
      rw [e1, e2, e3, g1, g2, g3, hsame]
      exact ⟨rfl, rfl, rfl⟩

/-! ## The significance filter -/

/-- Without the significance pass, `InitFromVarInfo` returns after `CalcLisa`. -/
theorem InitFromVarInfo_returns (env : Collaborators) (c : LisaCoordinatorFull)
    (h : c.calc_significances = false) :
    InitFromVarInfo env c = some (InitFromVarInfo_observed env c) := by
  obtain ⟨_, _, hcfg⟩ := StandardizeData_assemble_frame env c
  obtain ⟨hl, _⟩ := CalcLisa_spec env.SpatialLag
    (StandardizeData env.StandardizeData
      (InitFromVarInfo_assemble env.RateStandardizeEB c)).toLisaCoordinator
  have hobs : (InitFromVarInfo_observed env c).calc_significances = false := by
    show (CalcLisa env.SpatialLag
      (StandardizeData env.StandardizeData
        (InitFromVarInfo_assemble env.RateStandardizeEB c)).toLisaCoordinator).calc_significances
      = false
    rw [hl.2.2.1, hcfg.2.2.2.2.2.2.1, h]
  unfold InitFromVarInfo
  rw [if_neg (by rw [hobs]; decide)]

/-- C20: `SetSignificanceFilter(f)` with `f` in `{1, 2, 3, 4}` sets the filter to
`f` and the cutoff to 0.05, 0.01, 0.001, 0.0001 respectively; for every other `f`
it changes nothing; a coordinator that the constructor returns has filter 1 and
cutoff 0.05, and the constructor does return when the significance computation is
not requested. -/
theorem C20_significance_filter :
    (∀ (f : Int) (c : LisaCoordinatorFull), 1 ≤ f → f ≤ 4 →
        (SetSignificanceFilter f c).significance_filter = f
        ∧ (SetSignificanceFilter f c).significance_cutoff
            = (if f = 1 then 0.05 else if f = 2 then 0.01 else if f = 3 then 0.001
                else 0.0001)
        ∧ (SetSignificanceFilter f c).toLisaCoordinator = c.toLisaCoordinator)
      ∧ (∀ (f : Int) (c : LisaCoordinatorFull), (f < 1 ∨ 4 < f) →
          SetSignificanceFilter f c = c)
      ∧ (∀ (env : Collaborators) (garbage : LisaCoordinatorFull) (num_obs : Int)
          (W : Int → GalElement) (data : Int → Int → Int → ℚ) (var_info_s : List VarInfo)
          (lisa_type_s : LisaType) (calc_significances_s row_standardize_s : Bool)
          (c' : LisaCoordinatorFull),
          LisaCoordinatorFull.new env garbage num_obs W data var_info_s lisa_type_s
              calc_significances_s row_standardize_s = some c' →
          c'.significance_filter = 1 ∧ c'.significance_cutoff = 0.05)
      ∧ (∀ (env : Collaborators) (garbage : LisaCoordinatorFull) (num_obs : Int)
          (W : Int → GalElement) (data : Int → Int → Int → ℚ) (var_info_s : List VarInfo)
          (lisa_type_s : LisaType) (row_standardize_s : Bool),
          ∃ c' : LisaCoordinatorFull,
            LisaCoordinatorFull.new env garbage num_obs W data var_info_s lisa_type_s
              false row_standardize_s = some c') := by
  refine ⟨?_, ?_, ?_, fun env garbage num_obs W data var_info_s lisa_type_s rsd =>
    ⟨_, InitFromVarInfo_returns env _ rfl⟩⟩
  · intro f c h1 h4
    have hcases : f = 1 ∨ f = 2 ∨ f = 3 ∨ f = 4 := by omega
    unfold SetSignificanceFilter
    rw [if_neg (by omega)]
    rcases hcases with h | h | h | h <;> subst h <;> simp
  · intro f c h
    unfold SetSignificanceFilter
    rw [if_pos (by omega)]
  · intro env garbage num_obs W data var_info_s lisa_type_s cs rsd c' h
    unfold LisaCoordinatorFull.new at h
    obtain ⟨core, hc', _, _⟩ := InitFromVarInfo_some env _ c' h
    obtain ⟨_, _, hcfg⟩ := StandardizeData_assemble_frame env
      (SetSignificanceFilter 1
        { garbage with
          num_obs := num_obs
          permutations := 999
          lisa_type := lisa_type_s
          calc_significances := cs
          isBivariate := decide (lisa_type_s = LisaType.bivariate)
          var_info := var_info_s
          data := data
          last_seed_used := 0
          reuse_last_seed := false
          row_standardize := rsd
          W := W
          data1_vecs_size := 0
          data2_vecs_size := 0 })
    rw [hc']
    exact ⟨hcfg.2.2.2.2.2.2.2.2.2.2.2.1, by
      rw [show ((StandardizeData env.StandardizeData _).withCore core).significance_cutoff
        = (StandardizeData env.StandardizeData _).significance_cutoff from rfl,
        hcfg.2.2.2.2.2.2.2.2.2.2.2.2]
      rfl⟩


/-! ## Standardization -/

/-- C15 on the rate example, whose first variable is observed at the times 0..2
and synchronized: three time slices, reference variable 0. -/
theorem C15_num_time_vals_witness :
    InitFromVarInfo exampleCollaborators ebEx
        = some (InitFromVarInfo_observed exampleCollaborators ebEx)
      ∧ (InitFromVarInfo_observed exampleCollaborators ebEx).num_time_vals = 3
      ∧ (InitFromVarInfo_observed exampleCollaborators ebEx).ref_var_index = 0 :=
  ⟨rfl, (C15_num_time_vals exampleCollaborators ebEx
      (InitFromVarInfo_observed exampleCollaborators ebEx) rfl).2.1 (by decide) 0 (varEx 0 0 2)
      rfl rfl (fun j hj => absurd hj (Nat.not_lt_zero j))⟩

/-- C16 on the example of the spec: values `[5, 3, 1]` at time 0 and `[2, 3, 4]`
at time 1 give the differences `[3, 0, -3]`. -/
theorem C16_differential_data_witness :
    (InitFromVarInfo_assemble rateEx differentialEx).data1_vecs 0 0 = 3
      ∧ (InitFromVarInfo_assemble rateEx differentialEx).data1_vecs 0 1 = 0
      ∧ (InitFromVarInfo_assemble rateEx differentialEx).data1_vecs 0 2 = -3 :=
  ⟨(C16_differential_data rateEx differentialEx rfl 0 (by decide) (by decide)).trans
      (by decide!),
    (C16_differential_data rateEx differentialEx rfl 1 (by decide) (by decide)).trans
      (by decide!),
    (C16_differential_data rateEx differentialEx rfl 2 (by decide) (by decide)).trans
      (by decide!)⟩

/-- C17 on three time slices of which the smoother fails on slice 1 only: slice 1
is marked invalid with the failure message and keeps its row, slices 0 and 2 are
valid with an empty message and hold the rates. -/
theorem C17_eb_slice_validity_witness :
    ((InitFromVarInfo_assemble rateEx ebEx).map_valid 1 = false
        ∧ (InitFromVarInfo_assemble rateEx ebEx).map_error_message 1
            = "Emprical Bayes Rate Standardization failed."
        ∧ (InitFromVarInfo_assemble rateEx ebEx).map_error_message 1 ≠ ""
        ∧ (InitFromVarInfo_assemble rateEx ebEx).data1_vecs 1 = ebEx.data1_vecs 1)
      ∧ ((InitFromVarInfo_assemble rateEx ebEx).map_valid 0 = true
        ∧ (InitFromVarInfo_assemble rateEx ebEx).map_error_message 0 = ""
        ∧ (InitFromVarInfo_assemble rateEx ebEx).data1_vecs 0 1 = 1 / 2)
      ∧ ((InitFromVarInfo_assemble rateEx ebEx).map_valid 2 = true
        ∧ (InitFromVarInfo_assemble rateEx ebEx).map_error_message 2 = ""
        ∧ (InitFromVarInfo_assemble rateEx ebEx).data1_vecs 2 1 = 1 / 2) :=
  have h0 := (C17_eb_slice_validity rateEx ebEx rfl 0 (by decide) (by decide)).2.1 (by decide!)
  have h2 := (C17_eb_slice_validity rateEx ebEx rfl 2 (by decide) (by decide)).2.1 (by decide!)
  ⟨(C17_eb_slice_validity rateEx ebEx rfl 1 (by decide) (by decide)).1 (by decide!),
    ⟨h0.1, h0.2.1, (h0.2.2 1 (by decide) (by decide)).trans (by decide!)⟩,
    ⟨h2.1, h2.2.1, (h2.2.2 1 (by decide) (by decide)).trans (by decide!)⟩⟩


/-! ## Overwriting vectors and related runs -/

theorem i32_of_small (z : Int) (h0 : 0 ≤ z) (h1 : z ≤ INT_MAX) : i32 z = z := by
  unfold i32
  unfold INT_MAX at h1
  rw [Int.emod_eq_of_lt (by omega) (by omega)]
  omega

/-- The loop over the copy of the observer list sends one request per entry, in
order, whatever the observers do to the coordinator in return. -/
theorem closeObserver_loop (onClose : Nat → ObserverSide → ObserverSide) :
    ∀ (l done : List Nat) (s : ObserverSide),
      (l.foldl (fun acc o => (acc.1 ++ [o], onClose o acc.2)) (done, s)).1 = done ++ l
  | [], done, s => by simp
  | o :: l, done, s => by
    rw [List.foldl_cons, closeObserver_loop onClose l (done ++ [o]) (onClose o s)]
    simp

/-- C21: with at most `INT_MAX` registered observers, `closeObserver(id)` sends the
close requests to exactly the observers of the list as it is at the time of the
call, one request per entry and in list order, when `id` is the weights id, so
that every observer receives as many requests as it has entries (one if it is
registered once), whatever the observers do in return; it sends no request when
`id` differs or the list is empty.  `numMustCloseToRemove(id)` is the length of the
list when `id` matches and 0 otherwise. -/
theorem C21_close_requests (onClose : Nat → ObserverSide → ObserverSide) (id : Nat)
    (s : ObserverSide) (hlen : (s.observers.length : Int) ≤ INT_MAX) :
    (id = s.w_id → (closeObserver onClose id s).1 = s.observers
        ∧ (∀ o, (closeObserver onClose id s).1.count o = s.observers.count o)
        ∧ (s.observers.Nodup → ∀ o ∈ s.observers, (closeObserver onClose id s).1.count o = 1)
        ∧ numMustCloseToRemove id s = (s.observers.length : Int))
      ∧ (id ≠ s.w_id → closeObserver onClose id s = ([], s) ∧ numMustCloseToRemove id s = 0)
      ∧ (s.observers = [] → closeObserver onClose id s = ([], s)) := by
  have hnum : id = s.w_id → numMustCloseToRemove id s = (s.observers.length : Int) := by
    intro hid
    unfold numMustCloseToRemove
    rw [if_pos hid, i32_of_small _ (by omega) hlen]
  have hsent : id = s.w_id → (closeObserver onClose id s).1 = s.observers := by
    intro hid
    unfold closeObserver
    rw [hnum hid]
    split_ifs with h0
    · have : s.observers = [] := List.eq_nil_of_length_eq_zero (by omega)
      rw [this]
    · simp only
      rw [closeObserver_loop]
      simp
  refine ⟨?_, ?_, ?_⟩
  · intro hid
    refine ⟨hsent hid, fun o => by rw [hsent hid], ?_, hnum hid⟩
    intro hnd o ho
    rw [hsent hid]
    exact List.count_eq_one_of_mem hnd ho
  · intro hid
    have h0 : numMustCloseToRemove id s = 0 := by
      unfold numMustCloseToRemove
      rw [if_neg hid]
    refine ⟨?_, h0⟩
    unfold closeObserver
    rw [if_pos h0]
  · intro hnil
    unfold closeObserver
    split_ifs with h0
    · rfl
    · simp only
      rw [hnil]
      rfl

/-- C21 on the observers `[3, 1, 3]` of weights 7, each observer answering the
request by deregistering: the requests go to 3, 1, 3; none is sent for weights 8. -/
theorem C21_close_requests_witness :
    (closeObserver removeObserver 7 observedEx).1 = [3, 1, 3]
      ∧ numMustCloseToRemove 7 observedEx = 3
      ∧ closeObserver removeObserver 8 observedEx = ([], observedEx)
      ∧ numMustCloseToRemove 8 observedEx = 0 :=
  have h := C21_close_requests removeObserver 7 observedEx (by decide)
  have h8 := C21_close_requests removeObserver 8 observedEx (by decide)
  ⟨(h.1 rfl).1, (h.1 rfl).2.2.2, (h8.2.1 (by decide)).1, (h8.2.1 (by decide)).2⟩

/-- C22: `removeObserver(o)` leaves the list without any occurrence of `o`, with
every other observer as often as before and in the former order; the coordinator
is deleted by the call exactly when the list is empty afterwards.
`registerObserver(o)` puts `o` at the front of the list and deletes nothing. -/
theorem C22_remove_and_register (o : Nat) (s : ObserverSide) (halive : s.deleted = false) :
    (removeObserver o s).observers = s.observers.filter (fun x => decide (x ≠ o))
      ∧ o ∉ (removeObserver o s).observers
      ∧ (∀ x, x ≠ o → (removeObserver o s).observers.count x = s.observers.count x)
      ∧ List.Sublist (removeObserver o s).observers s.observers
      ∧ ((removeObserver o s).deleted = true ↔ (removeObserver o s).observers = [])
      ∧ (removeObserver o s).w_id = s.w_id
      ∧ (registerObserver o s).observers = o :: s.observers
      ∧ (registerObserver o s).deleted = false
      ∧ (registerObserver o s).w_id = s.w_id := by
  have hobs : (removeObserver o s).observers = s.observers.filter (fun x => decide (x ≠ o)) := by
    unfold removeObserver
    simp only
    split_ifs <;> rfl
  refine ⟨hobs, ?_, ?_, ?_, ?_, ?_, rfl, halive, rfl⟩
  · rw [hobs]
    intro hmem
    have := (List.mem_filter.1 hmem).2
    simp at this
  · intro x hx
    rw [hobs, List.count_filter]
    simpa using hx
  · rw [hobs]
    exact List.filter_sublist _
  · unfold removeObserver
    simp only
    split_ifs with h0
    · simp only [true_iff]
      exact List.eq_nil_of_length_eq_zero h0
    · simp only [halive]
      constructor
      · intro h
        exact absurd h (by decide)
      · intro h
        rw [h] at h0
        exact absurd rfl h0
  · unfold removeObserver
    simp only
    split_ifs <;> rfl

/-- C22 on the observers `[3, 1, 3]`: removing 3 leaves `[1]` and the coordinator
alive, removing 1 as well leaves nothing and deletes it. -/
theorem C22_remove_and_register_witness :
    (removeObserver 3 observedEx).observers = [1]
      ∧ (removeObserver 3 observedEx).deleted = false
      ∧ (removeObserver 1 (removeObserver 3 observedEx)).observers = []
      ∧ (removeObserver 1 (removeObserver 3 observedEx)).deleted = true
      ∧ (registerObserver 5 observedEx).observers = [5, 3, 1, 3] :=
  have h := C22_remove_and_register 3 observedEx rfl
  have h1 := C22_remove_and_register 1 (removeObserver 3 observedEx) (by decide)
  ⟨h.1.trans (by decide), by decide, h1.1.trans (by decide),
    h1.2.2.2.2.1.2 (h1.1.trans (by decide)), (C22_remove_and_register 5 observedEx rfl).2.2.2.2.2.2.1⟩


/-! ## Claim on the fall-through label -/

/-- C27: after `CalcLisa`, an observation with at least one neighbour whose value
`data1[i]` or whose lag is 0 has the label 1; every observation with a neighbour
has a label among 1, 2, 3, 4; and the label is 1 exactly when the pair of value and
lag is none of strictly (+,-), (-,+), (-,-). -/
theorem C27_label_fall_through (SL : GalElement → (Int → ℚ) → ℚ) (c : LisaCoordinator)
    (t i : Int) (ht0 : 0 ≤ t) (ht1 : t < c.num_time_vals) (hi0 : 0 ≤ i) (hi1 : i < c.num_obs)
    (hnb : 0 < (c.W i).length) :
    ((c.data1_vecs t i = 0 ∨ (CalcLisa SL c).lags_vecs t i = 0) →
        (CalcLisa SL c).cluster_vecs t i = 1)
      ∧ ((CalcLisa SL c).cluster_vecs t i = 1 ∨ (CalcLisa SL c).cluster_vecs t i = 2
        ∨ (CalcLisa SL c).cluster_vecs t i = 3 ∨ (CalcLisa SL c).cluster_vecs t i = 4)
      ∧ ((CalcLisa SL c).cluster_vecs t i = 1 ↔
          ¬(0 < c.data1_vecs t i ∧ (CalcLisa SL c).lags_vecs t i < 0)
          ∧ ¬(c.data1_vecs t i < 0 ∧ 0 < (CalcLisa SL c).lags_vecs t i)
          ∧ ¬(c.data1_vecs t i < 0 ∧ (CalcLisa SL c).lags_vecs t i < 0)) := by
  obtain ⟨_, hcell⟩ := CalcLisa_spec SL c
  obtain ⟨hlag, _, hlabel⟩ := hcell t i ht0 ht1 hi0 hi1
  have hsize : ((c.W i).length : Int) > 0 := by omega
  rw [hlabel, hlag]
  unfold clusterOf
  rw [if_pos hsize]
  refine ⟨?_, ?_, ?_⟩
  · rintro (h | h)
    · rw [h]
      simp
    · rw [h]
      simp
  · split_ifs <;> simp
  · constructor
    · intro h
      split_ifs at h with h1 h2 h3
      · omega
      · omega
      · omega
      · exact ⟨by simpa [gt_iff_lt] using h1, by simpa [gt_iff_lt] using h2, h3⟩
    · rintro ⟨h1, h2, h3⟩
      rw [if_neg (by simpa [gt_iff_lt] using h1), if_neg (by simpa [gt_iff_lt] using h2),
        if_neg h3]

/-- C27 on three observations with values `[0, 1, 1]`, observation 0 having the
neighbours 1 and 2 (lag 1): its value is 0 and its label is 1. -/
theorem C27_label_fall_through_witness :
    zeroValueEx.data1_vecs 0 0 = 0
      ∧ (CalcLisa (SpatialLag_spec true) zeroValueEx).lags_vecs 0 0 = 1
      ∧ (CalcLisa (SpatialLag_spec true) zeroValueEx).cluster_vecs 0 0 = 1 :=
  ⟨by decide!, by decide!,
    (C27_label_fall_through (SpatialLag_spec true) zeroValueEx 0 0 (by decide) (by decide)
      (by decide) (by decide) (by decide)).1 (Or.inl (by decide!))⟩


/-! ## Claim on the range of the p-values -/

/-- A working set of distinct indices taken from a set with fewer than
`numNeighbors` elements never fills up: the draw loop does not return, whatever
the fuel. -/
theorem drawLoop_stuck (twh : Nat → ℚ) (max_rand cnt : Int) (k : Nat) (S : Finset Int)
    (hS : S.card < k)
    (hcand : ∀ s, toInt (twh s * (max_rand : ℚ)) ≠ cnt → toInt (twh s * (max_rand : ℚ)) ∈ S) :
    ∀ (fuel rand : Nat) (wp : GeoDaSet) (seed : Nat), wp.buffer.Nodup →
      (∀ x ∈ wp.buffer, x ∈ S) → rand = wp.buffer.length →
      drawLoop twh max_rand cnt k fuel rand wp seed = none := by
  have hlt : ∀ (rand : Nat) (wp : GeoDaSet), wp.buffer.Nodup → (∀ x ∈ wp.buffer, x ∈ S) →
      rand = wp.buffer.length → rand < k := by
    intro rand wp hnd hsub hr
    have h1 : wp.buffer.toFinset.card = wp.buffer.length := List.toFinset_card_of_nodup hnd
    have h2 : wp.buffer.toFinset ⊆ S := by
      intro x hx
      exact hsub x (List.mem_toFinset.1 hx)
    have h3 := Finset.card_le_card h2
    omega
  intro fuel
  induction fuel with
  | zero =>
    intro rand wp seed hnd hsub hr
    unfold drawLoop
    rw [if_pos (hlt rand wp hnd hsub hr)]
  | succ fuel ih =>
    intro rand wp seed hnd hsub hr
    unfold drawLoop
    rw [if_pos (hlt rand wp hnd hsub hr)]
    simp only
    split_ifs with hacc
    · apply ih
      · show (toInt (twh seed * (max_rand : ℚ)) :: wp.buffer).Nodup
        refine List.nodup_cons.2 ⟨?_, hnd⟩
        have := hacc.2
        unfold GeoDaSet.Belongs at this
        simpa using this
      · intro x hx
        rcases List.mem_cons.1 hx with h1 | h1
        · rw [h1]
          exact hcand seed hacc.1
        · exact hsub x h1
      · show rand + 1 = (toInt (twh seed * (max_rand : ℚ)) :: wp.buffer).length
        rw [List.length_cons, hr]
    · exact ih rand wp _ hnd hsub hr

/-- The indices that can be accepted for observation `cnt` among `N`: those of
`[0, N - 2]` other than `cnt`. -/
theorem candidates_card (N cnt : Int) (hc0 : 0 ≤ cnt) (hc1 : cnt < N) :
    (((Finset.Icc (0 : Int) (N - 2)).erase cnt).card : Int)
      = if cnt < N - 1 then N - 2 else N - 1 := by
  split_ifs with h
  · rw [Finset.card_erase_of_mem (Finset.mem_Icc.2 ⟨hc0, by omega⟩), Int.card_Icc]
    have : (N - 2 + 1 - 0).toNat = (N - 1).toNat := by congr 1; ring
    rw [this]
    omega
  · rw [Finset.erase_eq_of_not_mem (by rw [Finset.mem_Icc]; omega), Int.card_Icc]
    have : (N - 2 + 1 - 0).toNat = (N - 1).toNat := by congr 1; ring
    rw [this]
    omega

/-- C28, the claim at one observation: with `N = 1` the multiplier `max_rand` is 0
and the candidate computed from any hash value is 0, which is `N - 1` and is not
at most `N - 2 = -1`. -/
theorem C28_single_observation_candidate :
    (∀ s, 0 ≤ hashEx s ∧ hashEx s < 1)
      ∧ toInt (hashEx 0 * (((1 : Int) - 1 : Int) : ℚ)) = 0
      ∧ ¬ (toInt (hashEx 0 * (((1 : Int) - 1 : Int) : ℚ)) ≤ (1 : Int) - 2) :=
  ⟨hashEx_range, by decide!, by decide!⟩

/-- C28, amended: with hash values in `[0, 1)` and an observation `cnt` of
`[0, N)`: for `N ≥ 2` every candidate index lies in `[0, N - 2]`; for every `N` the
index `N - 1` is never accepted into a permutation; and for `cnt < N - 1` with
`k ≥ N - 1` neighbours, or `cnt = N - 1` with `k ≥ N`, the draw loop does not return
with any fuel (the number of accepted indices stays below `k`), so that with at
least one permutation the pass for `cnt` does not return either. -/
theorem C28_draw_loop_never_returns (twh : Nat → ℚ) (hhash : ∀ s, 0 ≤ twh s ∧ twh s < 1)
    (N cnt : Int) (k : Nat) (hc0 : 0 ≤ cnt) (hc1 : cnt < N) :
    (2 ≤ N → ∀ s, 0 ≤ toInt (twh s * ((N - 1 : Int) : ℚ))
        ∧ toInt (twh s * ((N - 1 : Int) : ℚ)) ≤ N - 2)
      ∧ (∀ (fuel n : Nat) (seed : Nat) (wp' : GeoDaSet) (seed' : Nat),
          drawLoop twh (N - 1) cnt n fuel 0 GeoDaSet.empty seed = some (wp', seed') →
          (N - 1) ∉ wp'.buffer)
      ∧ ((cnt < N - 1 ∧ N - 1 ≤ (k : Int)) ∨ (cnt = N - 1 ∧ N ≤ (k : Int)) →
          (∀ (fuel seed : Nat),
            drawLoop twh (N - 1) cnt k fuel 0 GeoDaSet.empty seed = none)
          ∧ (∀ (fuel seed : Nat) (c : LisaCoordinator), c.num_obs = N →
              (c.W cnt).length = k → 1 ≤ c.permutations →
              CalcPseudoP_obs twh fuel cnt (c, GeoDaSet.empty, seed) = none)) := by
  have hcr : ∀ s, 0 ≤ toInt (twh s * ((N - 1 : Int) : ℚ))
      ∧ toInt (twh s * ((N - 1 : Int) : ℚ)) ≤ N - 1
      ∧ (0 < N - 1 → toInt (twh s * ((N - 1 : Int) : ℚ)) < N - 1) :=
    fun s => candidate_range (twh s) (N - 1) (hhash s).1 (hhash s).2 (by omega)
  have hin : ∀ s, toInt (twh s * ((N - 1 : Int) : ℚ)) ≠ cnt →
      toInt (twh s * ((N - 1 : Int) : ℚ)) ∈ (Finset.Icc (0 : Int) (N - 2)).erase cnt := by
    intro s hne
    obtain ⟨h0, h1, h2⟩ := hcr s
    rw [Finset.mem_erase, Finset.mem_Icc]
    refine ⟨hne, h0, ?_⟩
    by_cases hN : 0 < N - 1
    · have := h2 hN
      omega
    · omega
  have hstuck : (cnt < N - 1 ∧ N - 1 ≤ (k : Int)) ∨ (cnt = N - 1 ∧ N ≤ (k : Int)) →
      ∀ (fuel seed : Nat), drawLoop twh (N - 1) cnt k fuel 0 GeoDaSet.empty seed = none := by
    intro hk fuel seed
    apply drawLoop_stuck twh (N - 1) cnt k ((Finset.Icc (0 : Int) (N - 2)).erase cnt) _ hin
    · exact List.nodup_nil
    · intro x hx
      exact absurd hx (List.not_mem_nil x)
    · rfl
    · have hcard := candidates_card N cnt hc0 hc1
      split_ifs at hcard with h
      · rcases hk with hk | hk <;> omega
      · rcases hk with hk | hk <;> omega
  refine ⟨?_, ?_, ?_⟩
  · intro hN s
    obtain ⟨h0, _, h2⟩ := hcr s
    have := h2 (by omega)
    exact ⟨h0, by omega⟩
  · intro fuel n seed wp' seed' h hmem
    obtain ⟨new, hbuf, _, _, hnew⟩ := drawLoop_accepts twh (N - 1) cnt n fuel 0
      GeoDaSet.empty seed wp' seed' h
    rw [hbuf] at hmem
    have hmem2 : (N - 1) ∈ new := by
      rcases List.mem_append.1 hmem with h1 | h1
      · exact h1
      · exact absurd h1 (List.not_mem_nil _)
    obtain ⟨hne, s, hs⟩ := hnew _ hmem2
    obtain ⟨h0, h1, h2⟩ := hcr s
    by_cases hN : 0 < N - 1
    · have := h2 hN
      omega
    · omega
  · intro hk
    refine ⟨hstuck hk, ?_⟩
    intro fuel seed c hnum hlen hperm
    unfold CalcPseudoP_obs
    simp only
    obtain ⟨m, hm⟩ : ∃ m : Nat, c.permutations.toNat = m + 1 := ⟨c.permutations.toNat - 1, by omega⟩
    rw [hm]
    unfold permLoop
    rw [hnum, hlen, hstuck hk fuel seed]

/-- C28 on three observations, observation 0 with two neighbours: fifty draws do
not complete a permutation. -/
theorem C28_draw_loop_never_returns_witness :
    drawLoop hashEx 2 0 2 50 0 GeoDaSet.empty 0 = none :=
  ((C28_draw_loop_never_returns hashEx hashEx_range 3 0 2 (by decide) (by decide)).2.2
    (Or.inl ⟨by decide, by decide⟩)).1 50 0


/-! ## Claims on the seeds of the draws -/

/-- Dropping the record from the recorded draw loop gives the draw loop. -/
theorem drawLoopLog_erase (twh : Nat → ℚ) (max_rand cnt : Int) (k : Nat) :
    ∀ (fuel rand : Nat) (wp : GeoDaSet) (seed : Nat) (log : List (Nat × Int)),
      (drawLoopLog twh max_rand cnt k fuel rand wp seed log).map (fun r => (r.1, r.2.1))
        = drawLoop twh max_rand cnt k fuel rand wp seed
  | 0, rand, wp, seed, log => by
    unfold drawLoopLog drawLoop
    split_ifs <;> rfl
  | fuel + 1, rand, wp, seed, log => by
    unfold drawLoopLog drawLoop
    simp only
    split_ifs
    · exact drawLoopLog_erase twh max_rand cnt k fuel _ _ _ _
    · exact drawLoopLog_erase twh max_rand cnt k fuel _ _ _ _
    · rfl

theorem permLoopLog_erase (twh : Nat → ℚ) (fuel : Nat) (c : LisaCoordinator) (cnt : Int) :
    ∀ (n : Nat) (wp : GeoDaSet) (seed cl : Nat) (log : List (Nat × Int)),
      (permLoopLog twh fuel c cnt n wp seed cl log).map (fun r => (r.1, r.2.1, r.2.2.1))
        = permLoop twh fuel c cnt n wp seed cl
  | 0, _, _, _, _ => rfl
  | n + 1, wp, seed, cl, log => by
    unfold permLoopLog permLoop
    have he := drawLoopLog_erase twh (c.num_obs - 1) cnt (c.W cnt).length fuel 0 wp seed log
    cases hd : drawLoopLog twh (c.num_obs - 1) cnt (c.W cnt).length fuel 0 wp seed log with
    | none =>
      rw [hd] at he
      rw [← he]
      rfl
    | some r =>
      rw [hd] at he
      rw [← he]
      exact permLoopLog_erase twh fuel c cnt n _ _ _ _

theorem CalcPseudoP_obsLog_erase (twh : Nat → ℚ) (fuel : Nat) (cnt : Int)
    (st : LisaCoordinator × GeoDaSet × Nat × List (Nat × Int)) :
    (CalcPseudoP_obsLog twh fuel cnt st).map (fun r => (r.1, r.2.1, r.2.2.1))
      = CalcPseudoP_obs twh fuel cnt (st.1, st.2.1, st.2.2.1) := by
  unfold CalcPseudoP_obsLog CalcPseudoP_obs
  simp only
  have he := permLoopLog_erase twh fuel st.1 cnt st.1.permutations.toNat st.2.1 st.2.2.1 0
    st.2.2.2
  cases hd : permLoopLog twh fuel st.1 cnt st.1.permutations.toNat st.2.1 st.2.2.1 0
      st.2.2.2 with
  | none =>
    rw [hd] at he
    rw [← he]
    rfl
  | some r =>
    rw [hd] at he
    rw [← he]
    rfl

/-- A loop run on states with one more component returns the states of the loop
run without it. -/
theorem forLoopM_erase {σ τ : Type} (f : Int → σ → Option σ) (g : Int → τ → Option τ)
    (p : σ → τ) (hfg : ∀ i x, (f i x).map p = g i (p x)) :
    ∀ (n : Nat) (lo : Int) (x : σ),
      (forLoopM f n lo x).map p = forLoopM g n lo (p x)
  | 0, _, _ => rfl
  | n + 1, lo, x => by
    unfold forLoopM
    have he := hfg lo x
    cases hd : f lo x with
    | none =>
      rw [hd] at he
      rw [← he]
      rfl
    | some y =>
      rw [hd] at he
      rw [← he]
      exact forLoopM_erase f g p hfg n (lo + 1) y

/-- The recorded pass is the pass: dropping the record gives `CalcPseudoP_range`. -/
theorem CalcPseudoP_rangeLog_erase (twh : Nat → ℚ) (fuel : Nat) (c : LisaCoordinator)
    (obs_start obs_end : Int) (seed_start : Nat) :
    (CalcPseudoP_rangeLog twh fuel c obs_start obs_end seed_start).map (fun r => r.1)
      = CalcPseudoP_range twh fuel c obs_start obs_end seed_start := by
  unfold CalcPseudoP_rangeLog CalcPseudoP_range
  rw [Option.map_map]
  have h := forLoopM_erase (CalcPseudoP_obsLog twh fuel) (CalcPseudoP_obs twh fuel)
    (fun r : LisaCoordinator × GeoDaSet × Nat × List (Nat × Int) => (r.1, r.2.1, r.2.2.1))
    (CalcPseudoP_obsLog_erase twh fuel) (obs_end + 1 - obs_start).toNat obs_start
    (c, GeoDaSet.empty, seed_start, [])
  rw [← h, Option.map_map]
  rfl

theorem Consecutive_step (twh : Nat → ℚ) (max_rand : Int) (s0 : Nat) (log : List (Nat × Int))
    (seed : Nat) (h : Consecutive twh max_rand s0 log seed) :
    Consecutive twh max_rand s0 (log ++ [(seed, toInt (twh seed * (max_rand : ℚ)))])
      ((seed + 1) % 2 ^ 64) := by
  obtain ⟨hlog, hseed⟩ := h
  unfold Consecutive
  rw [List.length_append, List.length_singleton, List.range_succ, List.map_append, ← hlog,
    List.map_singleton, ← hseed]
  refine ⟨rfl, ?_⟩
  rw [hseed]
  omega

theorem drawLoopLog_Consecutive (twh : Nat → ℚ) (max_rand cnt : Int) (k : Nat) (s0 : Nat) :
    ∀ (fuel rand : Nat) (wp : GeoDaSet) (seed : Nat) (log : List (Nat × Int))
      (r : GeoDaSet × Nat × List (Nat × Int)),
      Consecutive twh max_rand s0 log seed →
      drawLoopLog twh max_rand cnt k fuel rand wp seed log = some r →
      Consecutive twh max_rand s0 r.2.2 r.2.1
  | 0, rand, wp, seed, log, r, hc, h => by
    unfold drawLoopLog at h
    split_ifs at h
    simp only [Option.some.injEq] at h
    rw [← h]
    exact hc
  | fuel + 1, rand, wp, seed, log, r, hc, h => by
    unfold drawLoopLog at h
    simp only at h
    split_ifs at h
    · exact drawLoopLog_Consecutive twh max_rand cnt k s0 fuel _ _ _ _ r
        (Consecutive_step twh max_rand s0 log seed hc) h
    · exact drawLoopLog_Consecutive twh max_rand cnt k s0 fuel _ _ _ _ r
        (Consecutive_step twh max_rand s0 log seed hc) h
    · simp only [Option.some.injEq] at h
      rw [← h]
      exact hc

theorem permLoopLog_Consecutive (twh : Nat → ℚ) (fuel : Nat) (c : LisaCoordinator) (cnt : Int)
    (s0 : Nat) :
    ∀ (n : Nat) (wp : GeoDaSet) (seed cl : Nat) (log : List (Nat × Int))
      (r : GeoDaSet × Nat × Nat × List (Nat × Int)),
      Consecutive twh (c.num_obs - 1) s0 log seed →
      permLoopLog twh fuel c cnt n wp seed cl log = some r →
      Consecutive twh (c.num_obs - 1) s0 r.2.2.2 r.2.1
  | 0, wp, seed, cl, log, r, hc, h => by
    unfold permLoopLog at h
    simp only [Option.some.injEq] at h
    rw [← h]
    exact hc
  | n + 1, wp, seed, cl, log, r, hc, h => by
    unfold permLoopLog at h
    cases hd : drawLoopLog twh (c.num_obs - 1) cnt (c.W cnt).length fuel 0 wp seed log with
    | none => rw [hd] at h; simp at h
    | some d =>
      rw [hd] at h
      simp only at h
      exact permLoopLog_Consecutive twh fuel c cnt s0 n _ _ _ _ r
        (drawLoopLog_Consecutive twh _ cnt _ s0 fuel 0 wp seed log d hc hd) h

theorem CalcPseudoP_obsLog_Consecutive (twh : Nat → ℚ) (fuel : Nat) (cnt : Int) (s0 : Nat)
    (st st' : LisaCoordinator × GeoDaSet × Nat × List (Nat × Int))
    (hc : Consecutive twh (st.1.num_obs - 1) s0 st.2.2.2 st.2.2.1)
    (h : CalcPseudoP_obsLog twh fuel cnt st = some st') :
    st'.1.num_obs = st.1.num_obs
      ∧ Consecutive twh (st.1.num_obs - 1) s0 st'.2.2.2 st'.2.2.1 := by
  unfold CalcPseudoP_obsLog at h
  simp only at h
  cases hd : permLoopLog twh fuel st.1 cnt st.1.permutations.toNat st.2.1 st.2.2.1 0
      st.2.2.2 with
  | none => rw [hd] at h; simp at h
  | some r =>
    rw [hd] at h
    simp only [Option.some.injEq] at h
    rw [← h]
    exact ⟨rfl, permLoopLog_Consecutive twh fuel st.1 cnt s0 _ _ _ _ _ r hc hd⟩

theorem Consecutive_get (twh : Nat → ℚ) (max_rand : Int) (s0 : Nat) (log : List (Nat × Int))
    (seed : Nat) (h : Consecutive twh max_rand s0 log seed) (j : Nat) (hj : j < log.length) :
    log[j]? = some ((s0 + j) % 2 ^ 64,
      toInt (twh ((s0 + j) % 2 ^ 64) * (max_rand : ℚ))) := by
  obtain ⟨hlog, _⟩ := h
  conv_lhs => rw [hlog]
  rw [List.getElem?_map, List.getElem?_range hj]
  rfl

/-- C23: a pass `CalcPseudoP_range(start, end, s)` that returns has made its draws
from consecutive seeds, with no reset between permutations or observations: the
`j`-th draw of its record (accepted or rejected, in the order of the observations
and permutations) is made with the seed `s + j` in `uint64_t` and examines the
candidate `(int)(ThomasWangHashDouble(s + j) * (num_obs - 1))`; the recorded pass
is the pass itself. -/
theorem C23_consecutive_seeds (twh : Nat → ℚ) (fuel : Nat) (c : LisaCoordinator)
    (obs_start obs_end : Int) (s : Nat) (c' : LisaCoordinator) (log : List (Nat × Int))
    (hs : s < 2 ^ 64)
    (h : CalcPseudoP_rangeLog twh fuel c obs_start obs_end s = some (c', log)) :
    CalcPseudoP_range twh fuel c obs_start obs_end s = some c'
      ∧ (∀ j, j < log.length →
          log[j]? = some ((s + j) % 2 ^ 64,
            toInt (twh ((s + j) % 2 ^ 64) * ((c.num_obs - 1 : Int) : ℚ))))
      ∧ (∀ j, j < log.length → s + j < 2 ^ 64 →
          log[j]? = some (s + j, toInt (twh (s + j) * ((c.num_obs - 1 : Int) : ℚ))))
      ∧ (∀ x : LisaCoordinator, CalcPseudoP_range twh fuel c obs_start obs_end s = some x →
          ∃ l, CalcPseudoP_rangeLog twh fuel c obs_start obs_end s = some (x, l)) := by
  have herase := CalcPseudoP_rangeLog_erase twh fuel c obs_start obs_end s
  have hcons : Consecutive twh (c.num_obs - 1) s log ((s + log.length) % 2 ^ 64) := by
    unfold CalcPseudoP_rangeLog at h
    obtain ⟨st, hst, he⟩ := map_eq_some_exists _ _ _ h
    simp only [Prod.mk.injEq] at he
    have key := forLoopM_invariant (CalcPseudoP_obsLog twh fuel)
      (fun _ x => x.1.num_obs = c.num_obs
        ∧ Consecutive twh (c.num_obs - 1) s x.2.2.2 x.2.2.1)
      (by
        rintro i x y ⟨hn, hc⟩ hb
        rw [← hn] at hc
        obtain ⟨r1, r2⟩ := CalcPseudoP_obsLog_Consecutive twh fuel i s x y hc hb
        rw [hn] at r2
        exact ⟨r1.trans hn, r2⟩)
      _ _ _ st ⟨rfl, by
        unfold Consecutive
        refine ⟨rfl, ?_⟩
        show s = (s + 0) % 2 ^ 64
        rw [Nat.add_zero, Nat.mod_eq_of_lt hs]⟩ hst
    have hc := key.2
    rw [he.2] at hc
    exact ⟨hc.1, rfl⟩
  refine ⟨?_, ?_, ?_, ?_⟩
  · rw [← herase, h]
    rfl
  · intro j hj
    exact Consecutive_get twh _ s log _ hcons j hj
  · intro j hj hlt
    have := Consecutive_get twh _ s log _ hcons j hj
    rw [Nat.mod_eq_of_lt hlt] at this
    exact this
  · intro x hx
    rw [← herase] at hx
    obtain ⟨r, hr, hx1⟩ := map_eq_some_exists _ _ _ hx
    exact ⟨r.2, by rw [hr, ← hx1]⟩

/-- C23 on three observations with two permutations, observation 0 having the
neighbour 1, from seed 999: the draws are made with the seeds 999, 1000, 1001; the
first candidate is 0, the observation itself, and is rejected, the next two are 1
and are accepted. -/
theorem C23_consecutive_seeds_witness :
    ∃ (c' : LisaCoordinator) (log : List (Nat × Int)),
      CalcPseudoP_rangeLog hashEx 2 (CalcLisa (SpatialLag_spec true) rejectEx) 0 2 999
          = some (c', log)
        ∧ log = [(999, 0), (1000, 1), (1001, 1)]
        ∧ CalcPseudoP_range hashEx 2 (CalcLisa (SpatialLag_spec true) rejectEx) 0 2 999
          = some c'
        ∧ log[1]? = some (999 + 1,
            toInt (hashEx (999 + 1)
              * (((CalcLisa (SpatialLag_spec true) rejectEx).num_obs - 1 : Int) : ℚ))) :=
  (map_eq_some_exists (fun r : LisaCoordinator × List (Nat × Int) => r.2)
    (CalcPseudoP_rangeLog hashEx 2 (CalcLisa (SpatialLag_spec true) rejectEx) 0 2 999)
    [(999, 0), (1000, 1), (1001, 1)] (by decide!)).elim (fun r hr =>
    have hall := C23_consecutive_seeds hashEx 2 (CalcLisa (SpatialLag_spec true) rejectEx)
      0 2 999 r.1 r.2 (by decide) hr.1
    ⟨r.1, r.2, hr.1, hr.2, hall.1, hall.2.2.1 1 (by rw [hr.2]; decide) (by decide)⟩)

/-- C24: evaluation at a failing input.  With `reuse_last_seed` unset the seed is
taken from the clock in every iteration of the time loop, on every path: after
the iteration of slice `t` the stored seed is the clock value of that iteration,
and on the single-threaded path the pass of slice `t` starts from it.  On two
slices holding the same values, three permutations and a clock that shows 0 during
slice 0 and 999 during slice 1, observation 2 gets the p-value 1/4 in slice 0 and
1/2 in slice 1 and the stored seed ends as 999; with the clock at 0 throughout,
both slices give 1/4. -/
theorem C24_seed_chosen_per_slice :
    (∀ (twh : Nat → ℚ) (fuel : Nat) (nCPUs : Int) (time0 : Int → Int)
        (create_ok : Int → Int → Bool) (t : Int) (c c' : LisaCoordinator),
        c.reuse_last_seed = false →
        CalcPseudoP_slice twh fuel nCPUs time0 create_ok t c = some c' →
        c'.last_seed_used = u64 (time0 t))
      ∧ (∀ (twh : Nat → ℚ) (fuel : Nat) (nCPUs : Int) (time0 : Int → Int)
        (create_ok : Int → Int → Bool) (t : Int) (c : LisaCoordinator),
        c.reuse_last_seed = false → nCPUs ≤ 1 →
        CalcPseudoP_slice twh fuel nCPUs time0 create_ok t c
          = CalcPseudoP_range twh fuel (chooseSeed (time0 t) (CalcPseudoP_select t c)) 0
              (c.num_obs - 1) (u64 (time0 t)))
      ∧ twoSlicesEx.reuse_last_seed = false ∧ twoSlicesEx.num_time_vals = 2
      ∧ twoSlicesEx.data1_vecs 0 = twoSlicesEx.data1_vecs 1
      ∧ (CalcPseudoP hashEx 1 1 clockEx (fun _ _ => true)
          (CalcLisa (SpatialLag_spec true) twoSlicesEx)).map
          (fun c => (c.sig_local_moran_vecs 0 2, c.sig_local_moran_vecs 1 2, c.last_seed_used))
        = some (1 / 4, 1 / 2, 999)
      ∧ (CalcPseudoP hashEx 1 1 (fun _ => 0) (fun _ _ => true)
          (CalcLisa (SpatialLag_spec true) twoSlicesEx)).map
          (fun c => (c.sig_local_moran_vecs 0 2, c.sig_local_moran_vecs 1 2, c.last_seed_used))
        = some (1 / 4, 1 / 4, 0) := by
  have hsel : ∀ (now t : Int) (c : LisaCoordinator), c.reuse_last_seed = false →
      (chooseSeed now (CalcPseudoP_select t c)).last_seed_used = u64 now := by
    intro now t c hre
    obtain ⟨sc, _⟩ := CalcPseudoP_select_spec t c
    have hre2 : (CalcPseudoP_select t c).reuse_last_seed = false :=
      sc.2.2.2.2.2.2.2.2.1.trans hre
    unfold chooseSeed
    rw [if_pos hre2]
  refine ⟨?_, ?_, rfl, rfl, rfl, by decide!, by decide!⟩
  · intro twh fuel nCPUs time0 create_ok t c c' hre h
    obtain ⟨f, g, hc'⟩ := CalcPseudoP_slice_shape twh fuel nCPUs time0 create_ok t c c' h
    rw [hc']
    exact hsel (time0 t) t c hre
  · intro twh fuel nCPUs time0 create_ok t c hre hcpu
    obtain ⟨sc, _⟩ := CalcPseudoP_select_spec t c
    unfold CalcPseudoP_slice
    rw [if_pos hcpu, hsel (time0 t) t c hre, sc.1]


/-! ## Claim on the merge keys -/

theorem KeyMap_find_assign_same : ∀ (m : KeyMap) (k : String) (v : Int),
    KeyMap.find (KeyMap.assign m k v) k = some v
  | [], k, v => by simp [KeyMap.assign, KeyMap.find]
  | (k', v') :: rest, k, v => by
    unfold KeyMap.assign
    split_ifs with h1 h2
    · simp [KeyMap.find]
    · simp [KeyMap.find]
    · unfold KeyMap.find
      rw [if_neg (fun h => h2 h.symm)]
      exact KeyMap_find_assign_same rest k v

theorem KeyMap_find_assign_other : ∀ (m : KeyMap) (k x : String) (v : Int), x ≠ k →
    KeyMap.find (KeyMap.assign m k v) x = KeyMap.find m x
  | [], k, x, v, hx => by
    simp only [KeyMap.assign, KeyMap.find]
    rw [if_neg (fun h => hx h.symm)]
  | (k', v') :: rest, k, x, v, hx => by
    unfold KeyMap.assign
    split_ifs with h1 h2
    · show (if k = x then some v else KeyMap.find ((k', v') :: rest) x) = _
      rw [if_neg (fun h => hx h.symm)]
    · show (if k = x then some v else KeyMap.find rest x) = _
      rw [if_neg (fun h => hx h.symm)]
      show _ = (if k' = x then some v' else KeyMap.find rest x)
      rw [if_neg (fun h => hx (h.symm.trans h2.symm))]
    · show (if k' = x then some v' else KeyMap.find (KeyMap.assign rest k v) x)
        = (if k' = x then some v' else KeyMap.find rest x)
      rw [KeyMap_find_assign_other rest k x v hx]

theorem KeyMap_length_assign : ∀ (m : KeyMap) (k : String) (v : Int),
    KeyMap.find m k = none → (KeyMap.assign m k v).length = m.length + 1
  | [], k, v, _ => rfl
  | (k', v') :: rest, k, v, h => by
    unfold KeyMap.find at h
    split_ifs at h with h0
    unfold KeyMap.assign
    split_ifs with h1 h2
    · rfl
    · exact absurd h2.symm h0
    · simp only [List.length_cons]
      rw [KeyMap_length_assign rest k v h]

theorem KeyMap_mem_assign : ∀ (m : KeyMap) (k : String) (v : Int) (e : String × Int),
    e ∈ KeyMap.assign m k v → e.1 = k ∨ e ∈ m
  | [], k, v, e, h => by
    simp only [KeyMap.assign, List.mem_singleton] at h
    exact Or.inl (by rw [h])
  | (k', v') :: rest, k, v, e, h => by
    unfold KeyMap.assign at h
    split_ifs at h with h1 h2
    · rcases List.mem_cons.1 h with h3 | h3
      · exact Or.inl (by rw [h3])
      · exact Or.inr h3
    · rcases List.mem_cons.1 h with h3 | h3
      · exact Or.inl (by rw [h3])
      · exact Or.inr (List.mem_cons_of_mem _ h3)
    · rcases List.mem_cons.1 h with h3 | h3
      · exact Or.inr (by rw [h3]; exact List.mem_cons_self _ _)
      · rcases KeyMap_mem_assign rest k v e h3 with h4 | h4
        · exact Or.inl h4
        · exact Or.inr (List.mem_cons_of_mem _ h4)

/-- The listing loop appends the first `6 - count` keys and counts them. -/
theorem CheckKeys_list_spec : ∀ (dup : KeyMap) (count : Int) (msg : String),
    0 ≤ count → count ≤ 5 →
    CheckKeys_list dup count msg
      = (((dup.take (6 - count).toNat).map Prod.fst).foldl (fun m k => (m ++ k) ++ "\n") msg,
          count + ((dup.take (6 - count).toNat).length : Int))
  | [], count, msg, _, _ => by simp [CheckKeys_list]
  | (k, v) :: rest, count, msg, h0, h5 => by
    unfold CheckKeys_list
    obtain ⟨n, hn⟩ : ∃ n : Nat, (6 - count).toNat = n + 1 := ⟨(6 - count).toNat - 1, by omega⟩
    rw [hn, List.take_succ_cons, List.map_cons, List.foldl_cons, List.length_cons]
    split_ifs with hc
    · have : n = 0 := by omega
      subst this
      simp
    · rw [CheckKeys_list_spec rest (count + 1) _ (by omega) (by omega)]
      have : (6 - (count + 1)).toNat = n := by omega
      rw [this]
      congr 1
      push_cast
      ring

/-- The state of the loop of `CheckKeys` after all of `key_vec`, from empty maps:
`key_map` holds exactly the trimmed keys, each with an index at which it occurs, its
size is the number of distinct trimmed keys, and every key of `dupKeys` occurs at
least twice. -/
theorem CheckKeys_loop_spec (Trim : Bool → String → String) (key_vec : List String) :
    (∀ k, KeyMap.find (forLoop (CheckKeys_body Trim key_vec) key_vec.length 0 ([], [])).1 k
          = none ↔ k ∉ trimmedKeys Trim key_vec)
      ∧ (∀ k v, KeyMap.find (forLoop (CheckKeys_body Trim key_vec) key_vec.length 0
            ([], [])).1 k = some v →
          0 ≤ v ∧ v < (key_vec.length : Int) ∧ (trimmedKeys Trim key_vec)[v.toNat]? = some k)
      ∧ (forLoop (CheckKeys_body Trim key_vec) key_vec.length 0 ([], [])).1.length
          = (trimmedKeys Trim key_vec).toFinset.card
      ∧ (∀ e ∈ (forLoop (CheckKeys_body Trim key_vec) key_vec.length 0 ([], [])).2,
          2 ≤ (trimmedKeys Trim key_vec).count e.1) := by
  have hlen : (trimmedKeys Trim key_vec).length = key_vec.length := by
    unfold trimmedKeys
    rw [List.length_map]
  have key := forLoop_invariant (CheckKeys_body Trim key_vec)
    (fun j st => 0 ≤ j ∧ (j ≤ (key_vec.length : Int) →
      (∀ k, KeyMap.find st.1 k = none ↔ k ∉ (trimmedKeys Trim key_vec).take j.toNat)
      ∧ (∀ k v, KeyMap.find st.1 k = some v →
          0 ≤ v ∧ v < j ∧ (trimmedKeys Trim key_vec)[v.toNat]? = some k)
      ∧ st.1.length = ((trimmedKeys Trim key_vec).take j.toNat).toFinset.card
      ∧ (∀ e ∈ st.2, 2 ≤ ((trimmedKeys Trim key_vec).take j.toNat).count e.1)))
    (by
      rintro i st ⟨hi0, hinv⟩
      refine ⟨by omega, fun hi1 => ?_⟩
      obtain ⟨ha, hb, hc, hd⟩ := hinv (by omega)
      have hm : i.toNat < key_vec.length := by omega
      have hkey : (trimmedKeys Trim key_vec)[i.toNat]?
          = some (Trim true (Trim false (key_vec.getD i.toNat ""))) := by
        unfold trimmedKeys
        rw [List.getElem?_map, List.getD_eq_getElem?_getD, List.getElem?_eq_getElem hm]
        rfl
      have htake : (trimmedKeys Trim key_vec).take (i + 1).toNat
          = (trimmedKeys Trim key_vec).take i.toNat
            ++ [Trim true (Trim false (key_vec.getD i.toNat ""))] := by
        rw [show (i + 1).toNat = i.toNat + 1 by omega, List.take_succ, hkey]
        rfl
      rw [htake]
      unfold CheckKeys_body
      simp only
      split_ifs with hfind
      · have hnot := (ha _).1 hfind
        refine ⟨?_, ?_, ?_, ?_⟩
        · intro k
          by_cases hk : k = Trim true (Trim false (key_vec.getD i.toNat ""))
          · rw [hk, KeyMap_find_assign_same]
            simp
          · rw [KeyMap_find_assign_other _ _ _ _ hk, ha k]
            constructor
            · intro h1 h2
              rcases List.mem_append.1 h2 with h3 | h3
              · exact h1 h3
              · exact hk (List.mem_singleton.1 h3)
            · intro h1 h2
              exact h1 (List.mem_append_left _ h2)
        · intro k v hv
          by_cases hk : k = Trim true (Trim false (key_vec.getD i.toNat ""))
          · rw [hk, KeyMap_find_assign_same] at hv
            simp only [Option.some.injEq] at hv
            rw [← hv, hk]
            exact ⟨hi0, by omega, hkey⟩
          · rw [KeyMap_find_assign_other _ _ _ _ hk] at hv
            obtain ⟨h1, h2, h3⟩ := hb k v hv
            exact ⟨h1, by omega, h3⟩
        · rw [KeyMap_length_assign _ _ _ hfind, hc, List.toFinset_append,
            List.toFinset_cons, List.toFinset_nil, Finset.union_comm,
            Finset.insert_union, Finset.empty_union,
            Finset.card_insert_of_not_mem (by rw [List.mem_toFinset]; exact hnot)]
        · intro e he
          have := hd e he
          rw [List.count_append]
          omega
      · have hmem : Trim true (Trim false (key_vec.getD i.toNat ""))
            ∈ (trimmedKeys Trim key_vec).take i.toNat := by
          by_contra hno
          exact hfind ((ha _).2 hno)
        refine ⟨?_, ?_, ?_, ?_⟩
        · intro k
          rw [ha k]
          constructor
          · intro h1 h2
            rcases List.mem_append.1 h2 with h3 | h3
            · exact h1 h3
            · rw [List.mem_singleton] at h3
              rw [h3] at h1
              exact h1 hmem
          · intro h1 h2
            exact h1 (List.mem_append_left _ h2)
        · intro k v hv
          obtain ⟨h1, h2, h3⟩ := hb k v hv
          exact ⟨h1, by omega, h3⟩
        · rw [hc, List.toFinset_append, List.toFinset_cons, List.toFinset_nil,
            Finset.union_comm, Finset.insert_union, Finset.empty_union,
            Finset.insert_eq_of_mem (by rw [List.mem_toFinset]; exact hmem)]
        · intro e he
          rw [List.count_append]
          rcases KeyMap_mem_assign _ _ _ e he with h1 | h1
          · rw [h1]
            have : 0 < ((trimmedKeys Trim key_vec).take i.toNat).count
                (Trim true (Trim false (key_vec.getD i.toNat ""))) :=
              List.count_pos_iff.2 hmem
            have h2 : [Trim true (Trim false (key_vec.getD i.toNat ""))].count
                (Trim true (Trim false (key_vec.getD i.toNat ""))) = 1 := by simp
            omega
          · have := hd e h1
            omega)
    key_vec.length 0 ([], []) ⟨le_refl _, fun _ => by
      refine ⟨fun k => by simp [KeyMap.find], fun k v hv => by simp [KeyMap.find] at hv,
        by simp, fun e he => absurd he (List.not_mem_nil e)⟩⟩
  obtain ⟨_, hfin⟩ := key
  have hfin2 := hfin (by omega)
  rw [show ((0 : Int) + (key_vec.length : Int)).toNat = key_vec.length by omega,
    List.take_of_length_le (by omega)] at hfin2
  rw [show (0 : Int) + (key_vec.length : Int) = (key_vec.length : Int) by omega] at hfin2
  exact hfin2

theorem card_toFinset_eq_length_iff (l : List String) :
    l.toFinset.card = l.length ↔ l.Nodup := by
  constructor
  · intro h
    rw [List.card_toFinset] at h
    have hsub : List.Sublist l.dedup l := List.dedup_sublist l
    have heq : l.dedup = l := hsub.eq_of_length h
    rw [← heq]
    exact List.nodup_dedup l
  · exact List.toFinset_card_of_nodup

/-- C29: for a vector of at most `INT_MAX` keys and an empty `key_map`, `CheckKeys`
throws exactly when two entries of `key_vec` are equal after `Trim(false)` and
`Trim(true)`.  When it does not throw, `key_map` has as many entries as `key_vec`
and maps the trimmed key of every index to that index (and holds no other key).
When it throws, the message is the header followed by at most six keys, each with
a line break and each occurring at least twice among the trimmed keys, and by
`...` when six keys are listed. -/
theorem C29_check_keys (Trim : Bool → String → String) (key_name : String)
    (key_vec : List String) (hlen : (key_vec.length : Int) ≤ INT_MAX) :
    ((∃ msg, CheckKeys Trim key_name key_vec [] = Except.error msg)
        ↔ ¬ (trimmedKeys Trim key_vec).Nodup)
      ∧ (¬ (trimmedKeys Trim key_vec).Nodup ↔
          ∃ i j : Nat, i < j ∧ j < key_vec.length
            ∧ (trimmedKeys Trim key_vec)[i]? = (trimmedKeys Trim key_vec)[j]?)
      ∧ (∀ m, CheckKeys Trim key_name key_vec [] = Except.ok m →
          m.length = key_vec.length
            ∧ (∀ (i : Nat) (k : String), (trimmedKeys Trim key_vec)[i]? = some k →
                KeyMap.find m k = some (i : Int))
            ∧ (∀ k, KeyMap.find m k ≠ none → k ∈ trimmedKeys Trim key_vec))
      ∧ (∀ msg, CheckKeys Trim key_name key_vec [] = Except.error msg →
          ∃ listed : List String, listed.length ≤ 6
            ∧ (∀ k ∈ listed, 2 ≤ (trimmedKeys Trim key_vec).count k)
            ∧ msg = listed.foldl (fun m k => (m ++ k) ++ "\n") (CheckKeys_header key_name)
                ++ (if 5 < listed.length then "..." else "")) := by
  obtain ⟨ha, hb, hc, hd⟩ := CheckKeys_loop_spec Trim key_vec
  have hkl : (trimmedKeys Trim key_vec).length = key_vec.length := by
    unfold trimmedKeys
    rw [List.length_map]
  have hn : (i32 (key_vec.length : Int)).toNat = key_vec.length := by
    rw [i32_of_small _ (by omega) hlen]
    omega
  have hthrow : key_vec.length
      ≠ (forLoop (CheckKeys_body Trim key_vec) key_vec.length 0 ([], [])).1.length
      ↔ ¬ (trimmedKeys Trim key_vec).Nodup := by
    rw [hc, ← card_toFinset_eq_length_iff, hkl]
    constructor
    · intro h1 h2
      exact h1 h2.symm
    · intro h1 h2
      exact h1 h2.symm
  have hshape : CheckKeys Trim key_name key_vec []
      = if key_vec.length
          ≠ (forLoop (CheckKeys_body Trim key_vec) key_vec.length 0 ([], [])).1.length then
          Except.error
            (if (CheckKeys_list (forLoop (CheckKeys_body Trim key_vec) key_vec.length 0
                ([], [])).2 0 (CheckKeys_header key_name)).2 > 5 then
              (CheckKeys_list (forLoop (CheckKeys_body Trim key_vec) key_vec.length 0
                ([], [])).2 0 (CheckKeys_header key_name)).1 ++ "..."
            else (CheckKeys_list (forLoop (CheckKeys_body Trim key_vec) key_vec.length 0
                ([], [])).2 0 (CheckKeys_header key_name)).1)
        else Except.ok (forLoop (CheckKeys_body Trim key_vec) key_vec.length 0 ([], [])).1 := by
    unfold CheckKeys
    simp only
    rw [hn]
  refine ⟨?_, ?_, ?_, ?_⟩
  · rw [hshape]
    by_cases h : key_vec.length
        ≠ (forLoop (CheckKeys_body Trim key_vec) key_vec.length 0 ([], [])).1.length
    · rw [if_pos h]
      exact ⟨fun _ => hthrow.1 h, fun _ => ⟨_, rfl⟩⟩
    · rw [if_neg h]
      constructor
      · rintro ⟨msg, hmsg⟩
        exact Except.noConfusion hmsg
      · intro hnd
        exact absurd (hthrow.2 hnd) h
  · rw [List.nodup_iff_getElem?_ne_getElem?]
    push_neg
    rw [hkl]
  · intro m hm
    rw [hshape] at hm
    by_cases h : key_vec.length
        ≠ (forLoop (CheckKeys_body Trim key_vec) key_vec.length 0 ([], [])).1.length
    · rw [if_pos h] at hm
      exact Except.noConfusion hm
    · rw [if_neg h] at hm
      have hm2 : (forLoop (CheckKeys_body Trim key_vec) key_vec.length 0 ([], [])).1 = m :=
        Except.ok.inj hm
      have hnd : (trimmedKeys Trim key_vec).Nodup := by
        by_contra hno
        exact h (hthrow.2 hno)
      rw [← hm2]
      refine ⟨(not_not.1 h).symm, ?_, ?_⟩
      · intro i k hik
        have hmem : k ∈ trimmedKeys Trim key_vec := List.getElem?_mem hik
        cases hf : KeyMap.find (forLoop (CheckKeys_body Trim key_vec) key_vec.length 0
            ([], [])).1 k with
        | none => exact absurd hmem ((ha k).1 hf)
        | some v =>
          obtain ⟨h0, h1, h2⟩ := hb k v hf
          have hi : i < (trimmedKeys Trim key_vec).length := by
            by_contra hge
            rw [List.getElem?_eq_none (by omega)] at hik
            exact Option.noConfusion hik
          have hv : v.toNat < (trimmedKeys Trim key_vec).length := by omega
          have heq : v.toNat = i := by
            by_contra hne
            rcases Nat.lt_or_gt_of_ne hne with hlt | hgt
            · exact (List.nodup_iff_getElem?_ne_getElem?.1 hnd) v.toNat i hlt hi
                (h2.trans hik.symm)
            · exact (List.nodup_iff_getElem?_ne_getElem?.1 hnd) i v.toNat hgt hv
                (hik.trans h2.symm)
          have hvi : v = (i : Int) := by omega
          rw [hvi]
      · intro k hk
        by_contra hno
        exact hk ((ha k).2 hno)
  · intro msg hmsg
    rw [hshape] at hmsg
    by_cases h : key_vec.length
        ≠ (forLoop (CheckKeys_body Trim key_vec) key_vec.length 0 ([], [])).1.length
    · rw [if_pos h] at hmsg
      have hmsg2 := Except.error.inj hmsg
      rw [CheckKeys_list_spec _ 0 _ (le_refl _) (by omega)] at hmsg2
      simp only at hmsg2
      refine ⟨((forLoop (CheckKeys_body Trim key_vec) key_vec.length 0 ([], [])).2.take
        ((6 : Int) - 0).toNat).map Prod.fst, ?_, ?_, ?_⟩
      · rw [List.length_map, List.length_take]
        exact le_trans (min_le_left _ _) (by decide)
      · intro k hk
        obtain ⟨e, he, hek⟩ := List.mem_map.1 hk
        rw [← hek]
        exact hd e (List.mem_of_mem_take he)
      · rw [← hmsg2, List.length_map]
        by_cases h5 : 5 < ((forLoop (CheckKeys_body Trim key_vec) key_vec.length 0
            ([], [])).2.take ((6 : Int) - 0).toNat).length
        · rw [if_pos h5, if_pos (by omega)]
        · rw [if_neg h5, if_neg (by omega)]
          exact (String.append_empty _).symm
    · rw [if_neg h] at hmsg
      exact Except.noConfusion hmsg

/-- C29 on the keys `"b"`, `" a"`, `"c "`: no exception, and the map sends `a`
to 1, `b` to 0 and `c` to 2; on `"a"`, `" a"`, `"c "` the call throws and the
message lists the key `a`. -/
theorem C29_check_keys_witness :
    (CheckKeys trimEx "id" ["b", " a", "c "] []).toOption
        = some [("a", 1), ("b", 0), ("c", 2)]
      ∧ (trimmedKeys trimEx ["b", " a", "c "]).Nodup
      ∧ ¬ (trimmedKeys trimEx ["a", " a", "c "]).Nodup
      ∧ (∃ msg, CheckKeys trimEx "id" ["a", " a", "c "] [] = Except.error msg)
      ∧ thrownMessage (CheckKeys trimEx "id" ["a", " a", "c "] [])
        = some (CheckKeys_header "id" ++ "a\n") :=
  ⟨by decide!, by decide!, by decide!,
    (C29_check_keys trimEx "id" ["a", " a", "c "] (by decide)).1.2 (by decide!), by decide!⟩

end Geoda
